import Mathlib

/-!
# SAP header and packet codec (openaudiocollective/sap)

A shallow embedding of `header.go`, `packet.go`, `hash.go` and `errors.go`.

Conventions of the embedding.

* Machine integers are natural numbers; a `uint8` operation that can overflow is
  reduced `% 256` where the source truncates.
* A byte buffer is a `List Nat`.  A Go slice field that may be `nil`
  (`AuthenticationData`, `OriginatingSource`, `Payload`) is an `Option (List _)`,
  `none` being the nil slice.
* A Go string is the list of its bytes.
* Every buffer index and slice expression of the source is a checked operation that
  yields `Error.runtimePanic` when it is out of range, so that a run-time panic of
  the Go code is an observable outcome of the model.  Slice bounds are checked
  against the length of the buffer (buffers have capacity equal to their length,
  as the ones made by `Marshal` have).
* `mime.ParseMediaType` is a collaborator outside the repository: the decoder takes
  it as the parameter `parseMediaType`, which returns the media type or the message
  of the error.  `crc32.ChecksumIEEE` is likewise the parameter `checksumIEEE`.
* `Unmarshal` returns the receiver after the call; when it returns an error the
  partially updated receiver is dropped.
-/

namespace Sap

/-! ## errors.go -/

/-- The error values of `errors.go`, `io.ErrShortBuffer`, an error passed through
from `mime.ParseMediaType`, and the run-time panic of an out-of-range access. -/
inductive Error where
  | errBufTooSmallForFlags
  | errBufTooSmallForAuthLength
  | errBufTooSmallForAuthData
  | errBufTooSmallForMsgIdHash
  | errBufTooSmallForIPv4
  | errBufTooSmallForIPv6
  | errBufTooSmallForPayload
  | errBufTooSmallForPayloadType
  | errBufTooSmallForHeader
  | errNoTrailingByteFound
  | errInvalidIPOnHeader
  | errShortBuffer
  | errMediaType (msg : String)
  | runtimePanic
  deriving DecidableEq, Repr

deriving instance DecidableEq for Except

/-! ## Go slices and buffers -/

/-- Length of a Go slice, `len(s)`; the nil slice has length 0. -/
def len {α : Type} (s : Option (List α)) : Nat := (s.getD []).length

/-- Elements of a Go slice in order; the nil slice has none. -/
def elems {α : Type} (s : Option (List α)) : List α := s.getD []

/-- Bytes of an ASCII string literal. -/
def asciiBytes (s : String) : List Nat := s.toList.map Char.toNat

/-- Checked read `buf[i]`. -/
def index (buf : List Nat) (i : Nat) : Except Error Nat :=
  match buf[i]? with
  | some b => .ok b
  | none => .error .runtimePanic

/-- Checked slice `buf[lo:]`. -/
def sliceFrom (buf : List Nat) (lo : Nat) : Except Error (List Nat) :=
  if lo ≤ buf.length then .ok (buf.drop lo) else .error .runtimePanic

/-- Checked slice `buf[lo:hi]`. -/
def slice (buf : List Nat) (lo hi : Nat) : Except Error (List Nat) :=
  if lo ≤ hi ∧ hi ≤ buf.length then .ok ((buf.drop lo).take (hi - lo))
  else .error .runtimePanic

/-- Checked store `buf[i] = v`. -/
def store (buf : List Nat) (i v : Nat) : Except Error (List Nat) :=
  if i < buf.length then .ok (buf.set i v) else .error .runtimePanic

/-- Checked read-modify-write `buf[i] |= v` on bytes. -/
def orStore (buf : List Nat) (i v : Nat) : Except Error (List Nat) :=
  match buf[i]? with
  | some b => .ok (buf.set i (b ||| v))
  | none => .error .runtimePanic

/-- The buffer after `bs` has been written at offset `pos` (all of `bs` fits). -/
def writeAt (buf : List Nat) (pos : Nat) (bs : List Nat) : List Nat :=
  buf.take pos ++ bs ++ buf.drop (pos + bs.length)

/-- The builtin `copy(buf[pos:], src)`: it panics when `pos` is past the end of the
buffer and otherwise copies as many bytes of `src` as fit. -/
def copyAt (buf : List Nat) (pos : Nat) (src : List Nat) : Except Error (List Nat) :=
  if pos ≤ buf.length then .ok (writeAt buf pos (src.take (buf.length - pos)))
  else .error .runtimePanic

/-! ## encoding/binary, big endian -/

/-- Model of `binary.BigEndian.Uint16(b)`: the value `256 * b[0] + b[1]`. -/
def Uint16 (b : List Nat) : Except Error Nat := do
  let b1 ← index b 1
  let b0 ← index b 0
  pure (b0 * 256 + b1)

/-- Model of `binary.BigEndian.Uint32(b)`. -/
def Uint32 (b : List Nat) : Except Error Nat := do
  let b3 ← index b 3
  let b0 ← index b 0
  let b1 ← index b 1
  let b2 ← index b 2
  pure (b0 * 16777216 + b1 * 65536 + b2 * 256 + b3)

/-- The two big-endian bytes of a `uint16`. -/
def be16 (v : Nat) : List Nat := [v / 256 % 256, v % 256]

/-- The four big-endian bytes of a `uint32`. -/
def be32 (v : Nat) : List Nat :=
  [v / 16777216 % 256, v / 65536 % 256, v / 256 % 256, v % 256]

/-- Model of `binary.BigEndian.PutUint16(buf[pos:], v)`: the slice expression panics
when `pos` is past the end, the call panics when fewer than 2 bytes are left. -/
def PutUint16 (buf : List Nat) (pos v : Nat) : Except Error (List Nat) :=
  if pos + 2 ≤ buf.length then .ok (writeAt buf pos (be16 v)) else .error .runtimePanic

/-- Model of `binary.BigEndian.PutUint32(buf[pos:pos+4], v)`: the slice expression
panics when `pos + 4` is past the end. -/
def PutUint32 (buf : List Nat) (pos v : Nat) : Except Error (List Nat) :=
  if pos + 4 ≤ buf.length then .ok (writeAt buf pos (be32 v)) else .error .runtimePanic

/-! ## net.IP -/

/-- The 12-byte lead of an IPv4-mapped IPv6 address (`net.v4InV6Prefix`). -/
def v4InV6Lead : List Nat := [0, 0, 0, 0, 0, 0, 0, 0, 0, 0, 0xff, 0xff]

/-- Model of `net.IPv4(a, b, c, d)`: the 16-byte form of the IPv4 address. -/
def netIPv4 (a b c d : Nat) : Option (List Nat) := some (v4InV6Lead ++ [a, b, c, d])

/-- Model of `net.IP.To4`: a 4-byte address is returned as it is, a 16-byte
IPv4-mapped address gives its last four bytes, anything else gives nil. -/
def To4 (ip : Option (List Nat)) : Option (List Nat) :=
  if len ip = 4 then ip
  else if len ip = 16 ∧ (elems ip).take 12 = v4InV6Lead then some ((elems ip).drop 12)
  else none

/-- Model of `net.IP.To16`: a 4-byte address is converted with `net.IPv4`, a 16-byte
address is returned as it is, anything else gives nil. -/
def To16 (ip : Option (List Nat)) : Option (List Nat) :=
  if len ip = 4 then some (v4InV6Lead ++ elems ip)
  else if len ip = 16 then ip
  else none

/-! ## header.go -/

/-- The `Header` struct. -/
structure Header where
  Version : Nat
  AddressType : Nat
  Reserved : Nat
  MessageType : Nat
  Encrypted : Nat
  Compressed : Nat
  AuthenticationLength : Nat
  AuthenticationData : Option (List Nat)
  MessageIDHash : Nat
  OriginatingSource : Option (List Nat)
  PayloadType : List Nat
  deriving DecidableEq, Repr

/-- The zero value `Header{}`. -/
def Header.zero : Header :=
  { Version := 0, AddressType := 0, Reserved := 0, MessageType := 0, Encrypted := 0,
    Compressed := 0, AuthenticationLength := 0, AuthenticationData := none,
    MessageIDHash := 0, OriginatingSource := none, PayloadType := [] }

/-- `Announcement MessageType = 0`. -/
def Announcement : Nat := 0
/-- `Deletion MessageType = 1`. -/
def Deletion : Nat := 1
/-- `IPv4 AddressType = 0`. -/
def IPv4 : Nat := 0
/-- `IPv6 AddressType = 0`, as the source declares it. -/
def IPv6 : Nat := 0

def versionShift : Nat := 5
def addressShift : Nat := 4
def reservedShift : Nat := 3
def messageTypeShift : Nat := 2
def encryptedShift : Nat := 1
def compressedShift : Nat := 0
def oneBitMask : Nat := 0x01

/-- `Header.MarshalSize`. -/
def Header.MarshalSize (h : Header) : Nat :=
  let size := 1
  let size := size + 1
  let size := size + 2
  let size := size + len h.AuthenticationData * 4
  let size := if h.AddressType = 0 then size + 4 else size + 16
  if h.PayloadType = [] then size
  else
    let size := size + h.PayloadType.length
    size + 1

/-- The loop of `Header.Unmarshal` that reads the authentication words: `k` words are
still to be read and `currentPosition` is the offset of the next one.  It returns
the words in order and the position after the last one. -/
def readAuthData (buf : List Nat) : Nat → Nat → Except Error (List Nat × Nat)
  | 0, currentPosition => pure ([], currentPosition)
  | k + 1, currentPosition => do
      let word ← Uint32 (← slice buf currentPosition (currentPosition + 4))
      let (words, last) ← readAuthData buf k (currentPosition + 4)
      pure (word :: words, last)

/-- The loop of `Header.Unmarshal` that looks for the trailing zero byte: `i` is the
loop counter and `k` is `len(buf[currentPosition:]) - i`, the number of iterations
left before the loop condition fails.  It returns the value of `i` after the loop. -/
def scanZero (buf : List Nat) (currentPosition : Nat) : Nat → Nat → Except Error Nat
  | 0, i => pure i
  | k + 1, i => do
      if (← index buf (currentPosition + i)) = 0 then pure i
      else scanZero buf currentPosition k (i + 1)

/-- The `Originating Source` block of `Header.Unmarshal` (the `switch` on
`h.AddressType`): the header and the position after it. -/
def unmarshalOriginatingSource (h : Header) (buf : List Nat) (currentPosition : Nat) :
    Except Error (Header × Nat) :=
  if h.AddressType = 0 then do
    if (← sliceFrom buf currentPosition).length < 4 then
      throw Error.errBufTooSmallForIPv4
    let a ← index buf currentPosition
    let b ← index buf (currentPosition + 1)
    let c ← index buf (currentPosition + 2)
    let d ← index buf (currentPosition + 3)
    pure ({ h with OriginatingSource := netIPv4 a b c d }, currentPosition + 4)
  else if h.AddressType = 1 then do
    if (← sliceFrom buf currentPosition).length < 16 then
      throw Error.errBufTooSmallForIPv6
    let ip ← slice buf currentPosition (currentPosition + 16)
    pure ({ h with OriginatingSource := some ip }, currentPosition + 16)
  else pure (h, currentPosition)

/-- The `Authentication Data` block of `Header.Unmarshal`: the header and the
position after it. -/
def unmarshalAuthenticationData (h : Header) (buf : List Nat) (currentPosition : Nat) :
    Except Error (Header × Nat) :=
  if h.AuthenticationLength ≠ 0 then do
    if (← sliceFrom buf currentPosition).length < h.AuthenticationLength * 4 then
      throw Error.errBufTooSmallForAuthData
    let (words, last) ← readAuthData buf h.AuthenticationLength currentPosition
    pure ({ h with AuthenticationData := some words }, last)
  else pure (h, currentPosition)

/-- The payload type block of `Header.Unmarshal`, from the test for an omitted
payload type to the end of the function. -/
def unmarshalPayloadType (parseMediaType : List Nat → Except String (List Nat))
    (h : Header) (buf : List Nat) (currentPosition : Nat) : Except Error Header := do
  let remaining := (← sliceFrom buf currentPosition).length
  let omitted ←
    if remaining < 3 then pure true
    else if remaining ≥ 3 then do
      let lead ← slice buf currentPosition (currentPosition + 3)
      pure (decide (lead = asciiBytes "v=0"))
    else pure false
  if omitted then
    pure { h with PayloadType := [] }
  else do
    let i ← scanZero buf currentPosition remaining 0
    let notFound ←
      if i = remaining then do
        let last ← index buf (currentPosition + (i - 1))
        pure (decide (last ≠ 0))
      else pure false
    if notFound then
      throw Error.errNoTrailingByteFound
    match parseMediaType (← slice buf currentPosition (currentPosition + i)) with
    | .error msg => throw (Error.errMediaType msg)
    | .ok mediaType => pure { h with PayloadType := mediaType }

/-- `Header.Unmarshal`: the receiver `h` after parsing `buf`, or the error.  The
three variable-size blocks of the function are the definitions above. -/
def Header.Unmarshal (parseMediaType : List Nat → Except String (List Nat))
    (h : Header) (buf : List Nat) : Except Error Header := do
  let currentPosition := 0
  if (← sliceFrom buf currentPosition).length < 1 then
    throw Error.errBufTooSmallForFlags
  let h := { h with Version := ((← index buf currentPosition) >>> versionShift) &&& oneBitMask }
  let h := { h with
    AddressType := ((← index buf currentPosition) >>> addressShift) &&& oneBitMask }
  let h := { h with Reserved := ((← index buf currentPosition) >>> reservedShift) &&& oneBitMask }
  let h := { h with
    MessageType := ((← index buf currentPosition) >>> messageTypeShift) &&& oneBitMask }
  let h := { h with
    Encrypted := ((← index buf currentPosition) >>> encryptedShift) &&& oneBitMask }
  let h := { h with
    Compressed := ((← index buf currentPosition) >>> compressedShift) &&& oneBitMask }
  let currentPosition := currentPosition + 1
  if (← sliceFrom buf currentPosition).length < 1 then
    throw Error.errBufTooSmallForAuthLength
  let h := { h with AuthenticationLength := ← index buf currentPosition }
  let currentPosition := currentPosition + 1
  if (← sliceFrom buf currentPosition).length < 2 then
    throw Error.errBufTooSmallForMsgIdHash
  let h := { h with
    MessageIDHash := ← Uint16 (← slice buf currentPosition (currentPosition + 2)) }
  let currentPosition := currentPosition + 2
  let (h, currentPosition) ← unmarshalOriginatingSource h buf currentPosition
  let (h, currentPosition) ← unmarshalAuthenticationData h buf currentPosition
  unmarshalPayloadType parseMediaType h buf currentPosition

/-- The loop of `Header.MarshalTo` over `h.AuthenticationData`: it returns the buffer
and the position after the last word. -/
def putAuthData : List Nat → List Nat → Nat → Except Error (List Nat × Nat)
  | [], buf, currentPosition => pure (buf, currentPosition)
  | data :: rest, buf, currentPosition => do
      let buf ← PutUint32 buf currentPosition data
      putAuthData rest buf (currentPosition + 4)

/-- The loop of `Header.MarshalTo` over the bytes of the payload type, `i` being the
loop index. -/
def putPayloadType (currentPosition : Nat) : List Nat → List Nat → Nat → Except Error (List Nat)
  | [], buf, _ => pure buf
  | b :: rest, buf, i => do
      let buf ← store buf (currentPosition + i) b
      putPayloadType currentPosition rest buf (i + 1)

/-- The `Originating Source` block of `Header.MarshalTo`: the buffer and the
position after it. -/
def marshalOriginatingSource (h : Header) (buf : List Nat) (currentPosition : Nat) :
    Except Error (List Nat × Nat) :=
  match To4 h.OriginatingSource with
  | some ip4 => do
      let buf ← copyAt buf currentPosition ip4
      pure (buf, currentPosition + 4)
  | none =>
    match To16 h.OriginatingSource with
    | some ip16 => do
        let buf ← copyAt buf currentPosition ip16
        pure (buf, currentPosition + 16)
    | none => throw Error.errInvalidIPOnHeader

/-- The `Payload Type` block of `Header.MarshalTo`: the buffer and the position
after it. -/
def marshalPayloadType (h : Header) (buf : List Nat) (currentPosition : Nat) :
    Except Error (List Nat × Nat) :=
  if h.PayloadType ≠ [] then do
    let buf ← putPayloadType currentPosition h.PayloadType buf 0
    let currentPosition := currentPosition + h.PayloadType.length
    let buf ← store buf currentPosition 0
    pure (buf, currentPosition + 1)
  else pure (buf, currentPosition)

/-- `Header.MarshalTo`: the count `n` and the buffer after the call, or the error.
The address and payload type blocks are the definitions above. -/
def Header.MarshalTo (h : Header) (buf : List Nat) : Except Error (Nat × List Nat) := do
  let size := h.MarshalSize
  if size > buf.length then
    throw Error.errShortBuffer
  let currentPosition := 0
  let buf ← store buf currentPosition ((h.Version <<< versionShift) % 256)
  let buf ← orStore buf currentPosition ((h.AddressType <<< addressShift) % 256)
  let buf ← orStore buf currentPosition ((h.Reserved <<< reservedShift) % 256)
  let buf ← orStore buf currentPosition ((h.MessageType <<< messageTypeShift) % 256)
  let buf ← orStore buf currentPosition ((h.Encrypted <<< encryptedShift) % 256)
  let buf ← orStore buf currentPosition ((h.Compressed <<< compressedShift) % 256)
  let currentPosition := currentPosition + 1
  let buf ← store buf currentPosition h.AuthenticationLength
  let currentPosition := currentPosition + 1
  let buf ← PutUint16 buf currentPosition h.MessageIDHash
  let currentPosition := currentPosition + 2
  let (buf, currentPosition) ← marshalOriginatingSource h buf currentPosition
  let (buf, currentPosition) ← putAuthData (elems h.AuthenticationData) buf currentPosition
  let (buf, currentPosition) ← marshalPayloadType h buf currentPosition
  pure (currentPosition, buf)

/-- `Header.Marshal`: a fresh buffer of `MarshalSize` zero bytes is filled by
`MarshalTo` and cut to `buf[:n]`. -/
def Header.Marshal (h : Header) : Except Error (List Nat) := do
  let buf := List.replicate h.MarshalSize 0
  let (n, buf) ← h.MarshalTo buf
  slice buf 0 n

/-- The builtin `copy(dst, src)` on whole slices: the first `min(len(dst), len(src))`
elements of `dst` are replaced by those of `src`. -/
def copySlice (dst src : List Nat) : List Nat :=
  src.take dst.length ++ dst.drop src.length

/-- `Header.Clone`: the struct is copied, and the authentication words and the
address are copied into fresh slices when they are not nil. -/
def Header.Clone (h : Header) : Header :=
  let clone := h
  let clone :=
    match h.AuthenticationData with
    | some words =>
        { clone with
          AuthenticationData := some (copySlice (List.replicate words.length 0) words) }
    | none => clone
  let clone :=
    match h.OriginatingSource with
    | some ip =>
        { clone with OriginatingSource := some (copySlice (List.replicate ip.length 0) ip) }
    | none => clone
  let clone := { clone with PayloadType := h.PayloadType }
  clone

/-! ## hash.go -/

/-- `ComputeMsgIdHash`: the low 16 bits of the CRC-32 checksum of the payload. -/
def ComputeMsgIdHash (checksumIEEE : List Nat → Nat) (payload : Option (List Nat)) : Nat :=
  (checksumIEEE (elems payload) &&& 0xFFFF) % 65536

/-! ## packet.go -/

/-- The `Packet` struct. -/
structure Packet where
  Header : Header
  Payload : Option (List Nat)
  deriving DecidableEq, Repr

/-- The zero value `Packet{}`. -/
def Packet.zero : Packet := { Header := Header.zero, Payload := none }

/-- `Packet.MarshalSize`. -/
def Packet.MarshalSize (p : Packet) : Nat :=
  p.Header.MarshalSize + len p.Payload

/-- `Packet.MarshalTo`: the count and the buffer after the call, or the error. -/
def Packet.MarshalTo (checksumIEEE : List Nat → Nat) (p : Packet) (buf : List Nat) :
    Except Error (Nat × List Nat) := do
  let headerSize := p.Header.MarshalSize
  if buf.length < headerSize then
    throw Error.errBufTooSmallForHeader
  let p :=
    if p.Header.MessageIDHash = 0 then
      { p with Header := { p.Header with
          MessageIDHash := ComputeMsgIdHash checksumIEEE p.Payload } }
    else p
  let (n, buf) ← p.Header.MarshalTo buf
  if buf.length < headerSize + len p.Payload then
    throw Error.errBufTooSmallForPayload
  let payloadSize := min (buf.length - n) (len p.Payload)
  let buf ← copyAt buf n (elems p.Payload)
  pure (headerSize + payloadSize, buf)

/-- `Packet.Marshal`. -/
def Packet.Marshal (checksumIEEE : List Nat → Nat) (p : Packet) : Except Error (List Nat) := do
  let buf := List.replicate p.MarshalSize 0
  let (n, buf) ← p.MarshalTo checksumIEEE buf
  slice buf 0 n

/-- `Packet.Unmarshal`: the receiver `p` after parsing `buf`, or the error. -/
def Packet.Unmarshal (parseMediaType : List Nat → Except String (List Nat))
    (p : Packet) (buf : List Nat) : Except Error Packet := do
  let header ← Header.Unmarshal parseMediaType p.Header buf
  let p := { p with Header := header }
  let headerSize := p.Header.MarshalSize
  let last := buf.length
  if buf.length > headerSize then
    pure { p with Payload := some (← slice buf headerSize last) }
  else
    pure p

/-- `Packet.Clone`: the header is cloned and the payload is copied into a fresh slice
when it is not nil. -/
def Packet.Clone (p : Packet) : Packet :=
  let clone := Packet.zero
  let clone := { clone with Header := p.Header.Clone }
  match p.Payload with
  | some payload =>
      { clone with Payload := some (copySlice (List.replicate payload.length 0) payload) }
  | none => clone

/-! ## factory.go -/

/-- The fields of `net.UDPAddr`; `NewPacket` reads the address only. -/
structure UDPAddr where
  IP : Option (List Nat)
  Port : Nat
  Zone : List Nat

/-- `WithMessageType`: the option that sets the message type. -/
def WithMessageType (msgType : Nat) : Header → Header :=
  fun h => { h with MessageType := msgType }

/-- `WithPayloadType`: the option that sets the payload type. -/
def WithPayloadType (payloadType : List Nat) : Header → Header :=
  fun h => { h with PayloadType := payloadType }

/-- `NewPacket`: the default header with the checksum of the payload as hash, the
address type chosen from the address by the constants `IPv4` and `IPv6`, then the
options applied in order.  The function returns no error. -/
def NewPacket (checksumIEEE : List Nat → Nat) (payload : Option (List Nat))
    (originatingSource : UDPAddr) (opts : List (Header → Header)) : Except Error Packet :=
  let header : Header :=
    { Version := 1, AddressType := 0, Reserved := 0, MessageType := 0, Encrypted := 0,
      Compressed := 0, AuthenticationLength := 0, AuthenticationData := some [],
      MessageIDHash := ComputeMsgIdHash checksumIEEE payload,
      OriginatingSource := originatingSource.IP, PayloadType := [] }
  let header :=
    if To4 originatingSource.IP ≠ none then { header with AddressType := IPv4 }
    else if To16 originatingSource.IP ≠ none then { header with AddressType := IPv6 }
    else header
  let header := opts.foldl (fun h opt => opt h) header
  pure { Header := header, Payload := payload }

/-! # Closed forms used in the proofs

These definitions are not part of the program: they describe, without checked
accesses, what the blocks of the decoder compute, and the theorems below prove that
they agree with the embedding. -/

/-- The first `k` big-endian 32-bit words of a byte sequence. -/
def beWords : Nat → List Nat → List Nat
  | 0, _ => []
  | k + 1, l =>
      (l.getD 0 0 * 16777216 + l.getD 1 0 * 65536 + l.getD 2 0 * 256 + l.getD 3 0) ::
        beWords k (l.drop 4)

/-- The outcome of the payload type block of the decoder on the bytes `tail` that
follow the authentication data. -/
def payloadTypeOutcome (parseMediaType : List Nat → Except String (List Nat))
    (h : Header) (tail : List Nat) : Except Error Header :=
  if tail.length < 3 ∨ tail.take 3 = asciiBytes "v=0" then .ok { h with PayloadType := [] }
  else if 0 ∉ tail then .error .errNoTrailingByteFound
  else
    match parseMediaType (tail.take (tail.indexOf 0)) with
    | .error msg => .error (.errMediaType msg)
    | .ok mediaType => .ok { h with PayloadType := mediaType }

/-- The header after the four fixed bytes have been read. -/
def fixedFields (h : Header) (b0 b1 b2 b3 : Nat) : Header :=
  { h with
    Version := (b0 >>> versionShift) &&& oneBitMask
    AddressType := (b0 >>> addressShift) &&& oneBitMask
    Reserved := (b0 >>> reservedShift) &&& oneBitMask
    MessageType := (b0 >>> messageTypeShift) &&& oneBitMask
    Encrypted := (b0 >>> encryptedShift) &&& oneBitMask
    Compressed := (b0 >>> compressedShift) &&& oneBitMask
    AuthenticationLength := b1
    MessageIDHash := b2 * 256 + b3 }

/-- Width in bytes of the address that an address type selects on the wire. -/
def addressWidth (addressType : Nat) : Nat := if addressType = 0 then 4 else 16

/-- The header after the address and the authentication words have been read from
`rest`, the bytes that follow the four fixed bytes. -/
def withAddressAndAuth (h : Header) (rest : List Nat) : Header :=
  { h with
    OriginatingSource :=
      if h.AddressType = 0 then
        netIPv4 (rest.getD 0 0) (rest.getD 1 0) (rest.getD 2 0) (rest.getD 3 0)
      else some (rest.take 16)
    AuthenticationData :=
      if h.AuthenticationLength ≠ 0 then
        some (beWords h.AuthenticationLength (rest.drop (addressWidth h.AddressType)))
      else h.AuthenticationData }

/-- Closed form of the decoder after the four fixed bytes: `h` holds the fixed fields
and `rest` is what follows them. -/
def decodeRest (parseMediaType : List Nat → Except String (List Nat))
    (h : Header) (rest : List Nat) : Except Error Header :=
  if rest.length < addressWidth h.AddressType then
    .error (if h.AddressType = 0 then .errBufTooSmallForIPv4 else .errBufTooSmallForIPv6)
  else if h.AuthenticationLength ≠ 0 ∧
      rest.length < addressWidth h.AddressType + h.AuthenticationLength * 4 then
    .error .errBufTooSmallForAuthData
  else
    payloadTypeOutcome parseMediaType (withAddressAndAuth h rest)
      (rest.drop (addressWidth h.AddressType + 4 * h.AuthenticationLength))

/-! # Test fixtures -/

/-- `CreateMockHeader` of `header_test.go`; `net.ParseIP` returns the 16-byte form of
the two literal addresses. -/
def CreateMockHeader (h : Header) : Header :=
  let h := { h with Version := 1 }
  let h :=
    if h.AddressType = 0 then
      if h.OriginatingSource = none then { h with OriginatingSource := netIPv4 192 0 2 1 } else h
    else
      if h.OriginatingSource = none then
        { h with
          OriginatingSource := some ([0x20, 0x01, 0x0d, 0xb8, 0, 0, 0, 0, 0, 0, 0, 0, 0, 0, 0, 0x68]) }
      else h
  let h := { h with AuthenticationData := some ((List.range h.AuthenticationLength).map (· + 1)) }
  let h := if h.MessageIDHash = 0 then { h with MessageIDHash := 12345 } else h
  h

/-! # The wire form of a header -/

/-- The flags byte written by `Header.MarshalTo`. -/
def flagsByte (h : Header) : Nat :=
  (h.Version <<< versionShift) % 256 ||| (h.AddressType <<< addressShift) % 256 |||
    (h.Reserved <<< reservedShift) % 256 ||| (h.MessageType <<< messageTypeShift) % 256 |||
    (h.Encrypted <<< encryptedShift) % 256 ||| (h.Compressed <<< compressedShift) % 256

/-- The bytes of a list of 32-bit words, each big-endian, in order. -/
def wordsBytes : List Nat → List Nat
  | [] => []
  | w :: ws => be32 w ++ wordsBytes ws

/-- The address bytes that `Header.MarshalTo` writes: those of `To4` when it is not
nil, else those of `To16`. -/
def wireAddress (ip : Option (List Nat)) : Option (List Nat) :=
  match To4 ip with
  | some ip4 => some ip4
  | none => To16 ip

/-- The payload type bytes on the wire: none for the empty payload type, else its
bytes and a zero byte. -/
def payloadTypeBytes (payloadType : List Nat) : List Nat :=
  if payloadType = [] then [] else payloadType ++ [0]

/-- The wire form of a header up to the authentication words, `address` being the
address bytes. -/
def wireFixed (h : Header) (address : List Nat) : List Nat :=
  [flagsByte h, h.AuthenticationLength] ++ be16 h.MessageIDHash ++ address ++
    wordsBytes (elems h.AuthenticationData)

/-- The wire form of a header whose address bytes are `address`. -/
def wire (h : Header) (address : List Nat) : List Nat :=
  wireFixed h address ++ payloadTypeBytes h.PayloadType

/-- A header of address type 1 (IPv6 on the wire) whose 16-byte address is the
IPv4-mapped address `::ffff:192.0.2.1`, as `net.ParseIP("192.0.2.1")` returns it. -/
def mappedAddressHeader : Header :=
  { Header.zero with
    Version := 1, AddressType := 1, MessageIDHash := 12345,
    OriginatingSource := netIPv4 192 0 2 1 }

/-! # Headers whose wire form decodes -/

/-- The header that the decoder builds from the wire form of `H` up to the
authentication words, `h0` being the receiver before the call: the version keeps one
bit, the address is in 16-byte form, the authentication words replace those of the
receiver only when there are some, and the payload type is still the receiver's. -/
def decodedFrom (h0 H : Header) : Header :=
  { H with
    Version := H.Version % 2
    OriginatingSource := To16 H.OriginatingSource
    AuthenticationData :=
      if H.AuthenticationLength ≠ 0 then some (elems H.AuthenticationData)
      else h0.AuthenticationData
    PayloadType := h0.PayloadType }

/-- The hypotheses on a header under which its wire form decodes: three version bits,
one-bit flags, a 16-bit hash, 32-bit authentication words counted by the
authentication length, and address bytes `a` that are those of an IPv4 address when
the address type is 0 and a 16-byte address that is not IPv4-mapped when it is 1. -/
structure Encodable (H : Header) (a : List Nat) : Prop where
  version : H.Version ≤ 7
  addressType : H.AddressType ≤ 1
  reserved : H.Reserved ≤ 1
  messageType : H.MessageType ≤ 1
  encrypted : H.Encrypted ≤ 1
  compressed : H.Compressed ≤ 1
  hash : H.MessageIDHash < 65536
  words : ∀ w ∈ elems H.AuthenticationData, w < 4294967296
  authLength : len H.AuthenticationData = H.AuthenticationLength
  address : (H.AddressType = 0 ∧ To4 H.OriginatingSource = some a) ∨
    (H.AddressType = 1 ∧ To4 H.OriginatingSource = none ∧ H.OriginatingSource = some a ∧
      a.length = 16)

/-! # A media type parser for closed examples

The theorems hold for every media type parser.  Closed examples need one: the
following follows `mime.ParseMediaType` of the Go library on ASCII input without
parameters (the part before the first `;` is lower-cased, trimmed and checked to be
`token` or `token/token`); what follows a `;` is dropped without being checked. -/

/-- The `tspecials` of RFC 2045: `( ) < > @ , ; : \ " / [ ] ? =`. -/
def tspecials : List Nat := [40, 41, 60, 62, 64, 44, 59, 58, 92, 34, 47, 91, 93, 63, 61]

/-- A byte that may occur in a token. -/
def isTokenChar (c : Nat) : Bool := decide (0x20 < c) && decide (c < 0x7f) && !(tspecials.contains c)

/-- ASCII lower case of a byte. -/
def toLowerByte (c : Nat) : Nat := if 65 ≤ c ∧ c ≤ 90 then c + 32 else c

/-- An ASCII white space byte. -/
def isSpaceByte (c : Nat) : Bool := c == 9 || c == 10 || c == 11 || c == 12 || c == 13 || c == 32

/-- The string without its leading and trailing ASCII white space. -/
def trimSpace (s : List Nat) : List Nat :=
  ((s.dropWhile isSpaceByte).reverse.dropWhile isSpaceByte).reverse

/-- The check of `mime.checkMediaTypeDisposition`: a token, or a token, a slash and a
token. -/
def checkMediaTypeDisposition (s : List Nat) : Except String Unit :=
  let typ := s.takeWhile isTokenChar
  let rest := s.dropWhile isTokenChar
  if typ = [] then .error "mime: no media type"
  else if rest = [] then .ok ()
  else if rest.head? ≠ some 47 then .error "mime: expected slash after first token"
  else
    let subtype := (rest.drop 1).takeWhile isTokenChar
    let rest := (rest.drop 1).dropWhile isTokenChar
    if subtype = [] then .error "mime: expected token after slash"
    else if rest ≠ [] then .error "mime: unexpected content after media subtype"
    else .ok ()

/-- The media type parser used in closed examples. -/
def parseMediaTypeModel (v : List Nat) : Except String (List Nat) :=
  let base := v.takeWhile (fun c => c != 59)
  let mediatype := trimSpace (base.map toLowerByte)
  match checkMediaTypeDisposition mediatype with
  | .error msg => .error msg
  | .ok _ => .ok mediatype

/-- A payload type that the decoder gives back as it is: the empty one, or a string of
at least two bytes without a zero byte that does not begin with "v=0" and that the
media type parser returns unchanged. -/
def CanonicalPayloadType (parseMediaType : List Nat → Except String (List Nat))
    (payloadType : List Nat) : Prop :=
  payloadType = [] ∨
    (2 ≤ payloadType.length ∧ 0 ∉ payloadType ∧ payloadType.take 3 ≠ asciiBytes "v=0" ∧
      parseMediaType payloadType = .ok payloadType)

/-- A version 1 header of address type 0 with the 4-byte address 192.0.2.1. -/
def fourByteAddressHeader : Header :=
  { Header.zero with
    Version := 1, MessageIDHash := 12345, OriginatingSource := some [192, 0, 2, 1] }

/-- The header that `Packet.MarshalTo` encodes: the hash is computed from the payload
when the header holds the sentinel 0. -/
def headerToEncode (checksumIEEE : List Nat → Nat) (p : Packet) : Header :=
  if p.Header.MessageIDHash = 0 then
    { p.Header with MessageIDHash := ComputeMsgIdHash checksumIEEE p.Payload }
  else p.Header

/-! # A checksum for closed examples

The theorems hold for every checksum function.  Closed examples use the standard
CRC-32 that `crc32.ChecksumIEEE` computes; the model gives the value 49394 that
`hash_test.go` expects for its session description. -/

/-- One bit step of the reflected CRC-32 with the IEEE polynomial. -/
def crc32Step (crc : Nat) : Nat :=
  if crc % 2 = 1 then (crc / 2) ^^^ 0xEDB88320 else crc / 2

/-- The CRC register after one more byte. -/
def crc32Byte (crc b : Nat) : Nat :=
  crc32Step (crc32Step (crc32Step (crc32Step (crc32Step (crc32Step (crc32Step (crc32Step
    (crc ^^^ b))))))))

/-- Model of `crc32.ChecksumIEEE`: the standard CRC-32 (IEEE 802.3), bit by bit. -/
def crc32IEEE (data : List Nat) : Nat :=
  (data.foldl crc32Byte 0xFFFFFFFF) ^^^ 0xFFFFFFFF

/-- `CreateMockPacket` of `packet_test.go`. -/
def CreateMockPacket (p : Packet) : Packet :=
  { Header := CreateMockHeader p.Header, Payload := p.Payload }

/-- The mock packet with the three byte payload "abc", which is not a session
description and holds no zero byte. -/
def nonSdpPacket : Packet :=
  CreateMockPacket { Packet.zero with Payload := some (asciiBytes "abc") }

/-- A version 1 packet whose hash is the sentinel 0, with the payload "v=0". -/
def sentinelHashPacket : Packet :=
  { Header := { Header.zero with Version := 1, OriginatingSource := netIPv4 192 0 2 1 },
    Payload := some (asciiBytes "v=0") }

/-- A packet without payload whose header has the 4-byte address 192.0.2.1. -/
def fourByteAddressPacket : Packet :=
  { Header := fourByteAddressHeader, Payload := none }

/-- The mock packet with the payload type "application/json" and a two byte payload
that is not a session description. -/
def jsonMockPacket : Packet :=
  CreateMockPacket
    { Header := { Header.zero with PayloadType := asciiBytes "application/json" },
      Payload := some [0x10, 0x04] }

/-- The mock packet with the payload "v=0" followed by a line feed. -/
def sdpMockPacket : Packet :=
  CreateMockPacket { Packet.zero with Payload := some [118, 61, 48, 10] }

/-- A version 1 header with the address 192.0.2.1 in 16-byte form, no authentication
words and the payload type "application/sdp". -/
def sdpTypeHeader : Header :=
  { Header.zero with
    Version := 1, MessageIDHash := 12345, OriginatingSource := netIPv4 192 0 2 1,
    PayloadType := asciiBytes "application/sdp" }

/-- A version 1 header with the address 192.0.2.1 in 16-byte form, no authentication
words and the payload type "Text/Plain", a media type written with capitals. -/
def upperCaseTypeHeader : Header :=
  { Header.zero with
    Version := 1, MessageIDHash := 12345, OriginatingSource := netIPv4 192 0 2 1,
    PayloadType := asciiBytes "Text/Plain" }

/-- A packet without payload whose header has the payload type "Text/Plain". -/
def upperCaseTypePacket : Packet :=
  { Header := upperCaseTypeHeader, Payload := none }

/-! # Buffers for closed examples of the decoder -/

/-- A header of 8 bytes, the payload type string "text/plain; charset=utf-8" with its
zero byte, and the payload "hello". -/
def parameterTypeBuffer : List Nat :=
  [32, 0, 48, 57, 192, 0, 2, 1] ++ asciiBytes "text/plain; charset=utf-8" ++ [0] ++
    asciiBytes "hello"

/-- An IPv4 header with two authentication words, 1 and 2, and nothing after them. -/
def twoWordsBuffer : List Nat :=
  [32, 2, 48, 57, 192, 0, 2, 1, 0, 0, 0, 1, 0, 0, 0, 2]

/-- An IPv4 header without authentication words and without payload. -/
def plainHeaderBuffer : List Nat := [32, 0, 48, 57, 192, 0, 2, 1]

/-- The header that `plainHeaderBuffer` encodes, address in 16-byte form. -/
def plainHeader : Header :=
  { Header.zero with
    Version := 1, MessageIDHash := 12345, OriginatingSource := netIPv4 192 0 2 1 }

/-- An IPv4 header without authentication words followed by the payload "v=0" and a
line feed. -/
def sdpBuffer : List Nat := [32, 0, 48, 57, 192, 0, 2, 1, 118, 61, 48, 10]

/-- A result that is a value or a run-time panic, never an error value. -/
def OnlyPanics {α : Type} (r : Except Error α) : Prop :=
  ∀ e, r = .error e → e = .runtimePanic

/-- The header of `TestHeaderMarshalTo_InvalidIP`: the mock header with an address of
three bytes. -/
def invalidAddressHeader : Header :=
  CreateMockHeader { Header.zero with OriginatingSource := some [0, 0, 0] }

/-- A version 1 header of address type 1 (IPv6 on the wire) with the 4-byte address
192.0.2.1. -/
def fourByteAddressTypeOneHeader : Header :=
  { Header.zero with
    Version := 1, AddressType := 1, MessageIDHash := 12345,
    OriginatingSource := some [192, 0, 2, 1] }

/-- A version 1 header of address type 0 (IPv4 on the wire) with the 16-byte address
2001:db8::68, which is not an IPv4 address. -/
def sixteenByteAddressTypeZeroHeader : Header :=
  { Header.zero with
    Version := 1, AddressType := 0, MessageIDHash := 12345,
    OriginatingSource := some [0x20, 0x01, 0x0d, 0xb8, 0, 0, 0, 0, 0, 0, 0, 0, 0, 0, 0, 0x68] }

/-- The mock packet of `TestHeaderMarshalToErrors`, with the two byte payload
0x10 0x04. -/
def twoBytePayloadPacket : Packet :=
  CreateMockPacket { Packet.zero with Payload := some [0x10, 0x04] }

/-- The header `plainHeader` with the version 2. -/
def versionTwoHeader : Header := { plainHeader with Version := 2 }

/-- The header `plainHeader` with the version 3 and the payload type
"application/json". -/
def versionThreeHeader : Header :=
  { plainHeader with Version := 3, PayloadType := asciiBytes "application/json" }

/-- The UDP address 192.0.2.1, port 9875, the address in the 16-byte form that
`net.ParseIP` returns. -/
def documentationAddress4 : UDPAddr := { IP := netIPv4 192 0 2 1, Port := 9875, Zone := [] }

/-- The UDP address 2001:db8::68, port 9875. -/
def documentationAddress6 : UDPAddr :=
  { IP := some [0x20, 0x01, 0x0d, 0xb8, 0, 0, 0, 0, 0, 0, 0, 0, 0, 0, 0, 0x68],
    Port := 9875, Zone := [] }

/-- The first two lines of a session description, 29 bytes. -/
def sessionPayload : Option (List Nat) :=
  some (asciiBytes "v=0\no=- 1 1 IN IP4 192.0.2.1\n")

/-- An IPv4 header followed by the one byte payload type "a", its zero byte and one
payload byte. -/
def oneByteTypeBuffer : List Nat := [32, 0, 48, 57, 192, 0, 2, 1, 97, 0, 7]

/-- The packet that a zero-valued packet holds after decoding the bytes of
`sdpMockPacket`: the same fields, with a nil authentication list. -/
def sdpDecodedPacket : Packet :=
  { Header := { sdpMockPacket.Header with AuthenticationData := none },
    Payload := sdpMockPacket.Payload }

/-- The mock packet with two authentication words and the payload "v=0" followed by a
line feed. -/
def sdpTwoWordsPacket : Packet :=
  CreateMockPacket
    { Header := { Header.zero with AuthenticationLength := 2 },
      Payload := some [118, 61, 48, 10] }

/-! # Theorems -/

/-! ## Evaluation rules for the checked buffer operations -/

theorem ok_bind {α β : Type} (a : α) (f : α → Except Error β) :
    ((Except.ok a : Except Error α) >>= f) = f a := rfl

theorem error_bind {α β : Type} (e : Error) (f : α → Except Error β) :
    ((Except.error e : Except Error α) >>= f) = .error e := rfl

theorem pure_eq_ok {α : Type} (a : α) : (pure a : Except Error α) = .ok a := rfl

theorem throw_eq_error {α : Type} (e : Error) : (throw e : Except Error α) = .error e := rfl

theorem sliceFrom_ok (buf : List Nat) (lo : Nat) (h : lo ≤ buf.length) :
    sliceFrom buf lo = .ok (buf.drop lo) := by
  simp [sliceFrom, h]

theorem slice_ok (buf : List Nat) (lo hi : Nat) (h1 : lo ≤ hi) (h2 : hi ≤ buf.length) :
    slice buf lo hi = .ok ((buf.drop lo).take (hi - lo)) := by
  simp [slice, h1, h2]

theorem index_ok (buf : List Nat) (i : Nat) (h : i < buf.length) :
    index buf i = .ok (buf.getD i 0) := by
  simp [index, List.getD_eq_getElem?_getD, List.getElem?_eq_getElem h]

theorem sliceFrom_zero (buf : List Nat) : sliceFrom buf 0 = .ok buf := by
  simp [sliceFrom]

theorem sliceFrom_cons_succ (b : Nat) (buf : List Nat) (n : Nat) :
    sliceFrom (b :: buf) (n + 1) = sliceFrom buf n := by
  simp [sliceFrom]

theorem index_cons_zero (b : Nat) (buf : List Nat) : index (b :: buf) 0 = .ok b := by
  simp [index]

theorem index_cons_succ (b : Nat) (buf : List Nat) (n : Nat) :
    index (b :: buf) (n + 1) = index buf n := by
  simp [index]

theorem slice_cons_succ (b : Nat) (buf : List Nat) (lo hi : Nat) :
    slice (b :: buf) (lo + 1) (hi + 1) = slice buf lo hi := by
  simp [slice]

theorem slice_zero (buf : List Nat) (hi : Nat) (h : hi ≤ buf.length) :
    slice buf 0 hi = .ok (buf.take hi) := by
  simp [slice, h]

/-! ## The loops of the decoder -/

theorem beWords_length (k : Nat) (l : List Nat) : (beWords k l).length = k := by
  induction k generalizing l with
  | zero => rfl
  | succ k ih => simp [beWords, ih]

theorem Uint32_take4 (l : List Nat) (h : 4 ≤ l.length) :
    Uint32 (l.take 4) =
      .ok (l.getD 0 0 * 16777216 + l.getD 1 0 * 65536 + l.getD 2 0 * 256 + l.getD 3 0) := by
  match l, h with
  | a :: b :: c :: d :: t, _ =>
    simp only [List.take_succ_cons, List.take_zero, Uint32, index_cons_succ, index_cons_zero,
      ok_bind, pure_eq_ok, List.getD_cons_zero, List.getD_cons_succ]

theorem readAuthData_eq (buf : List Nat) (k cur : Nat) (h : cur + 4 * k ≤ buf.length) :
    readAuthData buf k cur = .ok (beWords k (buf.drop cur), cur + 4 * k) := by
  induction k generalizing cur with
  | zero => rfl
  | succ k ih =>
    have h4 : 4 ≤ (buf.drop cur).length := by simp only [List.length_drop]; omega
    rw [readAuthData, slice_ok buf cur (cur + 4) (by omega) (by omega), ok_bind]
    rw [show cur + 4 - cur = 4 by omega, Uint32_take4 _ h4, ok_bind, ih (cur + 4) (by omega),
      ok_bind]
    show Except.ok _ = _
    rw [beWords, List.drop_drop, show cur + 4 + 4 * k = cur + 4 * (k + 1) by omega]

theorem scanZero_eq (buf : List Nat) (cur k i : Nat) (h : cur + i + k = buf.length) :
    scanZero buf cur k i = .ok (i + (buf.drop (cur + i)).indexOf 0) := by
  induction k generalizing i with
  | zero =>
    have : buf.drop (cur + i) = [] := List.drop_eq_nil_of_le (by omega)
    simp [scanZero, this, pure_eq_ok]
  | succ k ih =>
    have hlt : cur + i < buf.length := by omega
    rw [scanZero, index_ok buf _ hlt, ok_bind]
    obtain ⟨x, t, hx⟩ : ∃ x t, buf.drop (cur + i) = x :: t := by
      cases hd : buf.drop (cur + i) with
      | nil => simp [List.drop_eq_nil_iff] at hd; omega
      | cons x t => exact ⟨x, t, rfl⟩
    have hget : buf.getD (cur + i) 0 = x := by
      have := congrArg (fun l => l.getD 0 0) hx
      simpa [List.getD_eq_getElem?_getD, List.getElem?_drop] using this
    have ht : buf.drop (cur + (i + 1)) = t := by
      have := congrArg (fun l => l.drop 1) hx
      simpa [List.drop_drop, Nat.add_assoc, Nat.add_comm 1] using this
    rw [hget, hx]
    by_cases hz : x = 0
    · simp [hz, pure_eq_ok]
    · rw [if_neg hz, ih (i + 1) (by omega), ht, List.indexOf_cons_ne _ hz]
      congr 1; omega

/-! ## The blocks of the decoder -/

theorem getD_drop_mem (buf : List Nat) (cur j : Nat) (h : cur + j < buf.length) :
    buf.getD (cur + j) 0 ∈ buf.drop cur := by
  have h1 : j < (buf.drop cur).length := by simp only [List.length_drop]; omega
  have h2 : (buf.drop cur)[j] = buf.getD (cur + j) 0 := by
    simp [List.getD_eq_getElem?_getD, List.getElem?_eq_getElem h]
  rw [← h2]
  exact List.getElem_mem h1

theorem unmarshalPayloadType_eq (parse : List Nat → Except String (List Nat)) (h : Header)
    (buf : List Nat) (cur : Nat) (hcur : cur ≤ buf.length) :
    unmarshalPayloadType parse h buf cur = payloadTypeOutcome parse h (buf.drop cur) := by
  unfold unmarshalPayloadType payloadTypeOutcome
  rw [sliceFrom_ok buf cur hcur, ok_bind]
  by_cases h3 : (buf.drop cur).length < 3
  · simp only [h3, if_true, true_or, ok_bind, pure_eq_ok]
  · have hlen : cur + 3 ≤ buf.length := by simp only [List.length_drop] at h3; omega
    have hge : (buf.drop cur).length ≥ 3 := by omega
    simp only [h3, if_false, hge, if_true, false_or, slice_ok buf cur (cur + 3) (by omega) hlen,
      ok_bind, pure_eq_ok, Nat.add_sub_cancel_left]
    by_cases hv : (buf.drop cur).take 3 = asciiBytes "v=0"
    · simp only [hv, decide_True, if_true]
    · simp only [hv, decide_False, if_false, Bool.false_eq_true]
      rw [scanZero_eq buf cur _ 0 (by simp only [List.length_drop]; omega), ok_bind]
      simp only [Nat.zero_add, Nat.add_zero]
      by_cases hz : 0 ∈ buf.drop cur
      · have hi : (buf.drop cur).indexOf 0 < (buf.drop cur).length := List.indexOf_lt_length.mpr hz
        have hne : ¬ (buf.drop cur).indexOf 0 = (buf.drop cur).length := by omega
        have hi2 : cur + (buf.drop cur).indexOf 0 ≤ buf.length := by
          simp only [List.length_drop] at hi; omega
        simp only [hne, if_false, pure_eq_ok, ok_bind, Bool.false_eq_true, hz, not_true_eq_false,
          slice_ok buf cur _ (Nat.le_add_right _ _) hi2, Nat.add_sub_cancel_left]
        cases parse ((buf.drop cur).take ((buf.drop cur).indexOf 0)) <;> rfl
      · have hi : (buf.drop cur).indexOf 0 = (buf.drop cur).length := List.indexOf_eq_length.mpr hz
        have hlast : cur + ((buf.drop cur).length - 1) < buf.length := by
          simp only [List.length_drop]; omega
        have hmem := getD_drop_mem buf cur ((buf.drop cur).length - 1) hlast
        have hnz : buf.getD (cur + ((buf.drop cur).length - 1)) 0 ≠ 0 := by
          intro h0; rw [h0] at hmem; exact hz hmem
        simp only [hi, if_true, index_ok buf _ hlast, ok_bind, pure_eq_ok, hnz, ne_eq,
          not_false_eq_true, decide_True, hz, throw_eq_error, error_bind]

theorem and_oneBitMask (x : Nat) : x &&& oneBitMask = 0 ∨ x &&& oneBitMask = 1 := by
  have h := Nat.and_one_is_mod x
  unfold oneBitMask
  omega

theorem unmarshalOriginatingSource_eq (h : Header) (b0 b1 b2 b3 : Nat) (rest : List Nat)
    (hA : h.AddressType = 0 ∨ h.AddressType = 1) :
    unmarshalOriginatingSource h (b0 :: b1 :: b2 :: b3 :: rest) 4 =
      if rest.length < addressWidth h.AddressType then
        .error (if h.AddressType = 0 then .errBufTooSmallForIPv4 else .errBufTooSmallForIPv6)
      else
        .ok ({ h with OriginatingSource :=
                if h.AddressType = 0 then
                  netIPv4 (rest.getD 0 0) (rest.getD 1 0) (rest.getD 2 0) (rest.getD 3 0)
                else some (rest.take 16) }, 4 + addressWidth h.AddressType) := by
  unfold unmarshalOriginatingSource addressWidth
  simp only [sliceFrom_cons_succ, sliceFrom_zero, index_cons_succ, slice_cons_succ, ok_bind,
    Nat.reduceAdd, throw_eq_error, pure_eq_ok]
  rcases hA with hA | hA
  · simp only [hA, if_true]
    by_cases hl : rest.length < 4
    · simp only [hl, if_true, error_bind]
    · simp only [hl, if_false, ok_bind, pure_eq_ok]
      rw [index_ok rest 0 (by omega), index_ok rest 1 (by omega), index_ok rest 2 (by omega),
        index_ok rest 3 (by omega)]
      rfl
  · simp only [hA, if_true, if_false, Nat.one_ne_zero]
    by_cases hl : rest.length < 16
    · simp only [hl, if_true, error_bind]
    · simp only [hl, if_false, ok_bind, pure_eq_ok]
      rw [slice_zero rest 16 (by omega)]
      rfl

theorem unmarshalAuthenticationData_eq (h : Header) (buf : List Nat) (cur : Nat)
    (hcur : cur ≤ buf.length) :
    unmarshalAuthenticationData h buf cur =
      if h.AuthenticationLength ≠ 0 ∧ buf.length < cur + h.AuthenticationLength * 4 then
        .error .errBufTooSmallForAuthData
      else
        .ok ({ h with AuthenticationData :=
                if h.AuthenticationLength ≠ 0 then
                  some (beWords h.AuthenticationLength (buf.drop cur))
                else h.AuthenticationData }, cur + 4 * h.AuthenticationLength) := by
  unfold unmarshalAuthenticationData
  by_cases h0 : h.AuthenticationLength = 0
  · simp only [h0, ne_eq, not_true_eq_false, if_false, false_and, pure_eq_ok, Nat.mul_zero,
      Nat.add_zero]
    cases h
    simp_all
  · simp only [ne_eq, h0, not_false_eq_true, if_true, true_and, sliceFrom_ok buf cur hcur, ok_bind,
      List.length_drop, throw_eq_error, pure_eq_ok]
    by_cases hl : buf.length < cur + h.AuthenticationLength * 4
    · have hl2 : buf.length - cur < h.AuthenticationLength * 4 := by omega
      simp only [hl, hl2, if_true, error_bind]
    · have hl2 : ¬ buf.length - cur < h.AuthenticationLength * 4 := by omega
      simp only [hl, hl2, if_false, ok_bind]
      rw [readAuthData_eq buf _ cur (by omega), ok_bind]

theorem Unmarshal_cons4 (parse : List Nat → Except String (List Nat)) (h : Header)
    (b0 b1 b2 b3 : Nat) (rest : List Nat) :
    Header.Unmarshal parse h (b0 :: b1 :: b2 :: b3 :: rest) =
      decodeRest parse (fixedFields h b0 b1 b2 b3) rest := by
  have hA : (fixedFields h b0 b1 b2 b3).AddressType = 0 ∨
      (fixedFields h b0 b1 b2 b3).AddressType = 1 := and_oneBitMask _
  have hstep : Header.Unmarshal parse h (b0 :: b1 :: b2 :: b3 :: rest) =
      (unmarshalOriginatingSource (fixedFields h b0 b1 b2 b3) (b0 :: b1 :: b2 :: b3 :: rest) 4
        >>= fun r =>
        unmarshalAuthenticationData r.1 (b0 :: b1 :: b2 :: b3 :: rest) r.2 >>= fun r =>
        unmarshalPayloadType parse r.1 (b0 :: b1 :: b2 :: b3 :: rest) r.2) := by
    unfold Header.Unmarshal
    simp only [sliceFrom_zero, sliceFrom_cons_succ, index_cons_zero, index_cons_succ,
      slice_cons_succ, slice_zero, ok_bind, error_bind, pure_eq_ok, throw_eq_error,
      List.length_cons, Nat.reduceAdd, Uint16]
    rw [if_neg (by omega), if_neg (by omega), if_neg (by omega),
      slice_zero _ 2 (by simp only [List.length_cons]; omega)]
    simp only [List.take_succ_cons, List.take_zero, ok_bind, index_cons_zero, index_cons_succ,
      pure_eq_ok]
    rfl
  rw [hstep, unmarshalOriginatingSource_eq _ _ _ _ _ _ hA]
  unfold decodeRest
  by_cases hw : rest.length < addressWidth (fixedFields h b0 b1 b2 b3).AddressType
  · simp only [hw, if_true, error_bind]
  · have hwl : addressWidth (fixedFields h b0 b1 b2 b3).AddressType ≤ rest.length := by omega
    simp only [hw, if_false, ok_bind]
    rw [unmarshalAuthenticationData_eq _ _ _ (by simp only [List.length_cons]; omega)]
    simp only [List.length_cons]
    by_cases ha : (fixedFields h b0 b1 b2 b3).AuthenticationLength ≠ 0 ∧
        rest.length < addressWidth (fixedFields h b0 b1 b2 b3).AddressType +
          (fixedFields h b0 b1 b2 b3).AuthenticationLength * 4
    · have ha2 : (fixedFields h b0 b1 b2 b3).AuthenticationLength ≠ 0 ∧
          rest.length + 1 + 1 + 1 + 1 < 4 + addressWidth (fixedFields h b0 b1 b2 b3).AddressType +
            (fixedFields h b0 b1 b2 b3).AuthenticationLength * 4 := ⟨ha.1, by omega⟩
      rw [if_pos ha2, if_pos ha, error_bind]
    · have ha2 : ¬ ((fixedFields h b0 b1 b2 b3).AuthenticationLength ≠ 0 ∧
          rest.length + 1 + 1 + 1 + 1 < 4 + addressWidth (fixedFields h b0 b1 b2 b3).AddressType +
            (fixedFields h b0 b1 b2 b3).AuthenticationLength * 4) := by
        intro hc; exact ha ⟨hc.1, by omega⟩
      rw [if_neg ha2, if_neg ha, ok_bind]
      have hfit : 4 + addressWidth (fixedFields h b0 b1 b2 b3).AddressType +
          4 * (fixedFields h b0 b1 b2 b3).AuthenticationLength ≤
            (b0 :: b1 :: b2 :: b3 :: rest).length := by
        simp only [List.length_cons]
        by_cases h0 : (fixedFields h b0 b1 b2 b3).AuthenticationLength = 0
        · rw [h0]; omega
        · have := fun hc => ha ⟨h0, hc⟩
          omega
      rw [unmarshalPayloadType_eq _ _ _ _ hfit]
      have hd : ∀ n, (b0 :: b1 :: b2 :: b3 :: rest).drop (4 + n) = rest.drop n := by
        intro n
        rw [show 4 + n = n + 1 + 1 + 1 + 1 by omega]
        simp only [List.drop_succ_cons]
      rw [Nat.add_assoc, hd, hd]
      rfl

/-! ## The size of a header -/

/-- C5 (size formula).  For a header whose authentication list has
`AuthenticationLength` words, `MarshalSize` is 4 bytes, plus 4 bytes per authentication
word, plus 4 bytes for the address when the address type is 0 (IPv4) and 16 when it is
1 (IPv6), plus the payload type bytes and one zero byte when the payload type is not
empty; the headers of `TestHeaderMarshalSize` have sizes 8, 20, 28 and 24. -/
theorem MarshalSize_formula (h : Header)
    (hlen : len h.AuthenticationData = h.AuthenticationLength) :
    (h.AddressType = 0 →
      h.MarshalSize = 4 + 4 * h.AuthenticationLength + 4 +
        (if h.PayloadType = [] then 0 else h.PayloadType.length + 1)) ∧
    (h.AddressType = 1 →
      h.MarshalSize = 4 + 4 * h.AuthenticationLength + 16 +
        (if h.PayloadType = [] then 0 else h.PayloadType.length + 1)) ∧
    (CreateMockHeader Header.zero).MarshalSize = 8 ∧
    (CreateMockHeader { Header.zero with AddressType := 1 }).MarshalSize = 20 ∧
    (CreateMockHeader { Header.zero with AuthenticationLength := 5 }).MarshalSize = 28 ∧
    (CreateMockHeader { Header.zero with PayloadType := asciiBytes "application/sdp" }).MarshalSize
      = 24 := by
  refine ⟨?_, ?_, by decide, by decide, by decide, by decide⟩
  · intro hA
    unfold Header.MarshalSize
    simp only [hlen, hA, if_true]
    split <;> omega
  · intro hA
    unfold Header.MarshalSize
    simp only [hlen, hA, if_false, Nat.one_ne_zero]
    split <;> omega

/-- The size formula at the mock header with one authentication word and the payload
type `application/sdp`: 4 + 4 + 4 + 16 = 28 bytes. -/
theorem MarshalSize_formula_witness :
    (CreateMockHeader { Header.zero with
        AuthenticationLength := 1, PayloadType := asciiBytes "application/sdp" }).MarshalSize
      = 28 := by
  have h := (MarshalSize_formula (CreateMockHeader { Header.zero with
      AuthenticationLength := 1, PayloadType := asciiBytes "application/sdp" })
    (by decide)).1 (by decide)
  rw [h]
  decide

/-! ## The decoder in closed form -/

theorem Unmarshal_nil (parse : List Nat → Except String (List Nat)) (h : Header) :
    Header.Unmarshal parse h [] = .error .errBufTooSmallForFlags := by
  unfold Header.Unmarshal
  simp only [sliceFrom_zero, ok_bind, List.length_nil, Nat.lt_one_iff, if_true, throw_eq_error,
    error_bind]

theorem Unmarshal_one (parse : List Nat → Except String (List Nat)) (h : Header) (b0 : Nat) :
    Header.Unmarshal parse h [b0] = .error .errBufTooSmallForAuthLength := by
  unfold Header.Unmarshal
  simp only [sliceFrom_zero, sliceFrom_cons_succ, index_cons_zero, ok_bind, pure_eq_ok,
    throw_eq_error, List.length_cons, List.length_nil, Nat.reduceAdd, Nat.lt_irrefl, if_false,
    Nat.lt_one_iff, if_true, error_bind, Nat.zero_add, Nat.one_ne_zero]

theorem Unmarshal_two (parse : List Nat → Except String (List Nat)) (h : Header) (b0 b1 : Nat) :
    Header.Unmarshal parse h [b0, b1] = .error .errBufTooSmallForMsgIdHash := by
  unfold Header.Unmarshal
  simp only [sliceFrom_zero, sliceFrom_cons_succ, index_cons_zero, index_cons_succ, ok_bind,
    pure_eq_ok, throw_eq_error, List.length_cons, List.length_nil, Nat.reduceAdd, Nat.reduceLT,
    if_false, if_true, error_bind, Nat.zero_add]

theorem Unmarshal_three (parse : List Nat → Except String (List Nat)) (h : Header)
    (b0 b1 b2 : Nat) :
    Header.Unmarshal parse h [b0, b1, b2] = .error .errBufTooSmallForMsgIdHash := by
  unfold Header.Unmarshal
  simp only [sliceFrom_zero, sliceFrom_cons_succ, index_cons_zero, index_cons_succ, ok_bind,
    pure_eq_ok, throw_eq_error, List.length_cons, List.length_nil, Nat.reduceAdd, Nat.reduceLT,
    if_false, if_true, error_bind, Nat.zero_add]

theorem Unmarshal_eq (parse : List Nat → Except String (List Nat)) (h : Header)
    (buf : List Nat) (h4 : 4 ≤ buf.length) :
    Header.Unmarshal parse h buf =
      decodeRest parse
        (fixedFields h (buf.getD 0 0) (buf.getD 1 0) (buf.getD 2 0) (buf.getD 3 0))
        (buf.drop 4) := by
  match buf, h4 with
  | b0 :: b1 :: b2 :: b3 :: rest, _ => exact Unmarshal_cons4 parse h b0 b1 b2 b3 rest

theorem fixedFields_AddressType (h : Header) (b0 b1 b2 b3 : Nat) :
    (fixedFields h b0 b1 b2 b3).AddressType = b0 / 16 % 2 := by
  show (b0 >>> addressShift) &&& oneBitMask = b0 / 16 % 2
  rw [show oneBitMask = 1 from rfl, Nat.and_one_is_mod, Nat.shiftRight_eq_div_pow]
  rfl

theorem payloadTypeOutcome_error (parse : List Nat → Except String (List Nat)) (h : Header)
    (tail : List Nat) (e : Error) (he : payloadTypeOutcome parse h tail = .error e) :
    e = .errNoTrailingByteFound ∨ ∃ msg, e = .errMediaType msg := by
  unfold payloadTypeOutcome at he
  split at he
  · cases he
  · split at he
    · left; injection he with he; exact he.symm
    · split at he
      · right; injection he with he; exact ⟨_, he.symm⟩
      · cases he

theorem decodeRest_cases (parse : List Nat → Except String (List Nat)) (h : Header)
    (rest : List Nat) :
    (rest.length < addressWidth h.AddressType ∧
      decodeRest parse h rest =
        .error (if h.AddressType = 0 then .errBufTooSmallForIPv4 else .errBufTooSmallForIPv6)) ∨
    (addressWidth h.AddressType ≤ rest.length ∧ h.AuthenticationLength ≠ 0 ∧
      rest.length < addressWidth h.AddressType + h.AuthenticationLength * 4 ∧
      decodeRest parse h rest = .error .errBufTooSmallForAuthData) ∨
    (addressWidth h.AddressType + 4 * h.AuthenticationLength ≤ rest.length ∧
      decodeRest parse h rest =
        payloadTypeOutcome parse (withAddressAndAuth h rest)
          (rest.drop (addressWidth h.AddressType + 4 * h.AuthenticationLength))) := by
  unfold decodeRest
  by_cases hw : rest.length < addressWidth h.AddressType
  · left; exact ⟨hw, by rw [if_pos hw]⟩
  · by_cases ha : h.AuthenticationLength ≠ 0 ∧
        rest.length < addressWidth h.AddressType + h.AuthenticationLength * 4
    · right; left
      exact ⟨by omega, ha.1, ha.2, by rw [if_neg hw, if_pos ha]⟩
    · right; right
      refine ⟨?_, by rw [if_neg hw, if_neg ha]⟩
      by_cases h0 : h.AuthenticationLength = 0
      · rw [h0]; omega
      · have := fun hc => ha ⟨h0, hc⟩
        omega

/-- C8 (truncation errors of the fixed regions).  For every buffer and receiver,
`Header.Unmarshal` returns `errBufTooSmallForFlags` exactly when the buffer is empty,
`errBufTooSmallForAuthLength` exactly when it has one byte, `errBufTooSmallForMsgIdHash`
exactly when it has 2 or 3 bytes, `errBufTooSmallForIPv4` exactly when it has 4 to 7
bytes and bit 4 of the first byte is 0, `errBufTooSmallForIPv6` exactly when it has 4
to 19 bytes and that bit is 1, and `errBufTooSmallForAuthData` exactly when the address
fits, the second byte is not zero and the buffer is shorter than the fixed bytes, the
address and four bytes per authentication word. -/
theorem Unmarshal_truncation_errors (parse : List Nat → Except String (List Nat))
    (h : Header) (buf : List Nat) :
    (Header.Unmarshal parse h buf = .error .errBufTooSmallForFlags ↔ buf.length = 0) ∧
    (Header.Unmarshal parse h buf = .error .errBufTooSmallForAuthLength ↔ buf.length = 1) ∧
    (Header.Unmarshal parse h buf = .error .errBufTooSmallForMsgIdHash ↔
      buf.length = 2 ∨ buf.length = 3) ∧
    (Header.Unmarshal parse h buf = .error .errBufTooSmallForIPv4 ↔
      4 ≤ buf.length ∧ buf.length < 8 ∧ buf.getD 0 0 / 16 % 2 = 0) ∧
    (Header.Unmarshal parse h buf = .error .errBufTooSmallForIPv6 ↔
      4 ≤ buf.length ∧ buf.length < 20 ∧ buf.getD 0 0 / 16 % 2 = 1) ∧
    (Header.Unmarshal parse h buf = .error .errBufTooSmallForAuthData ↔
      4 + addressWidth (buf.getD 0 0 / 16 % 2) ≤ buf.length ∧ buf.getD 1 0 ≠ 0 ∧
        buf.length < 4 + addressWidth (buf.getD 0 0 / 16 % 2) + 4 * buf.getD 1 0) := by
  rcases buf with _ | ⟨b0, _ | ⟨b1, _ | ⟨b2, _ | ⟨b3, rest⟩⟩⟩⟩
  · rw [Unmarshal_nil]; simp
  · rw [Unmarshal_one]; simp
  · rw [Unmarshal_two]; simp; omega
  · rw [Unmarshal_three]; simp; omega
  · rw [Unmarshal_cons4]
    have hA := fixedFields_AddressType h b0 b1 b2 b3
    have hL : (fixedFields h b0 b1 b2 b3).AuthenticationLength = b1 := rfl
    have hbit : b0 / 16 % 2 = 0 ∨ b0 / 16 % 2 = 1 := by omega
    simp only [List.length_cons, List.getD_cons_zero, List.getD_cons_succ]
    rcases decodeRest_cases parse (fixedFields h b0 b1 b2 b3) rest with
      ⟨hw, hr⟩ | ⟨hw, h0, ha, hr⟩ | ⟨hfit, hr⟩
    · rw [hr]
      rw [hA] at hw ⊢
      rcases hbit with hb | hb <;> rw [hb] at hw ⊢ <;> simp [addressWidth] at hw ⊢ <;> omega
    · rw [hr]
      simp only [hA, hL] at hw ha h0
      rcases hbit with hb | hb <;> rw [hb] at hw ha ⊢ <;> simp [addressWidth] at hw ha ⊢ <;> omega
    · have hne : ∀ e, e ≠ .errNoTrailingByteFound → (∀ msg, e ≠ .errMediaType msg) →
          decodeRest parse (fixedFields h b0 b1 b2 b3) rest ≠ .error e := by
        intro e h1 h2 hc
        rw [hr] at hc
        rcases payloadTypeOutcome_error _ _ _ _ hc with h3 | ⟨msg, h3⟩
        · exact h1 h3
        · exact h2 msg h3
      simp only [hA, hL] at hfit
      have e1 := hne .errBufTooSmallForFlags (by simp) (by simp)
      have e2 := hne .errBufTooSmallForAuthLength (by simp) (by simp)
      have e3 := hne .errBufTooSmallForMsgIdHash (by simp) (by simp)
      have e4 := hne .errBufTooSmallForIPv4 (by simp) (by simp)
      have e5 := hne .errBufTooSmallForIPv6 (by simp) (by simp)
      have e6 := hne .errBufTooSmallForAuthData (by simp) (by simp)
      simp only [e1, e2, e3, e4, e5, e6, false_iff]
      rcases hbit with hb | hb <;> rw [hb] at hfit ⊢ <;> simp [addressWidth] at hfit ⊢ <;> omega

/-! ## The payload type shortcut and the absence of panics -/

/-- C10 (payload type shortcut).  When the buffer holds the four fixed bytes, the
address selected by bit 4 of the first byte and four bytes for each authentication word
counted by the second byte, and either fewer than 3 bytes follow or the next 3 bytes
are "v=0", `Header.Unmarshal` succeeds and the payload type of the result is empty,
whatever the receiver held and whatever the buffer contains after that. -/
theorem Unmarshal_payloadType_shortcut (parse : List Nat → Except String (List Nat))
    (h : Header) (buf : List Nat)
    (hfit : 4 + addressWidth (buf.getD 0 0 / 16 % 2) + 4 * buf.getD 1 0 ≤ buf.length)
    (hshort :
      buf.length - (4 + addressWidth (buf.getD 0 0 / 16 % 2) + 4 * buf.getD 1 0) < 3 ∨
      (buf.drop (4 + addressWidth (buf.getD 0 0 / 16 % 2) + 4 * buf.getD 1 0)).take 3 =
        asciiBytes "v=0") :
    ∃ h1, Header.Unmarshal parse h buf = .ok h1 ∧ h1.PayloadType = [] := by
  have h4 : 4 ≤ buf.length := by omega
  rw [Unmarshal_eq parse h buf h4]
  have hA := fixedFields_AddressType h (buf.getD 0 0) (buf.getD 1 0) (buf.getD 2 0) (buf.getD 3 0)
  have hL : (fixedFields h (buf.getD 0 0) (buf.getD 1 0) (buf.getD 2 0)
      (buf.getD 3 0)).AuthenticationLength = buf.getD 1 0 := rfl
  rcases decodeRest_cases parse
      (fixedFields h (buf.getD 0 0) (buf.getD 1 0) (buf.getD 2 0) (buf.getD 3 0)) (buf.drop 4) with
    ⟨hw, _⟩ | ⟨_, _, ha, _⟩ | ⟨_, hr⟩
  · rw [hA, List.length_drop] at hw; omega
  · rw [hA, hL, List.length_drop] at ha; omega
  · rw [hr, hA, hL, List.drop_drop]
    unfold payloadTypeOutcome
    rw [if_pos]
    · exact ⟨_, rfl, rfl⟩
    · rw [List.length_drop]
      rw [show 4 + (addressWidth (buf.getD 0 0 / 16 % 2) + 4 * buf.getD 1 0) =
        4 + addressWidth (buf.getD 0 0 / 16 % 2) + 4 * buf.getD 1 0 by omega]
      exact hshort

/-- A 12-byte buffer with the payload "v=0" and a carriage return after an IPv4 header,
without any zero byte after the fixed bytes, decodes to an empty payload type although
the receiver held "text/plain" and the parser rejects everything. -/
theorem Unmarshal_payloadType_shortcut_witness :
    ∃ h1, Header.Unmarshal (fun _ => .error "rejected")
        { Header.zero with PayloadType := asciiBytes "text/plain" }
        [0x20, 0, 0x30, 0x39, 192, 0, 2, 1, 118, 61, 48, 13] = .ok h1 ∧ h1.PayloadType = [] :=
  Unmarshal_payloadType_shortcut _ _ _ (by decide) (by decide)

/-- C7 (decode never crashes).  For every buffer, every receiver and every media type
parser, neither `Header.Unmarshal` nor `Packet.Unmarshal` ends in a run-time panic: no
index or slice expression they evaluate is out of range, so each call ends with a
result or an error value. -/
theorem Unmarshal_never_panics (parse : List Nat → Except String (List Nat))
    (h : Header) (p : Packet) (buf : List Nat) :
    Header.Unmarshal parse h buf ≠ .error .runtimePanic ∧
    Packet.Unmarshal parse p buf ≠ .error .runtimePanic := by
  have hh : ∀ h : Header, Header.Unmarshal parse h buf ≠ .error .runtimePanic := by
    intro h
    rcases buf with _ | ⟨b0, _ | ⟨b1, _ | ⟨b2, _ | ⟨b3, rest⟩⟩⟩⟩
    · rw [Unmarshal_nil]; simp
    · rw [Unmarshal_one]; simp
    · rw [Unmarshal_two]; simp
    · rw [Unmarshal_three]; simp
    · rw [Unmarshal_cons4]
      rcases decodeRest_cases parse (fixedFields h b0 b1 b2 b3) rest with
        ⟨_, hr⟩ | ⟨_, _, _, hr⟩ | ⟨_, hr⟩
      · rw [hr]; split <;> simp
      · rw [hr]; simp
      · rw [hr]
        intro hc
        rcases payloadTypeOutcome_error _ _ _ _ hc with h3 | ⟨msg, h3⟩ <;> cases h3
  refine ⟨hh h, ?_⟩
  unfold Packet.Unmarshal
  cases hr : Header.Unmarshal parse p.Header buf with
  | error e =>
    rw [error_bind]
    intro hc
    injection hc with hc
    exact hh p.Header (by rw [hr, hc])
  | ok hdr =>
    rw [ok_bind]
    by_cases hl : buf.length > hdr.MarshalSize
    · simp only [hl, if_true, slice_ok buf _ _ (Nat.le_of_lt hl) (Nat.le_refl _), ok_bind,
        pure_eq_ok]
      simp
    · simp only [hl, if_false, pure_eq_ok]
      simp

/-! ## The encoder in closed form -/

theorem wordsBytes_length (ws : List Nat) : (wordsBytes ws).length = 4 * ws.length := by
  induction ws with
  | nil => rfl
  | cons w ws ih => simp only [wordsBytes, List.length_append, ih, be32, List.length_cons,
      List.length_nil]; omega

theorem store_cons_zero (c : Nat) (buf : List Nat) (v : Nat) :
    store (c :: buf) 0 v = .ok (v :: buf) := by
  simp [store]

theorem orStore_cons_zero (c : Nat) (buf : List Nat) (v : Nat) :
    orStore (c :: buf) 0 v = .ok ((c ||| v) :: buf) := by
  simp [orStore]

theorem store_cons_one (c d : Nat) (buf : List Nat) (v : Nat) :
    store (c :: d :: buf) 1 v = .ok (c :: v :: buf) := by
  simp [store]

theorem PutUint16_two (c d x y : Nat) (buf : List Nat) (v : Nat) :
    PutUint16 (c :: d :: x :: y :: buf) 2 v = .ok (c :: d :: (be16 v ++ buf)) := by
  simp [PutUint16, writeAt, be16]

theorem writeAt_append (pre rest bs : List Nat) :
    writeAt (pre ++ rest) pre.length bs = pre ++ bs ++ rest.drop bs.length := by
  simp [writeAt]

theorem copyAt_append (pre rest bs : List Nat) (cur : Nat) (hcur : cur = pre.length)
    (h : bs.length ≤ rest.length) :
    copyAt (pre ++ rest) cur bs = .ok (pre ++ bs ++ rest.drop bs.length) := by
  subst hcur
  unfold copyAt
  rw [if_pos (by simp), List.take_of_length_le (by simp; omega), writeAt_append]

theorem PutUint32_append (pre rest : List Nat) (cur v : Nat) (hcur : cur = pre.length)
    (h : 4 ≤ rest.length) :
    PutUint32 (pre ++ rest) cur v = .ok (pre ++ be32 v ++ rest.drop 4) := by
  subst hcur
  unfold PutUint32
  rw [if_pos (by simp; omega), writeAt_append]
  rfl

theorem store_append (pre rest : List Nat) (cur v : Nat) (hcur : cur = pre.length)
    (h : 1 ≤ rest.length) :
    store (pre ++ rest) cur v = .ok (pre ++ [v] ++ rest.drop 1) := by
  subst hcur
  unfold store
  rw [if_pos (by simp; omega)]
  match rest, h with
  | x :: t, _ => simp

theorem putAuthData_append (ws pre rest : List Nat) (cur : Nat) (hcur : cur = pre.length)
    (h : 4 * ws.length ≤ rest.length) :
    putAuthData ws (pre ++ rest) cur =
      .ok (pre ++ wordsBytes ws ++ rest.drop (4 * ws.length), cur + 4 * ws.length) := by
  induction ws generalizing pre rest cur with
  | nil => simp [putAuthData, wordsBytes, pure_eq_ok]
  | cons w ws ih =>
    simp only [List.length_cons] at h
    rw [putAuthData, PutUint32_append pre rest cur w hcur (by omega), ok_bind,
      ih (pre ++ be32 w) (rest.drop 4) (cur + 4) (by simp [hcur, be32])
        (by simp only [List.length_drop]; omega)]
    rw [List.drop_drop, show 4 + 4 * ws.length = 4 * (ws.length + 1) by omega,
      show cur + 4 + 4 * ws.length = cur + 4 * (ws.length + 1) by omega, List.length_cons]
    simp only [wordsBytes, List.append_assoc]

theorem putPayloadType_append (pt pre mid rest : List Nat) (cur i : Nat)
    (hcur : cur = pre.length) (hi : i = mid.length) (h : pt.length ≤ rest.length) :
    putPayloadType cur pt (pre ++ mid ++ rest) i =
      .ok (pre ++ mid ++ pt ++ rest.drop pt.length) := by
  induction pt generalizing mid rest i with
  | nil => simp [putPayloadType, pure_eq_ok]
  | cons b pt ih =>
    simp only [List.length_cons] at h
    rw [putPayloadType, store_append (pre ++ mid) rest (cur + i) b (by simp [hcur, hi]) (by omega),
      ok_bind]
    have := ih (mid ++ [b]) (rest.drop 1) (i + 1) (by simp [hi])
      (by simp only [List.length_drop]; omega)
    simp only [List.append_assoc] at this ⊢
    rw [this]
    simp [List.drop_drop, Nat.add_comm]

theorem To4_length (ip a : Option (List Nat)) (h : To4 ip = a) (ha : a ≠ none) :
    len a = 4 := by
  unfold To4 at h
  split at h
  · subst h; assumption
  · split at h
    · subst h
      rename_i h16
      simp only [len, Option.getD_some, List.length_drop]
      have := h16.1
      simp only [len] at this
      simp only [elems]
      omega
    · subst h; exact absurd rfl ha

theorem To16_length (ip a : Option (List Nat)) (h : To16 ip = a) (ha : a ≠ none) :
    len a = 16 := by
  unfold To16 at h
  split at h
  · subst h
    rename_i h4
    simp only [len, elems] at h4 ⊢
    simp only [Option.getD_some, List.length_append, v4InV6Lead, List.length_cons,
      List.length_nil]
    omega
  · split at h
    · subst h; assumption
    · subst h; exact absurd rfl ha

theorem marshalOriginatingSource_eq (h : Header) (pre rest a : List Nat) (cur : Nat)
    (hcur : cur = pre.length) (ha : wireAddress h.OriginatingSource = some a)
    (hroom : a.length ≤ rest.length) :
    marshalOriginatingSource h (pre ++ rest) cur =
      .ok (pre ++ a ++ rest.drop a.length, cur + a.length) := by
  unfold marshalOriginatingSource
  unfold wireAddress at ha
  cases h4 : To4 h.OriginatingSource with
  | some ip4 =>
    rw [h4] at ha
    injection ha with ha; subst ha
    have hl : ip4.length = 4 := To4_length _ (some ip4) h4 (by simp)
    simp only [copyAt_append pre rest ip4 cur hcur hroom, ok_bind, pure_eq_ok, hl]
  | none =>
    rw [h4] at ha
    have ha16 : To16 h.OriginatingSource = some a := ha
    rw [ha16]
    have hl : a.length = 16 := To16_length _ (some a) ha16 (by simp)
    simp only [copyAt_append pre rest a cur hcur hroom, ok_bind, pure_eq_ok, hl]

theorem marshalPayloadType_eq (h : Header) (pre rest : List Nat) (cur : Nat)
    (hcur : cur = pre.length) (hroom : (payloadTypeBytes h.PayloadType).length ≤ rest.length) :
    marshalPayloadType h (pre ++ rest) cur =
      .ok (pre ++ payloadTypeBytes h.PayloadType ++
        rest.drop (payloadTypeBytes h.PayloadType).length,
        cur + (payloadTypeBytes h.PayloadType).length) := by
  unfold marshalPayloadType payloadTypeBytes at *
  by_cases hp : h.PayloadType = []
  · simp [hp, pure_eq_ok]
  · simp only [hp, if_false, List.length_append, List.length_cons, List.length_nil] at hroom
    simp only [ne_eq, hp, not_false_eq_true, if_true, if_false]
    have h1 := putPayloadType_append h.PayloadType pre [] rest cur 0 hcur rfl (by omega)
    simp only [List.append_nil] at h1
    rw [h1, ok_bind]
    have h2 := store_append (pre ++ h.PayloadType) (rest.drop h.PayloadType.length)
      (cur + h.PayloadType.length) 0 (by simp [hcur]) (by simp only [List.length_drop]; omega)
    rw [← List.append_assoc, h2, ok_bind, pure_eq_ok]
    simp [List.drop_drop, Nat.add_assoc, Nat.add_comm]

theorem wire_length (h : Header) (a : List Nat) :
    (wire h a).length = 4 + a.length + 4 * len h.AuthenticationData +
      (payloadTypeBytes h.PayloadType).length := by
  simp only [wire, wireFixed, payloadTypeBytes, List.length_append, List.length_cons,
    List.length_nil, be16, wordsBytes_length, len, elems]

theorem MarshalTo_eq (h : Header) (buf a : List Nat)
    (ha : wireAddress h.OriginatingSource = some a)
    (hsize : h.MarshalSize ≤ buf.length) (hroom : (wire h a).length ≤ buf.length) :
    h.MarshalTo buf = .ok ((wire h a).length, wire h a ++ buf.drop (wire h a).length) := by
  have hwl := wire_length h a
  rw [hwl] at hroom ⊢
  rcases buf with _ | ⟨c0, _ | ⟨c1, _ | ⟨c2, _ | ⟨c3, rest⟩⟩⟩⟩
  · simp only [List.length_nil] at hroom; omega
  · simp only [List.length_cons, List.length_nil] at hroom; omega
  · simp only [List.length_cons, List.length_nil] at hroom; omega
  · simp only [List.length_cons, List.length_nil] at hroom; omega
  · simp only [List.length_cons] at hroom hsize
    unfold Header.MarshalTo
    rw [if_neg (by simp only [List.length_cons]; omega)]
    simp only [store_cons_zero, orStore_cons_zero, store_cons_one, PutUint16_two, ok_bind,
      pure_eq_ok, Nat.reduceAdd, Nat.zero_add, throw_eq_error]
    have e0 : ((h.Version <<< versionShift % 256 ||| h.AddressType <<< addressShift % 256 |||
        h.Reserved <<< reservedShift % 256 ||| h.MessageType <<< messageTypeShift % 256 |||
        h.Encrypted <<< encryptedShift % 256 ||| h.Compressed <<< compressedShift % 256) ::
        h.AuthenticationLength :: (be16 h.MessageIDHash ++ rest)) =
        ([flagsByte h, h.AuthenticationLength] ++ be16 h.MessageIDHash) ++ rest := rfl
    rw [e0, marshalOriginatingSource_eq h ([flagsByte h, h.AuthenticationLength] ++
      be16 h.MessageIDHash) rest a 4 rfl ha (by omega), ok_bind]
    have hl : len h.AuthenticationData = (elems h.AuthenticationData).length := rfl
    rw [putAuthData_append (elems h.AuthenticationData)
      ([flagsByte h, h.AuthenticationLength] ++ be16 h.MessageIDHash ++ a)
      (rest.drop a.length) (4 + a.length)
      (by simp [be16]; omega) (by simp only [List.length_drop]; omega), ok_bind]
    rw [marshalPayloadType_eq h ([flagsByte h, h.AuthenticationLength] ++ be16 h.MessageIDHash ++
        a ++ wordsBytes (elems h.AuthenticationData))
      ((rest.drop a.length).drop (4 * (elems h.AuthenticationData).length))
      (4 + a.length + 4 * (elems h.AuthenticationData).length)
      (by simp [be16, wordsBytes_length]; omega)
      (by simp only [List.length_drop]; omega), ok_bind]
    simp only [wire, wireFixed, payloadTypeBytes, List.drop_drop, List.append_assoc, hl]
    congr 2
    have hd : ∀ n, (c0 :: c1 :: c2 :: c3 :: rest).drop (4 + n) = rest.drop n := by
      intro n
      rw [show 4 + n = n + 1 + 1 + 1 + 1 by omega]
      simp only [List.drop_succ_cons]
    simp only [Nat.add_assoc, hd, List.cons_append, List.nil_append]

theorem flags_table :
    ∀ V, V ≤ 7 → ∀ A, A ≤ 1 → ∀ R, R ≤ 1 → ∀ T, T ≤ 1 → ∀ E, E ≤ 1 → ∀ C, C ≤ 1 →
      ((V <<< 5) % 256 ||| (A <<< 4) % 256 ||| (R <<< 3) % 256 ||| (T <<< 2) % 256 |||
        (E <<< 1) % 256 ||| (C <<< 0) % 256) = V * 32 + A * 16 + R * 8 + T * 4 + E * 2 + C := by
  decide

theorem flagsByte_eq (h : Header) (hV : h.Version ≤ 7) (hA : h.AddressType ≤ 1)
    (hR : h.Reserved ≤ 1) (hT : h.MessageType ≤ 1) (hE : h.Encrypted ≤ 1)
    (hC : h.Compressed ≤ 1) :
    flagsByte h = h.Version * 32 + h.AddressType * 16 + h.Reserved * 8 + h.MessageType * 4 +
      h.Encrypted * 2 + h.Compressed :=
  flags_table _ hV _ hA _ hR _ hT _ hE _ hC

theorem MarshalSize_eq (h : Header) :
    h.MarshalSize = 4 + addressWidth h.AddressType + 4 * len h.AuthenticationData +
      (payloadTypeBytes h.PayloadType).length := by
  unfold Header.MarshalSize addressWidth payloadTypeBytes
  by_cases hA : h.AddressType = 0 <;> by_cases hp : h.PayloadType = [] <;>
    simp [hA, hp] <;> omega

theorem Marshal_eq (h : Header) (a : List Nat)
    (ha : wireAddress h.OriginatingSource = some a)
    (hw : a.length ≤ addressWidth h.AddressType) :
    h.Marshal = .ok (wire h a) := by
  have hle : (wire h a).length ≤ h.MarshalSize := by
    rw [wire_length, MarshalSize_eq]; omega
  have hm := MarshalTo_eq h (List.replicate h.MarshalSize 0) a ha (by simp) (by simpa using hle)
  simp only [Header.Marshal, hm, ok_bind]
  rw [slice_zero _ _ (by simp)]
  simp

/-! ## The wire layout and the size of the encoding -/

/-- C6 (wire layout of encode).  For a header with `Version` at most 7 and one-bit
flag fields, whose address is an IPv4 address (`To4` gives the four bytes `a`) when the
address type is 0, or a 16-byte address `a` that is not IPv4-mapped when the address
type is 1, `Header.Marshal` returns the flags byte
`Version*32 + AddressType*16 + Reserved*8 + MessageType*4 + Encrypted*2 + Compressed`,
the authentication length, the two bytes of the hash, the address bytes, the
authentication words as four big-endian bytes each, and, only for a non-empty payload
type, its bytes and one zero byte. -/
theorem Marshal_wire_layout (h : Header) (a : List Nat)
    (hV : h.Version ≤ 7) (hA : h.AddressType ≤ 1) (hR : h.Reserved ≤ 1)
    (hT : h.MessageType ≤ 1) (hE : h.Encrypted ≤ 1) (hC : h.Compressed ≤ 1)
    (hhash : h.MessageIDHash < 65536)
    (haddr : (h.AddressType = 0 ∧ To4 h.OriginatingSource = some a) ∨
      (h.AddressType = 1 ∧ To4 h.OriginatingSource = none ∧ h.OriginatingSource = some a ∧
        a.length = 16)) :
    h.Marshal = .ok
      ([h.Version * 32 + h.AddressType * 16 + h.Reserved * 8 + h.MessageType * 4 +
          h.Encrypted * 2 + h.Compressed,
        h.AuthenticationLength, h.MessageIDHash / 256, h.MessageIDHash % 256] ++ a ++
        wordsBytes (elems h.AuthenticationData) ++
        (if h.PayloadType = [] then [] else h.PayloadType ++ [0])) := by
  have hw : wireAddress h.OriginatingSource = some a ∧ a.length ≤ addressWidth h.AddressType := by
    rcases haddr with ⟨h0, h4⟩ | ⟨h1, h4, hs, hl⟩
    · refine ⟨by simp [wireAddress, h4], ?_⟩
      have := To4_length _ (some a) h4 (by simp)
      simp only [len, Option.getD_some] at this
      simp [addressWidth, h0, this]
    · refine ⟨?_, by simp [addressWidth, h1, hl]⟩
      have h16 : To16 h.OriginatingSource = some a := by simp [To16, hs, len, hl]
      simp [wireAddress, h4, h16]
  rw [Marshal_eq h a hw.1 hw.2]
  simp only [wire, wireFixed, payloadTypeBytes, flagsByte_eq h hV hA hR hT hE hC, be16,
    Nat.mod_eq_of_lt (show h.MessageIDHash / 256 < 256 by omega)]
  rfl

/-- The layout at the mock header of the tests with two authentication words and the
payload type "application/sdp". -/
theorem Marshal_wire_layout_witness :
    (CreateMockHeader { Header.zero with
        AuthenticationLength := 2, PayloadType := asciiBytes "application/sdp" }).Marshal =
      .ok [32, 2, 48, 57, 192, 0, 2, 1, 0, 0, 0, 1, 0, 0, 0, 2,
        97, 112, 112, 108, 105, 99, 97, 116, 105, 111, 110, 47, 115, 100, 112, 0] :=
  (Marshal_wire_layout _ [192, 0, 2, 1] (by decide) (by decide) (by decide) (by decide)
    (by decide) (by decide) (by decide) (Or.inl ⟨by decide, by decide⟩)).trans (by decide)

/-- C4 (size agreement), evaluated at a header that satisfies the claim: address type
1 with a 16-byte address and no authentication words.  The address is IPv4-mapped, so
`MarshalTo` writes the 4 bytes of `To4` while `MarshalSize` counts 16: `MarshalSize` is
20, `Marshal` returns 8 bytes and `MarshalTo` into 20 bytes returns the count 8. -/
theorem Marshal_size_disagreement :
    len mappedAddressHeader.OriginatingSource = 16 ∧
    mappedAddressHeader.AddressType = 1 ∧
    len mappedAddressHeader.AuthenticationData = mappedAddressHeader.AuthenticationLength ∧
    mappedAddressHeader.MarshalSize = 20 ∧
    mappedAddressHeader.Marshal = .ok [0x30, 0, 0x30, 0x39, 192, 0, 2, 1] ∧
    mappedAddressHeader.MarshalTo (List.replicate 20 0) =
      .ok (8, [0x30, 0, 0x30, 0x39, 192, 0, 2, 1] ++ List.replicate 12 0) := by
  decide

/-! ## Decoding the wire form of a header -/

theorem flags_decode_version :
    ∀ V, V ≤ 7 → ∀ A, A ≤ 1 → ∀ R, R ≤ 1 → ∀ T, T ≤ 1 → ∀ E, E ≤ 1 → ∀ C, C ≤ 1 →
      ((V * 32 + A * 16 + R * 8 + T * 4 + E * 2 + C) >>> 5) &&& 1 = V % 2 := by
  decide

theorem flags_decode_addressType :
    ∀ V, V ≤ 7 → ∀ A, A ≤ 1 → ∀ R, R ≤ 1 → ∀ T, T ≤ 1 → ∀ E, E ≤ 1 → ∀ C, C ≤ 1 →
      ((V * 32 + A * 16 + R * 8 + T * 4 + E * 2 + C) >>> 4) &&& 1 = A := by
  decide

theorem flags_decode_reserved :
    ∀ V, V ≤ 7 → ∀ A, A ≤ 1 → ∀ R, R ≤ 1 → ∀ T, T ≤ 1 → ∀ E, E ≤ 1 → ∀ C, C ≤ 1 →
      ((V * 32 + A * 16 + R * 8 + T * 4 + E * 2 + C) >>> 3) &&& 1 = R := by
  decide

theorem flags_decode_messageType :
    ∀ V, V ≤ 7 → ∀ A, A ≤ 1 → ∀ R, R ≤ 1 → ∀ T, T ≤ 1 → ∀ E, E ≤ 1 → ∀ C, C ≤ 1 →
      ((V * 32 + A * 16 + R * 8 + T * 4 + E * 2 + C) >>> 2) &&& 1 = T := by
  decide

theorem flags_decode_encrypted :
    ∀ V, V ≤ 7 → ∀ A, A ≤ 1 → ∀ R, R ≤ 1 → ∀ T, T ≤ 1 → ∀ E, E ≤ 1 → ∀ C, C ≤ 1 →
      ((V * 32 + A * 16 + R * 8 + T * 4 + E * 2 + C) >>> 1) &&& 1 = E := by
  decide

theorem flags_decode_compressed :
    ∀ V, V ≤ 7 → ∀ A, A ≤ 1 → ∀ R, R ≤ 1 → ∀ T, T ≤ 1 → ∀ E, E ≤ 1 → ∀ C, C ≤ 1 →
      ((V * 32 + A * 16 + R * 8 + T * 4 + E * 2 + C) >>> 0) &&& 1 = C := by
  decide

theorem be32_decode (w : Nat) (hw : w < 4294967296) :
    (w / 16777216 % 256) * 16777216 + (w / 65536 % 256) * 65536 + (w / 256 % 256) * 256 +
      w % 256 = w := by
  omega

theorem beWords_wordsBytes (ws tail : List Nat) (hws : ∀ w ∈ ws, w < 4294967296) :
    beWords ws.length (wordsBytes ws ++ tail) = ws := by
  induction ws with
  | nil => rfl
  | cons w ws ih =>
    have hw := hws w (List.mem_cons_self _ _)
    have ih2 := ih (fun x hx => hws x (List.mem_cons_of_mem _ hx))
    simp only [List.length_cons, beWords, wordsBytes, be32, List.cons_append, List.nil_append,
      List.getD_cons_zero, List.getD_cons_succ, List.drop_succ_cons, List.drop_zero, ih2,
      be32_decode w hw]

theorem drop_wordsBytes (ws tail : List Nat) :
    (wordsBytes ws ++ tail).drop (4 * ws.length) = tail := by
  rw [← wordsBytes_length, List.drop_left]

theorem To16_of_To4 (ip : Option (List Nat)) (a : List Nat) (h : To4 ip = some a) :
    To16 ip = some (v4InV6Lead ++ a) := by
  unfold To4 at h
  unfold To16
  split at h
  · rename_i h4
    rw [if_pos h4]
    subst h
    rfl
  · rename_i h4
    split at h
    · rename_i h16
      rw [if_neg h4, if_pos h16.1]
      injection h with h
      subst h
      cases ip with
      | none => simp [len] at h16
      | some l =>
        simp only [elems, Option.getD_some] at h16 ⊢
        rw [← h16.2, List.take_append_drop]
    · cases h

theorem Encodable.addressLength {H : Header} {a : List Nat} (he : Encodable H a) :
    a.length = addressWidth H.AddressType := by
  rcases he.address with ⟨h0, h4⟩ | ⟨h1, _, _, hl⟩
  · have := To4_length _ (some a) h4 (by simp)
    simp only [len, Option.getD_some] at this
    simp [addressWidth, h0, this]
  · simp [addressWidth, h1, hl]

theorem Encodable.wireAddress {H : Header} {a : List Nat} (he : Encodable H a) :
    wireAddress H.OriginatingSource = some a := by
  rcases he.address with ⟨_, h4⟩ | ⟨_, h4, hs, hl⟩
  · simp [Sap.wireAddress, h4]
  · have h16 : To16 H.OriginatingSource = some a := by simp [To16, hs, len, hl]
    simp [Sap.wireAddress, h4, h16]

theorem Encodable.Marshal {H : Header} {a : List Nat} (he : Encodable H a) :
    H.Marshal = .ok (wire H a) :=
  Marshal_eq H a he.wireAddress (Nat.le_of_eq he.addressLength)

theorem Unmarshal_wireFixed (parse : List Nat → Except String (List Nat)) (h0 H : Header)
    (a extra : List Nat) (he : Encodable H a) :
    Header.Unmarshal parse h0 (wireFixed H a ++ extra) =
      payloadTypeOutcome parse (decodedFrom h0 H) extra := by
  have hlen := he.addressLength
  have hbuf : wireFixed H a ++ extra =
      flagsByte H :: H.AuthenticationLength :: (H.MessageIDHash / 256 % 256) ::
        (H.MessageIDHash % 256) :: (a ++ (wordsBytes (elems H.AuthenticationData) ++ extra)) := by
    simp [wireFixed, be16]
  rw [hbuf, Unmarshal_cons4]
  have hf := flagsByte_eq H he.version he.addressType he.reserved he.messageType he.encrypted
    he.compressed
  have hA : (fixedFields h0 (flagsByte H) H.AuthenticationLength (H.MessageIDHash / 256 % 256)
      (H.MessageIDHash % 256)).AddressType = H.AddressType := by
    show (flagsByte H >>> 4) &&& 1 = _
    rw [hf]
    exact flags_decode_addressType _ he.version _ he.addressType _ he.reserved _ he.messageType
      _ he.encrypted _ he.compressed
  have hL : (fixedFields h0 (flagsByte H) H.AuthenticationLength (H.MessageIDHash / 256 % 256)
      (H.MessageIDHash % 256)).AuthenticationLength = H.AuthenticationLength := rfl
  have hal : (elems H.AuthenticationData).length = H.AuthenticationLength := he.authLength
  unfold decodeRest
  rw [hA, hL]
  rw [if_neg (by simp only [List.length_append]; omega),
    if_neg (by simp only [List.length_append, wordsBytes_length]; omega)]
  have hdrop : (a ++ (wordsBytes (elems H.AuthenticationData) ++ extra)).drop
      (addressWidth H.AddressType + 4 * H.AuthenticationLength) = extra := by
    rw [← hlen, ← hal, ← List.drop_drop, List.drop_left, drop_wordsBytes]
  rw [hdrop]
  congr 1
  have hbits : ∀ k, (flagsByte H >>> k) &&& 1 =
      ((H.Version * 32 + H.AddressType * 16 + H.Reserved * 8 + H.MessageType * 4 +
        H.Encrypted * 2 + H.Compressed) >>> k) &&& 1 := by
    intro k; rw [hf]
  have hOS : (if H.AddressType = 0 then
        netIPv4 ((a ++ (wordsBytes (elems H.AuthenticationData) ++ extra)).getD 0 0)
          ((a ++ (wordsBytes (elems H.AuthenticationData) ++ extra)).getD 1 0)
          ((a ++ (wordsBytes (elems H.AuthenticationData) ++ extra)).getD 2 0)
          ((a ++ (wordsBytes (elems H.AuthenticationData) ++ extra)).getD 3 0)
      else some ((a ++ (wordsBytes (elems H.AuthenticationData) ++ extra)).take 16)) =
      To16 H.OriginatingSource := by
    rcases he.address with ⟨h0A, h4⟩ | ⟨h1, h4, hs, hl⟩
    · rw [if_pos h0A, To16_of_To4 _ a h4]
      have h4l : a.length = 4 := by
        have := To4_length _ (some a) h4 (by simp)
        simpa [len] using this
      match a, h4l with
      | [x, y, z, t], _ => rfl
    · rw [if_neg (by omega), List.take_left' hl]
      simp [To16, hs, len, hl]
  have hAD : (if H.AuthenticationLength ≠ 0 then
        some (beWords H.AuthenticationLength
          ((a ++ (wordsBytes (elems H.AuthenticationData) ++ extra)).drop
            (addressWidth H.AddressType)))
      else h0.AuthenticationData) =
      (if H.AuthenticationLength ≠ 0 then some (elems H.AuthenticationData)
        else h0.AuthenticationData) := by
    rw [← hlen, List.drop_left, ← hal, beWords_wordsBytes _ _ he.words]
  simp only [withAddressAndAuth, decodedFrom, fixedFields, Header.mk.injEq]
  refine ⟨?_, ?_, ?_, ?_, ?_, ?_, trivial, ?_, ?_, ?_, trivial⟩
  · rw [show oneBitMask = 1 from rfl, show versionShift = 5 from rfl, hbits]
    exact flags_decode_version _ he.version _ he.addressType _ he.reserved _ he.messageType
      _ he.encrypted _ he.compressed
  · rw [show oneBitMask = 1 from rfl, show addressShift = 4 from rfl, hbits]
    exact flags_decode_addressType _ he.version _ he.addressType _ he.reserved _ he.messageType
      _ he.encrypted _ he.compressed
  · rw [show oneBitMask = 1 from rfl, show reservedShift = 3 from rfl, hbits]
    exact flags_decode_reserved _ he.version _ he.addressType _ he.reserved _ he.messageType
      _ he.encrypted _ he.compressed
  · rw [show oneBitMask = 1 from rfl, show messageTypeShift = 2 from rfl, hbits]
    exact flags_decode_messageType _ he.version _ he.addressType _ he.reserved _ he.messageType
      _ he.encrypted _ he.compressed
  · rw [show oneBitMask = 1 from rfl, show encryptedShift = 1 from rfl, hbits]
    exact flags_decode_encrypted _ he.version _ he.addressType _ he.reserved _ he.messageType
      _ he.encrypted _ he.compressed
  · rw [show oneBitMask = 1 from rfl, show compressedShift = 0 from rfl, hbits]
    exact flags_decode_compressed _ he.version _ he.addressType _ he.reserved _ he.messageType
      _ he.encrypted _ he.compressed
  · have hA2 : (flagsByte H >>> addressShift) &&& oneBitMask = H.AddressType := hA
    simp only [hA2]
    exact hAD
  · have := he.hash
    omega
  · have hA2 : (flagsByte H >>> addressShift) &&& oneBitMask = H.AddressType := hA
    simp only [hA2]
    exact hOS

/-! ## The payload type block on the wire form -/

theorem payloadTypeOutcome_omitted (parse : List Nat → Except String (List Nat)) (h : Header)
    (tail : List Nat) (ht : tail.length < 3 ∨ tail.take 3 = asciiBytes "v=0") :
    payloadTypeOutcome parse h tail = .ok { h with PayloadType := [] } := by
  unfold payloadTypeOutcome
  rw [if_pos ht]

theorem payloadTypeOutcome_noZero (parse : List Nat → Except String (List Nat)) (h : Header)
    (tail : List Nat) (h3 : 3 ≤ tail.length) (hv : tail.take 3 ≠ asciiBytes "v=0")
    (hz : 0 ∉ tail) :
    payloadTypeOutcome parse h tail = .error .errNoTrailingByteFound := by
  unfold payloadTypeOutcome
  rw [if_neg (by intro hc; rcases hc with hc | hc; omega; exact hv hc), if_pos hz]

theorem asciiBytes_v0 : asciiBytes "v=0" = [118, 61, 48] := by decide

theorem take3_append_zero (pt extra : List Nat) (h2 : 2 ≤ pt.length)
    (hv : pt.take 3 ≠ asciiBytes "v=0") :
    (pt ++ 0 :: extra).take 3 ≠ asciiBytes "v=0" := by
  match pt, h2 with
  | [x, y], _ =>
    intro hc
    rw [asciiBytes_v0] at hc
    simp at hc
  | x :: y :: z :: t, _ =>
    intro hc
    apply hv
    simpa using hc

theorem indexOf_append_zero (pt extra : List Nat) (hz : 0 ∉ pt) :
    (pt ++ 0 :: extra).indexOf 0 = pt.length := by
  induction pt with
  | nil => simp
  | cons x t ih =>
    have hx : x ≠ 0 := fun hc => hz (by simp [hc])
    have ht : 0 ∉ t := fun hc => hz (List.mem_cons_of_mem _ hc)
    rw [List.cons_append, List.indexOf_cons_ne _ hx, ih ht, List.length_cons]

theorem payloadTypeOutcome_present (parse : List Nat → Except String (List Nat)) (h : Header)
    (pt extra : List Nat) (h2 : 2 ≤ pt.length) (hz : 0 ∉ pt)
    (hv : pt.take 3 ≠ asciiBytes "v=0") :
    payloadTypeOutcome parse h (pt ++ 0 :: extra) =
      match parse pt with
      | .error msg => .error (.errMediaType msg)
      | .ok mediaType => .ok { h with PayloadType := mediaType } := by
  unfold payloadTypeOutcome
  have hn1 : ¬ ((pt ++ 0 :: extra).length < 3 ∨ (pt ++ 0 :: extra).take 3 = asciiBytes "v=0") := by
    intro hc
    rcases hc with hc | hc
    · simp only [List.length_append, List.length_cons] at hc; omega
    · exact take3_append_zero pt extra h2 hv hc
  have hn2 : ¬ (0 ∉ pt ++ 0 :: extra) := by simp
  rw [if_neg hn1, if_neg hn2, indexOf_append_zero pt extra hz, List.take_left]

theorem Unmarshal_wire (parse : List Nat → Except String (List Nat)) (h0 H : Header)
    (a extra : List Nat) (he : Encodable H a)
    (hpt : (H.PayloadType = [] ∧ (extra.length < 3 ∨ extra.take 3 = asciiBytes "v=0")) ∨
      (2 ≤ H.PayloadType.length ∧ 0 ∉ H.PayloadType ∧
        H.PayloadType.take 3 ≠ asciiBytes "v=0" ∧ parse H.PayloadType = .ok H.PayloadType)) :
    Header.Unmarshal parse h0 (wire H a ++ extra) =
      .ok { decodedFrom h0 H with PayloadType := H.PayloadType } := by
  rw [wire, List.append_assoc, Unmarshal_wireFixed parse h0 H a _ he]
  rcases hpt with ⟨hp, hx⟩ | ⟨h2, hz, hv, hp⟩
  · rw [payloadTypeBytes, if_pos hp, List.nil_append, payloadTypeOutcome_omitted _ _ _ hx, hp]
  · have hne : H.PayloadType ≠ [] := by
      intro hc; rw [hc] at h2; simp at h2
    rw [payloadTypeBytes, if_neg hne, List.append_assoc, List.singleton_append,
      payloadTypeOutcome_present _ _ _ _ h2 hz hv, hp]

/-! ## Round trips -/

/-- C1, amended (header round trip).  Let `H` be a header of version 1 with one-bit
flag fields, a 16-bit hash, as many 32-bit authentication words as its authentication
length says, an address that is an IPv4 address (4 bytes, or 16 bytes IPv4-mapped)
with address type 0 or a 16-byte address that is not IPv4-mapped with address type 1,
and a payload type that is empty or canonical for the media type parser.  Then
`Marshal` succeeds, and `Unmarshal` of the bytes into a receiver without authentication
words succeeds with a header equal to `H` in every field, the address being in its
16-byte form `To16`. -/
theorem Header_roundtrip (parse : List Nat → Except String (List Nat)) (h0 H : Header)
    (a : List Nat) (he : Encodable H a) (hV : H.Version = 1)
    (hpt : CanonicalPayloadType parse H.PayloadType)
    (hrecv : H.AuthenticationLength = 0 → elems h0.AuthenticationData = []) :
    ∃ bytes h1, H.Marshal = .ok bytes ∧ Header.Unmarshal parse h0 bytes = .ok h1 ∧
      h1.Version = H.Version ∧ h1.AddressType = H.AddressType ∧ h1.Reserved = H.Reserved ∧
      h1.MessageType = H.MessageType ∧ h1.Encrypted = H.Encrypted ∧
      h1.Compressed = H.Compressed ∧ h1.AuthenticationLength = H.AuthenticationLength ∧
      elems h1.AuthenticationData = elems H.AuthenticationData ∧
      h1.MessageIDHash = H.MessageIDHash ∧
      h1.OriginatingSource = To16 H.OriginatingSource ∧
      h1.PayloadType = H.PayloadType := by
  have hu := Unmarshal_wire parse h0 H a [] he (by
    rcases hpt with hp | hp
    · exact Or.inl ⟨hp, Or.inl (by simp)⟩
    · exact Or.inr hp)
  rw [List.append_nil] at hu
  refine ⟨wire H a, _, he.Marshal, hu, ?_, rfl, rfl, rfl, rfl, rfl, rfl, ?_, rfl, rfl, rfl⟩
  · show H.Version % 2 = H.Version
    rw [hV]
  · show elems (if H.AuthenticationLength ≠ 0 then some (elems H.AuthenticationData)
      else h0.AuthenticationData) = _
    by_cases h0L : H.AuthenticationLength = 0
    · rw [if_neg (by simp [h0L]), hrecv h0L]
      have := he.authLength
      rw [h0L] at this
      exact (List.length_eq_zero.mp this).symm
    · rw [if_pos h0L]; rfl

/-- The round trip at the mock header of the tests with two authentication words and
the payload type "application/sdp", decoded into a zero-valued header. -/
theorem Header_roundtrip_witness :
    ∃ bytes h1,
      (CreateMockHeader { Header.zero with
        AuthenticationLength := 2, PayloadType := asciiBytes "application/sdp" }).Marshal =
        .ok bytes ∧
      Header.Unmarshal parseMediaTypeModel Header.zero bytes = .ok h1 ∧
      h1.Version = 1 ∧ h1.AuthenticationLength = 2 ∧ elems h1.AuthenticationData = [1, 2] ∧
      h1.MessageIDHash = 12345 ∧ h1.OriginatingSource = netIPv4 192 0 2 1 ∧
      h1.PayloadType = asciiBytes "application/sdp" := by
  obtain ⟨bytes, h1, hm, hu, e1, _, _, _, _, _, e7, e8, e9, e10, e11⟩ :=
    Header_roundtrip parseMediaTypeModel Header.zero
      (CreateMockHeader { Header.zero with
        AuthenticationLength := 2, PayloadType := asciiBytes "application/sdp" })
      [192, 0, 2, 1]
      ⟨by decide, by decide, by decide, by decide, by decide, by decide, by decide, by decide,
        by decide, Or.inl ⟨by decide, by decide⟩⟩
      (by decide) (Or.inr ⟨by decide, by decide, by decide, by decide⟩) (by decide)
  exact ⟨bytes, h1, hm, hu, e1.trans (by decide), e7.trans (by decide), e8.trans (by decide),
    e9.trans (by decide), e10.trans (by decide), e11.trans (by decide)⟩

/-- C1 as stated fails at three valid headers.  A 4-byte address with address type 0
is encoded and decoded, but the decoded address is the 16-byte form made by
`net.IPv4`, not the 4 bytes of `H`.  A 16-byte address with address type 1 that is
IPv4-mapped is encoded with 4 address bytes, and decoding the 8 bytes fails with
`errBufTooSmallForIPv6`.  The payload type "Text/Plain" is decoded as the media type
that the parser returns, "text/plain". -/
theorem Header_roundtrip_counterexample :
    (len fourByteAddressHeader.OriginatingSource = 4 ∧ fourByteAddressHeader.AddressType = 0 ∧
      fourByteAddressHeader.Marshal = .ok [32, 0, 48, 57, 192, 0, 2, 1] ∧
      Header.Unmarshal parseMediaTypeModel Header.zero [32, 0, 48, 57, 192, 0, 2, 1] =
        .ok { fourByteAddressHeader with OriginatingSource := netIPv4 192 0 2 1 } ∧
      netIPv4 192 0 2 1 ≠ fourByteAddressHeader.OriginatingSource) ∧
    (len mappedAddressHeader.OriginatingSource = 16 ∧ mappedAddressHeader.AddressType = 1 ∧
      mappedAddressHeader.Marshal = .ok [48, 0, 48, 57, 192, 0, 2, 1] ∧
      Header.Unmarshal parseMediaTypeModel Header.zero [48, 0, 48, 57, 192, 0, 2, 1] =
        .error .errBufTooSmallForIPv6) ∧
    (upperCaseTypeHeader.Marshal =
        .ok [32, 0, 48, 57, 192, 0, 2, 1, 84, 101, 120, 116, 47, 80, 108, 97, 105, 110, 0] ∧
      Header.Unmarshal parseMediaTypeModel Header.zero
        [32, 0, 48, 57, 192, 0, 2, 1, 84, 101, 120, 116, 47, 80, 108, 97, 105, 110, 0] =
        .ok { upperCaseTypeHeader with PayloadType := asciiBytes "text/plain" } ∧
      asciiBytes "text/plain" ≠ upperCaseTypeHeader.PayloadType) := by
  decide

/-! ## The packet codec on the wire form -/

theorem headerToEncode_MarshalSize (crc : List Nat → Nat) (p : Packet) :
    (headerToEncode crc p).MarshalSize = p.Header.MarshalSize := by
  unfold headerToEncode
  split <;> rfl

theorem headerToEncode_Encodable (crc : List Nat → Nat) (p : Packet) (a : List Nat)
    (he : Encodable p.Header a) : Encodable (headerToEncode crc p) a := by
  unfold headerToEncode
  split
  · exact ⟨he.version, he.addressType, he.reserved, he.messageType, he.encrypted, he.compressed,
      Nat.mod_lt _ (by decide), he.words, he.authLength, he.address⟩
  · exact he

theorem Encodable.wire_size {H : Header} {a : List Nat} (he : Encodable H a) :
    (wire H a).length = H.MarshalSize := by
  rw [Sap.wire_length, MarshalSize_eq, he.addressLength]

theorem Packet_Marshal_eq (crc : List Nat → Nat) (p : Packet) (a : List Nat)
    (he : Encodable p.Header a) :
    p.Marshal crc = .ok (wire (headerToEncode crc p) a ++ elems p.Payload) := by
  have he2 := headerToEncode_Encodable crc p a he
  have hsz := headerToEncode_MarshalSize crc p
  have hwl := he2.wire_size
  have hm := MarshalTo_eq (headerToEncode crc p) (List.replicate p.MarshalSize 0) a
    he2.wireAddress (by simp [Packet.MarshalSize, hsz]) (by simp [Packet.MarshalSize, hwl, hsz])
  have hm2 : (if p.Header.MessageIDHash = 0 then
        ({ p with Header := { p.Header with
            MessageIDHash := ComputeMsgIdHash crc p.Payload } } : Packet)
      else p).Header = headerToEncode crc p := by
    unfold headerToEncode
    split <;> rfl
  have hp2 : (if p.Header.MessageIDHash = 0 then
        ({ p with Header := { p.Header with
            MessageIDHash := ComputeMsgIdHash crc p.Payload } } : Packet)
      else p).Payload = p.Payload := by
    split <;> rfl
  simp only [Packet.Marshal, Packet.MarshalTo, hm2, hp2, hm, ok_bind, pure_eq_ok, throw_eq_error]
  have hdl : ((List.replicate p.MarshalSize 0).drop (wire (headerToEncode crc p) a).length).length
      = (elems p.Payload).length := by
    simp [Packet.MarshalSize, hwl, hsz, len, elems]
  have hbl : (wire (headerToEncode crc p) a ++
      (List.replicate p.MarshalSize 0).drop (wire (headerToEncode crc p) a).length).length =
      p.Header.MarshalSize + len p.Payload := by
    rw [List.length_append, hdl, hwl, hsz]; rfl
  rw [if_neg (by simp [Packet.MarshalSize])]
  rw [if_neg (by rw [hbl]; omega),
    copyAt_append _ _ (elems p.Payload) _ rfl (Nat.le_of_eq hdl.symm)]
  simp only [ok_bind]
  rw [hbl, List.drop_of_length_le (Nat.le_of_eq hdl), List.append_nil]
  have hmin : p.Header.MarshalSize + min (p.Header.MarshalSize + len p.Payload -
      (wire (headerToEncode crc p) a).length) (len p.Payload) =
      (wire (headerToEncode crc p) a ++ elems p.Payload).length := by
    rw [List.length_append, hwl, hsz]
    simp [len, elems]
  show slice _ 0 (p.Header.MarshalSize + min (p.Header.MarshalSize + len p.Payload -
      (wire (headerToEncode crc p) a).length) (len p.Payload)) = _
  rw [hmin, slice_zero _ _ (Nat.le_refl _), List.take_length]

theorem decoded_MarshalSize (h0 H : Header) (a : List Nat) (he : Encodable H a)
    (hrecv : H.AuthenticationLength = 0 → len h0.AuthenticationData = 0) :
    ({ decodedFrom h0 H with PayloadType := H.PayloadType } : Header).MarshalSize =
      (wire H a).length := by
  rw [he.wire_size, MarshalSize_eq, MarshalSize_eq]
  have hl : len (if H.AuthenticationLength ≠ 0 then some (elems H.AuthenticationData)
      else h0.AuthenticationData) = len H.AuthenticationData := by
    by_cases h0L : H.AuthenticationLength = 0
    · rw [if_neg (by simp [h0L]), hrecv h0L, he.authLength, h0L]
    · rw [if_pos h0L]; rfl
  show 4 + addressWidth H.AddressType + 4 * len (if H.AuthenticationLength ≠ 0 then
    some (elems H.AuthenticationData) else h0.AuthenticationData) + _ = _
  rw [hl]

theorem Packet_Unmarshal_wire (parse : List Nat → Except String (List Nat)) (p0 : Packet)
    (H : Header) (a payload : List Nat) (he : Encodable H a)
    (hpt : (H.PayloadType = [] ∧ (payload.length < 3 ∨ payload.take 3 = asciiBytes "v=0")) ∨
      (2 ≤ H.PayloadType.length ∧ 0 ∉ H.PayloadType ∧
        H.PayloadType.take 3 ≠ asciiBytes "v=0" ∧ parse H.PayloadType = .ok H.PayloadType))
    (hrecv : H.AuthenticationLength = 0 → len p0.Header.AuthenticationData = 0) :
    Packet.Unmarshal parse p0 (wire H a ++ payload) =
      .ok { Header := { decodedFrom p0.Header H with PayloadType := H.PayloadType },
            Payload := if payload = [] then p0.Payload else some payload } := by
  have hs := decoded_MarshalSize p0.Header H a he hrecv
  simp only [Packet.Unmarshal, Unmarshal_wire parse p0.Header H a payload he hpt, ok_bind, hs,
    List.length_append, pure_eq_ok]
  by_cases hp : payload = []
  · subst hp
    simp
  · have hpos : 0 < payload.length := List.length_pos.mpr hp
    rw [if_pos (by omega), slice_ok _ _ _ (by omega) (by simp), ok_bind]
    simp [hp]

theorem headerToEncode_eq (crc : List Nat → Nat) (P : Packet) :
    headerToEncode crc P =
      { P.Header with
        MessageIDHash :=
          if P.Header.MessageIDHash = 0 then ComputeMsgIdHash crc P.Payload
          else P.Header.MessageIDHash } := by
  unfold headerToEncode
  split
  · rfl
  · rfl

theorem elems_decoded_words (h0 H : Header) (a : List Nat) (he : Encodable H a)
    (hrecv : H.AuthenticationLength = 0 → elems h0.AuthenticationData = []) :
    elems (if H.AuthenticationLength ≠ 0 then some (elems H.AuthenticationData)
      else h0.AuthenticationData) = elems H.AuthenticationData := by
  by_cases h0L : H.AuthenticationLength = 0
  · rw [if_neg (by simp [h0L]), hrecv h0L]
    have := he.authLength
    rw [h0L] at this
    exact (List.length_eq_zero.mp this).symm
  · rw [if_pos h0L]; rfl

theorem Packet_roundtrip_core (parse : List Nat → Except String (List Nat))
    (crc : List Nat → Nat) (P : Packet) (a : List Nat) (he : Encodable P.Header a)
    (hpt : CanonicalPayloadType parse P.Header.PayloadType)
    (hsdp : P.Header.PayloadType = [] →
      len P.Payload < 3 ∨ (elems P.Payload).take 3 = asciiBytes "v=0") :
    P.Marshal crc = .ok (wire (headerToEncode crc P) a ++ elems P.Payload) ∧
    Packet.Unmarshal parse Packet.zero (wire (headerToEncode crc P) a ++ elems P.Payload) =
      .ok { Header := { decodedFrom Header.zero (headerToEncode crc P) with
                        PayloadType := P.Header.PayloadType },
            Payload := if elems P.Payload = [] then none else some (elems P.Payload) } := by
  have he2 := headerToEncode_Encodable crc P a he
  have hPT : (headerToEncode crc P).PayloadType = P.Header.PayloadType := by
    unfold headerToEncode; split <;> rfl
  refine ⟨Packet_Marshal_eq crc P a he, ?_⟩
  have hu := Packet_Unmarshal_wire parse Packet.zero (headerToEncode crc P) a (elems P.Payload)
    he2 (by
      rw [hPT]
      rcases hpt with hp | hp
      · exact Or.inl ⟨hp, hsdp hp⟩
      · exact Or.inr hp) (fun _ => rfl)
  rw [hu, hPT]
  rfl

/-- C2, amended (packet round trip).  Let `P` be a packet whose header is of version
1, with one-bit flag fields, a 16-bit hash, as many 32-bit authentication words as its
authentication length says, an IPv4 address with address type 0 or a 16-byte address
that is not IPv4-mapped with address type 1, and a payload type that is empty or
canonical for the media type parser; when the payload type is empty, let the payload
have fewer than 3 bytes or begin with "v=0".  Then `Packet.Marshal` succeeds and
`Packet.Unmarshal` of the bytes into a zero-valued packet succeeds with the payload of
`P` byte for byte and the header fields of `P`, the address being in its 16-byte form
and the hash being the checksum of the payload when `P` held the sentinel 0. -/
theorem Packet_roundtrip (parse : List Nat → Except String (List Nat))
    (crc : List Nat → Nat) (P : Packet) (a : List Nat) (he : Encodable P.Header a)
    (hV : P.Header.Version = 1)
    (hpt : CanonicalPayloadType parse P.Header.PayloadType)
    (hsdp : P.Header.PayloadType = [] →
      len P.Payload < 3 ∨ (elems P.Payload).take 3 = asciiBytes "v=0") :
    ∃ bytes P1, P.Marshal crc = .ok bytes ∧ Packet.Unmarshal parse Packet.zero bytes = .ok P1 ∧
      P1.Header.Version = P.Header.Version ∧ P1.Header.AddressType = P.Header.AddressType ∧
      P1.Header.Reserved = P.Header.Reserved ∧ P1.Header.MessageType = P.Header.MessageType ∧
      P1.Header.Encrypted = P.Header.Encrypted ∧ P1.Header.Compressed = P.Header.Compressed ∧
      P1.Header.AuthenticationLength = P.Header.AuthenticationLength ∧
      elems P1.Header.AuthenticationData = elems P.Header.AuthenticationData ∧
      P1.Header.MessageIDHash =
        (if P.Header.MessageIDHash = 0 then ComputeMsgIdHash crc P.Payload
          else P.Header.MessageIDHash) ∧
      P1.Header.OriginatingSource = To16 P.Header.OriginatingSource ∧
      P1.Header.PayloadType = P.Header.PayloadType ∧
      elems P1.Payload = elems P.Payload := by
  obtain ⟨hm, hu⟩ := Packet_roundtrip_core parse crc P a he hpt hsdp
  have he2 := headerToEncode_Encodable crc P a he
  have hw := elems_decoded_words Header.zero (headerToEncode crc P) a he2 (fun _ => rfl)
  rw [headerToEncode_eq] at hw
  refine ⟨_, _, hm, hu, ?_, ?_, ?_, ?_, ?_, ?_, ?_, ?_, ?_, ?_, rfl, ?_⟩
  · show (headerToEncode crc P).Version % 2 = _
    rw [headerToEncode_eq]
    show P.Header.Version % 2 = _
    rw [hV]
  · show (headerToEncode crc P).AddressType = _
    rw [headerToEncode_eq]
  · show (headerToEncode crc P).Reserved = _
    rw [headerToEncode_eq]
  · show (headerToEncode crc P).MessageType = _
    rw [headerToEncode_eq]
  · show (headerToEncode crc P).Encrypted = _
    rw [headerToEncode_eq]
  · show (headerToEncode crc P).Compressed = _
    rw [headerToEncode_eq]
  · show (headerToEncode crc P).AuthenticationLength = _
    rw [headerToEncode_eq]
  · show elems (if (headerToEncode crc P).AuthenticationLength ≠ 0 then
      some (elems (headerToEncode crc P).AuthenticationData)
      else Header.zero.AuthenticationData) = _
    rw [headerToEncode_eq]
    exact hw
  · show (headerToEncode crc P).MessageIDHash = _
    rw [headerToEncode_eq]
  · show To16 (headerToEncode crc P).OriginatingSource = _
    rw [headerToEncode_eq]
  · show elems (if elems P.Payload = [] then none else some (elems P.Payload)) = _
    by_cases hp : elems P.Payload = []
    · rw [if_pos hp, hp]; rfl
    · rw [if_neg hp]; rfl

/-- The packet round trip at the mock packet of the tests with the payload type
"application/json" and a two byte payload that is not a session description. -/
theorem Packet_roundtrip_witness :
    ∃ bytes P1,
      jsonMockPacket.Marshal crc32IEEE = .ok bytes ∧
      Packet.Unmarshal parseMediaTypeModel Packet.zero bytes = .ok P1 ∧
      P1.Header.MessageIDHash = 12345 ∧
      P1.Header.PayloadType = asciiBytes "application/json" ∧
      elems P1.Payload = [0x10, 0x04] := by
  obtain ⟨bytes, P1, hm, hu, _, _, _, _, _, _, _, _, e9, _, e11, e12⟩ :=
    Packet_roundtrip parseMediaTypeModel crc32IEEE jsonMockPacket [192, 0, 2, 1]
      ⟨by decide, by decide, by decide, by decide, by decide, by decide, by decide, by decide,
        by decide, Or.inl ⟨by decide, by decide⟩⟩
      (by decide) (Or.inr ⟨by decide, by decide, by decide, by decide⟩) (by decide)
  exact ⟨bytes, P1, hm, hu, e9.trans (by decide), e11.trans (by decide), e12.trans (by decide)⟩

/-- C2 as stated fails at four valid packets.  The mock packet with the payload "abc"
is encoded, but decoding the bytes fails with `errNoTrailingByteFound`.  A packet whose
hash is the sentinel 0 is encoded with the checksum 46562 of its payload "v=0", which
is the hash of the decoded header.  A packet whose header has a 4-byte address is
decoded with the 16-byte form of the address.  A packet with the payload type
"Text/Plain" is decoded with the media type that the parser returns, "text/plain". -/
theorem Packet_roundtrip_counterexample :
    (nonSdpPacket.Marshal crc32IEEE = .ok [32, 0, 48, 57, 192, 0, 2, 1, 97, 98, 99] ∧
      Packet.Unmarshal parseMediaTypeModel Packet.zero
        [32, 0, 48, 57, 192, 0, 2, 1, 97, 98, 99] = .error .errNoTrailingByteFound) ∧
    (sentinelHashPacket.Header.MessageIDHash = 0 ∧
      sentinelHashPacket.Marshal crc32IEEE =
        .ok [32, 0, 181, 226, 192, 0, 2, 1, 118, 61, 48] ∧
      Packet.Unmarshal parseMediaTypeModel Packet.zero
        [32, 0, 181, 226, 192, 0, 2, 1, 118, 61, 48] =
        .ok { Header := { sentinelHashPacket.Header with MessageIDHash := 46562 },
              Payload := some (asciiBytes "v=0") }) ∧
    (len fourByteAddressPacket.Header.OriginatingSource = 4 ∧
      fourByteAddressPacket.Marshal crc32IEEE = .ok [32, 0, 48, 57, 192, 0, 2, 1] ∧
      Packet.Unmarshal parseMediaTypeModel Packet.zero [32, 0, 48, 57, 192, 0, 2, 1] =
        .ok { Header := { fourByteAddressHeader with OriginatingSource := netIPv4 192 0 2 1 },
              Payload := none } ∧
      netIPv4 192 0 2 1 ≠ fourByteAddressPacket.Header.OriginatingSource) ∧
    (upperCaseTypePacket.Marshal crc32IEEE =
        .ok [32, 0, 48, 57, 192, 0, 2, 1, 84, 101, 120, 116, 47, 80, 108, 97, 105, 110, 0] ∧
      Packet.Unmarshal parseMediaTypeModel Packet.zero
        [32, 0, 48, 57, 192, 0, 2, 1, 84, 101, 120, 116, 47, 80, 108, 97, 105, 110, 0] =
        .ok { Header := { upperCaseTypeHeader with PayloadType := asciiBytes "text/plain" },
              Payload := none } ∧
      asciiBytes "text/plain" ≠ upperCaseTypePacket.Header.PayloadType) := by
  decide

/-! ## Truncated wire forms -/

theorem Encodable.fixed_AddressType {H : Header} {a : List Nat} (he : Encodable H a)
    (h0 : Header) (b1 b2 b3 : Nat) :
    (fixedFields h0 (flagsByte H) b1 b2 b3).AddressType = H.AddressType := by
  show (flagsByte H >>> 4) &&& 1 = _
  rw [flagsByte_eq H he.version he.addressType he.reserved he.messageType he.encrypted
    he.compressed]
  exact flags_decode_addressType _ he.version _ he.addressType _ he.reserved _ he.messageType
    _ he.encrypted _ he.compressed

theorem wire_eq_cons (H : Header) (a : List Nat) :
    wire H a = flagsByte H :: H.AuthenticationLength :: (H.MessageIDHash / 256 % 256) ::
      (H.MessageIDHash % 256) ::
        (a ++ (wordsBytes (elems H.AuthenticationData) ++ payloadTypeBytes H.PayloadType)) := by
  simp [wire, wireFixed, be16]

theorem wireFixed_length (H : Header) (a : List Nat) :
    (wireFixed H a).length = 4 + a.length + 4 * len H.AuthenticationData := by
  simp only [wireFixed, List.length_append, List.length_cons, List.length_nil, be16,
    wordsBytes_length, len, elems]

/-- Truncation inside the fixed regions of the wire form. -/
theorem Unmarshal_take_fixed (parse : List Nat → Except String (List Nat)) (h0 H : Header)
    (a : List Nat) (k : Nat) (he : Encodable H a)
    (hk : k < 4 + addressWidth H.AddressType + 4 * H.AuthenticationLength) :
    Header.Unmarshal parse h0 ((wire H a).take k) =
      .error
        (if k = 0 then .errBufTooSmallForFlags
         else if k = 1 then .errBufTooSmallForAuthLength
         else if k < 4 then .errBufTooSmallForMsgIdHash
         else if k < 4 + addressWidth H.AddressType then
           (if H.AddressType = 0 then .errBufTooSmallForIPv4 else .errBufTooSmallForIPv6)
         else .errBufTooSmallForAuthData) := by
  rw [wire_eq_cons]
  have hal : (elems H.AuthenticationData).length = H.AuthenticationLength := he.authLength
  have hlen := he.addressLength
  rcases k with _ | _ | _ | _ | k
  · simp [Unmarshal_nil]
  · simp [Unmarshal_one]
  · simp [Unmarshal_two]
  · simp [Unmarshal_three]
  · simp only [List.take_succ_cons]
    rw [Unmarshal_cons4]
    have hA := he.fixed_AddressType h0 H.AuthenticationLength (H.MessageIDHash / 256 % 256)
      (H.MessageIDHash % 256)
    have hL : (fixedFields h0 (flagsByte H) H.AuthenticationLength (H.MessageIDHash / 256 % 256)
      (H.MessageIDHash % 256)).AuthenticationLength = H.AuthenticationLength := rfl
    have htl : ((a ++ (wordsBytes (elems H.AuthenticationData) ++
        payloadTypeBytes H.PayloadType)).take k).length = k := by
      rw [List.length_take, List.length_append, List.length_append, wordsBytes_length, hal, hlen]
      omega
    unfold decodeRest
    simp only [hA, hL, htl, show ¬ (k + 1 + 1 + 1 + 1 = 0) by omega,
      show ¬ (k + 1 + 1 + 1 + 1 = 1) by omega, show ¬ (k + 1 + 1 + 1 + 1 < 4) by omega, if_false]
    by_cases hw : k < addressWidth H.AddressType
    · have hw2 : k + 1 + 1 + 1 + 1 < 4 + addressWidth H.AddressType := by omega
      simp only [hw, hw2, if_true]
    · have hw2 : ¬ (k + 1 + 1 + 1 + 1 < 4 + addressWidth H.AddressType) := by omega
      have ha1 : H.AuthenticationLength ≠ 0 := by omega
      have ha2 : k < addressWidth H.AddressType + H.AuthenticationLength * 4 := by omega
      simp only [hw, hw2, if_false, ha1, ha2, ne_eq, not_false_eq_true, and_self, if_true]

/-- Truncation inside the payload type of the wire form. -/
theorem Unmarshal_take_payloadType (parse : List Nat → Except String (List Nat))
    (h0 H : Header) (a : List Nat) (r : Nat) (he : Encodable H a)
    (hr : r ≤ H.PayloadType.length) :
    (wire H a).take (4 + addressWidth H.AddressType + 4 * H.AuthenticationLength + r) =
      wireFixed H a ++ H.PayloadType.take r ∧
    Header.Unmarshal parse h0 (wireFixed H a ++ H.PayloadType.take r) =
      payloadTypeOutcome parse (decodedFrom h0 H) (H.PayloadType.take r) := by
  refine ⟨?_, Unmarshal_wireFixed parse h0 H a _ he⟩
  have hfl : (wireFixed H a).length =
      4 + addressWidth H.AddressType + 4 * H.AuthenticationLength := by
    rw [wireFixed_length, he.addressLength, he.authLength]
  rw [wire, ← hfl, List.take_append]
  congr 1
  unfold payloadTypeBytes
  split
  · rename_i hp; rw [hp]
  · rw [List.take_append_of_le_length hr]

/-- C9, amended (truncation of an encoded header).  Let `H` be a header with one-bit
flag fields, a 16-bit hash, as many 32-bit authentication words as its authentication
length says, an IPv4 address with address type 0 or a 16-byte address that is not
IPv4-mapped with address type 1, and a payload type without a zero byte that does not
begin with "v=0" (it may be empty).  Then `Marshal` succeeds and, for every proper
prefix of its bytes, `Unmarshal` returns the error of the first fixed region that the
prefix does not cover (flags, authentication length, hash, IPv4 or IPv6 address,
authentication data); when the prefix covers them and at least 3 bytes of the payload
type region it returns `errNoTrailingByteFound`; when it covers them and fewer than 3
bytes of the payload type region it succeeds with the fields of `H` and an empty
payload type. -/
theorem Unmarshal_truncated (parse : List Nat → Except String (List Nat)) (h0 H : Header)
    (a : List Nat) (he : Encodable H a) (hz : 0 ∉ H.PayloadType)
    (hv : H.PayloadType.take 3 ≠ asciiBytes "v=0") :
    ∃ bytes, H.Marshal = .ok bytes ∧ ∀ k, k < bytes.length →
      (k = 0 → Header.Unmarshal parse h0 (bytes.take k) = .error .errBufTooSmallForFlags) ∧
      (k = 1 → Header.Unmarshal parse h0 (bytes.take k) = .error .errBufTooSmallForAuthLength) ∧
      (k = 2 ∨ k = 3 →
        Header.Unmarshal parse h0 (bytes.take k) = .error .errBufTooSmallForMsgIdHash) ∧
      (4 ≤ k → k < 4 + addressWidth H.AddressType → H.AddressType = 0 →
        Header.Unmarshal parse h0 (bytes.take k) = .error .errBufTooSmallForIPv4) ∧
      (4 ≤ k → k < 4 + addressWidth H.AddressType → H.AddressType = 1 →
        Header.Unmarshal parse h0 (bytes.take k) = .error .errBufTooSmallForIPv6) ∧
      (4 + addressWidth H.AddressType ≤ k →
        k < 4 + addressWidth H.AddressType + 4 * H.AuthenticationLength →
        Header.Unmarshal parse h0 (bytes.take k) = .error .errBufTooSmallForAuthData) ∧
      (4 + addressWidth H.AddressType + 4 * H.AuthenticationLength + 3 ≤ k →
        Header.Unmarshal parse h0 (bytes.take k) = .error .errNoTrailingByteFound) ∧
      (4 + addressWidth H.AddressType + 4 * H.AuthenticationLength ≤ k →
        k < 4 + addressWidth H.AddressType + 4 * H.AuthenticationLength + 3 →
        Header.Unmarshal parse h0 (bytes.take k) =
          .ok { decodedFrom h0 H with PayloadType := [] }) := by
  refine ⟨wire H a, he.Marshal, ?_⟩
  intro k hk
  have hfix := Unmarshal_take_fixed parse h0 H a k he
  have hwl : (wire H a).length = 4 + addressWidth H.AddressType + 4 * H.AuthenticationLength +
      (payloadTypeBytes H.PayloadType).length := by
    rw [wire_length, he.addressLength, he.authLength]
  have hpl : (payloadTypeBytes H.PayloadType).length ≤ H.PayloadType.length + 1 := by
    unfold payloadTypeBytes; split <;> simp
  have htail : ∀ r, 4 + addressWidth H.AddressType + 4 * H.AuthenticationLength + r = k →
      Header.Unmarshal parse h0 ((wire H a).take k) =
        payloadTypeOutcome parse (decodedFrom h0 H) (H.PayloadType.take r) := by
    intro r hr
    have h1 := Unmarshal_take_payloadType parse h0 H a r he (by omega)
    rw [← hr, h1.1, h1.2]
  refine ⟨?_, ?_, ?_, ?_, ?_, ?_, ?_, ?_⟩
  · intro h; rw [hfix (by omega), if_pos h]
  · intro h; rw [hfix (by omega), if_neg (by omega), if_pos h]
  · intro h; rw [hfix (by omega), if_neg (by omega), if_neg (by omega), if_pos (by omega)]
  · intro h1 h2 h3
    rw [hfix (by omega), if_neg (by omega), if_neg (by omega), if_neg (by omega), if_pos h2,
      if_pos h3]
  · intro h1 h2 h3
    rw [hfix (by omega), if_neg (by omega), if_neg (by omega), if_neg (by omega), if_pos h2,
      if_neg (by omega)]
  · intro h1 h2
    rw [hfix h2, if_neg (by omega), if_neg (by omega), if_neg (by omega), if_neg (by omega)]
  · intro h1
    obtain ⟨r, hr⟩ : ∃ r, 4 + addressWidth H.AddressType + 4 * H.AuthenticationLength + r = k :=
      ⟨k - (4 + addressWidth H.AddressType + 4 * H.AuthenticationLength), by omega⟩
    rw [htail r hr]
    have hrl : r ≤ H.PayloadType.length := by omega
    apply payloadTypeOutcome_noZero
    · rw [List.length_take]; omega
    · rw [List.take_take, Nat.min_eq_left (by omega)]; exact hv
    · intro hc; exact hz (List.mem_of_mem_take hc)
  · intro h1 h2
    obtain ⟨r, hr⟩ : ∃ r, 4 + addressWidth H.AddressType + 4 * H.AuthenticationLength + r = k :=
      ⟨k - (4 + addressWidth H.AddressType + 4 * H.AuthenticationLength), by omega⟩
    rw [htail r hr]
    apply payloadTypeOutcome_omitted
    left
    rw [List.length_take]; omega

/-- The truncation theorem at the header with the payload type "application/sdp": a
prefix of 5 bytes gives `errBufTooSmallForIPv4` and a prefix of 12 bytes, which ends
inside the payload type, gives `errNoTrailingByteFound`. -/
theorem Unmarshal_truncated_witness :
    Header.Unmarshal parseMediaTypeModel Header.zero [32, 0, 48, 57, 192] =
      .error .errBufTooSmallForIPv4 ∧
    Header.Unmarshal parseMediaTypeModel Header.zero
      [32, 0, 48, 57, 192, 0, 2, 1, 97, 112, 112, 108] = .error .errNoTrailingByteFound := by
  obtain ⟨bytes, hm, hall⟩ := Unmarshal_truncated parseMediaTypeModel Header.zero sdpTypeHeader
    [192, 0, 2, 1]
    ⟨by decide, by decide, by decide, by decide, by decide, by decide, by decide, by decide,
      by decide, Or.inl ⟨by decide, by decide⟩⟩
    (by decide) (by decide)
  have hb : sdpTypeHeader.Marshal = .ok [32, 0, 48, 57, 192, 0, 2, 1, 97, 112, 112, 108, 105,
      99, 97, 116, 105, 111, 110, 47, 115, 100, 112, 0] := by decide
  rw [hb] at hm
  injection hm with hm
  subst hm
  exact ⟨(hall 5 (by decide)).2.2.2.1 (by decide) (by decide) (by decide),
    (hall 12 (by decide)).2.2.2.2.2.2.1 (by decide)⟩

/-- C9 as stated fails at the header with the payload type "application/sdp": the 8
byte prefix of its 24 bytes, cut before the payload type, and the 10 byte prefix, cut
inside it, are decoded without error to a header with an empty payload type, which
differs from the encoded header. -/
theorem Unmarshal_truncated_counterexample :
    sdpTypeHeader.Marshal = .ok [32, 0, 48, 57, 192, 0, 2, 1, 97, 112, 112, 108, 105,
      99, 97, 116, 105, 111, 110, 47, 115, 100, 112, 0] ∧
    Header.Unmarshal parseMediaTypeModel Header.zero [32, 0, 48, 57, 192, 0, 2, 1] =
      .ok { sdpTypeHeader with PayloadType := [] } ∧
    Header.Unmarshal parseMediaTypeModel Header.zero [32, 0, 48, 57, 192, 0, 2, 1, 97, 112] =
      .ok { sdpTypeHeader with PayloadType := [] } ∧
    ({ sdpTypeHeader with PayloadType := [] } : Header) ≠ sdpTypeHeader := by
  decide

/-! ## The payload type string -/

theorem Unmarshal_of_fit (parse : List Nat → Except String (List Nat)) (h : Header)
    (buf : List Nat)
    (hfit : 4 + addressWidth (buf.getD 0 0 / 16 % 2) + 4 * buf.getD 1 0 ≤ buf.length) :
    Header.Unmarshal parse h buf =
      payloadTypeOutcome parse
        (withAddressAndAuth
          (fixedFields h (buf.getD 0 0) (buf.getD 1 0) (buf.getD 2 0) (buf.getD 3 0))
          (buf.drop 4))
        (buf.drop (4 + addressWidth (buf.getD 0 0 / 16 % 2) + 4 * buf.getD 1 0)) := by
  have h4 : 4 ≤ buf.length := by omega
  rw [Unmarshal_eq parse h buf h4]
  have hA := fixedFields_AddressType h (buf.getD 0 0) (buf.getD 1 0) (buf.getD 2 0) (buf.getD 3 0)
  have hL : (fixedFields h (buf.getD 0 0) (buf.getD 1 0) (buf.getD 2 0)
      (buf.getD 3 0)).AuthenticationLength = buf.getD 1 0 := rfl
  rcases decodeRest_cases parse
      (fixedFields h (buf.getD 0 0) (buf.getD 1 0) (buf.getD 2 0) (buf.getD 3 0)) (buf.drop 4) with
    ⟨hw, _⟩ | ⟨_, _, ha, _⟩ | ⟨_, hr⟩
  · rw [hA, List.length_drop] at hw; omega
  · rw [hA, hL, List.length_drop] at ha; omega
  · rw [hr, hA, hL, List.drop_drop, Nat.add_assoc]

theorem Unmarshal_of_not_fit (parse : List Nat → Except String (List Nat)) (h : Header)
    (buf : List Nat)
    (hfit : ¬ (4 + addressWidth (buf.getD 0 0 / 16 % 2) + 4 * buf.getD 1 0 ≤ buf.length)) :
    Header.Unmarshal parse h buf = .error .errBufTooSmallForFlags ∨
    Header.Unmarshal parse h buf = .error .errBufTooSmallForAuthLength ∨
    Header.Unmarshal parse h buf = .error .errBufTooSmallForMsgIdHash ∨
    Header.Unmarshal parse h buf = .error .errBufTooSmallForIPv4 ∨
    Header.Unmarshal parse h buf = .error .errBufTooSmallForIPv6 ∨
    Header.Unmarshal parse h buf = .error .errBufTooSmallForAuthData := by
  rcases buf with _ | ⟨b0, _ | ⟨b1, _ | ⟨b2, _ | ⟨b3, rest⟩⟩⟩⟩
  · left; exact Unmarshal_nil parse h
  · right; left; exact Unmarshal_one parse h b0
  · right; right; left; exact Unmarshal_two parse h b0 b1
  · right; right; left; exact Unmarshal_three parse h b0 b1 b2
  · rw [Unmarshal_cons4]
    have hA := fixedFields_AddressType h b0 b1 b2 b3
    have hL : (fixedFields h b0 b1 b2 b3).AuthenticationLength = b1 := rfl
    simp only [List.length_cons, List.getD_cons_zero, List.getD_cons_succ] at hfit
    rcases decodeRest_cases parse (fixedFields h b0 b1 b2 b3) rest with
      ⟨_, hr⟩ | ⟨_, _, _, hr⟩ | ⟨hf, _⟩
    · rw [hr]
      by_cases h0 : (fixedFields h b0 b1 b2 b3).AddressType = 0
      · rw [if_pos h0]; right; right; right; left; rfl
      · rw [if_neg h0]; right; right; right; right; left; rfl
    · rw [hr]; right; right; right; right; right; rfl
    · rw [hA, hL] at hf; omega

/-- C11 (missing trailing zero).  For every buffer, receiver and media type parser,
`Header.Unmarshal` returns `errNoTrailingByteFound` exactly when the buffer holds the
four fixed bytes, the address selected by bit 4 of the first byte and four bytes for
each authentication word counted by the second byte, and what follows has at least 3
bytes, does not begin with "v=0" and contains no zero byte. -/
theorem Unmarshal_noTrailingByte_iff (parse : List Nat → Except String (List Nat))
    (h : Header) (buf : List Nat) :
    Header.Unmarshal parse h buf = .error .errNoTrailingByteFound ↔
      4 + addressWidth (buf.getD 0 0 / 16 % 2) + 4 * buf.getD 1 0 ≤ buf.length ∧
      3 ≤ (buf.drop (4 + addressWidth (buf.getD 0 0 / 16 % 2) + 4 * buf.getD 1 0)).length ∧
      (buf.drop (4 + addressWidth (buf.getD 0 0 / 16 % 2) + 4 * buf.getD 1 0)).take 3 ≠
        asciiBytes "v=0" ∧
      0 ∉ buf.drop (4 + addressWidth (buf.getD 0 0 / 16 % 2) + 4 * buf.getD 1 0) := by
  by_cases hfit : 4 + addressWidth (buf.getD 0 0 / 16 % 2) + 4 * buf.getD 1 0 ≤ buf.length
  · rw [Unmarshal_of_fit parse h buf hfit]
    constructor
    · intro he
      unfold payloadTypeOutcome at he
      split at he
      · cases he
      · rename_i hn
        split at he
        · rename_i hz
          exact ⟨hfit, by omega, fun hc => hn (Or.inr hc), hz⟩
        · split at he
          · injection he with he; cases he
          · cases he
    · rintro ⟨_, h3, hv, hz⟩
      exact payloadTypeOutcome_noZero parse _ _ h3 hv hz
  · constructor
    · intro he
      rcases Unmarshal_of_not_fit parse h buf hfit with hc | hc | hc | hc | hc | hc <;>
        (rw [hc] at he; cases he)
    · rintro ⟨hc, _⟩
      exact absurd hc hfit

/-- C12 (payload type parse).  When the buffer passes the checks of the fixed regions
and what follows the authentication data has at least 3 bytes, does not begin with
"v=0" and contains a zero byte, the outcome of `Header.Unmarshal` is the outcome of
the media type parser on the bytes before the first zero byte: an error of the parser
is returned as the error of `Unmarshal`, and a media type `m` makes `Unmarshal`
succeed with `PayloadType` equal to `m`. -/
theorem Unmarshal_payloadType_parse (parse : List Nat → Except String (List Nat))
    (h : Header) (buf : List Nat)
    (hfit : 4 + addressWidth (buf.getD 0 0 / 16 % 2) + 4 * buf.getD 1 0 ≤ buf.length)
    (h3 : 3 ≤ (buf.drop (4 + addressWidth (buf.getD 0 0 / 16 % 2) + 4 * buf.getD 1 0)).length)
    (hv : (buf.drop (4 + addressWidth (buf.getD 0 0 / 16 % 2) + 4 * buf.getD 1 0)).take 3 ≠
      asciiBytes "v=0")
    (hz : 0 ∈ buf.drop (4 + addressWidth (buf.getD 0 0 / 16 % 2) + 4 * buf.getD 1 0)) :
    (∀ msg,
      parse ((buf.drop (4 + addressWidth (buf.getD 0 0 / 16 % 2) + 4 * buf.getD 1 0)).take
        ((buf.drop (4 + addressWidth (buf.getD 0 0 / 16 % 2) + 4 * buf.getD 1 0)).indexOf 0)) =
        .error msg →
      Header.Unmarshal parse h buf = .error (.errMediaType msg)) ∧
    (∀ m,
      parse ((buf.drop (4 + addressWidth (buf.getD 0 0 / 16 % 2) + 4 * buf.getD 1 0)).take
        ((buf.drop (4 + addressWidth (buf.getD 0 0 / 16 % 2) + 4 * buf.getD 1 0)).indexOf 0)) =
        .ok m →
      ∃ h1, Header.Unmarshal parse h buf = .ok h1 ∧ h1.PayloadType = m) := by
  rw [Unmarshal_of_fit parse h buf hfit]
  unfold payloadTypeOutcome
  rw [if_neg (by intro hc; rcases hc with hc | hc; omega; exact hv hc), if_neg (by simpa using hz)]
  constructor
  · intro msg hp
    rw [hp]
  · intro m hp
    rw [hp]
    exact ⟨_, rfl, rfl⟩

/-- The payload type parse on two buffers: "o=- 1" before the zero byte is rejected
by the parser and its error is returned; "Text/Plain" is accepted and the payload type
is the media type returned, "text/plain". -/
theorem Unmarshal_payloadType_parse_witness :
    Header.Unmarshal parseMediaTypeModel Header.zero
      [32, 0, 48, 57, 192, 0, 2, 1, 111, 61, 45, 32, 49, 0, 7] =
      .error (.errMediaType "mime: expected slash after first token") ∧
    ∃ h1, Header.Unmarshal parseMediaTypeModel Header.zero
      [32, 0, 48, 57, 192, 0, 2, 1, 84, 101, 120, 116, 47, 80, 108, 97, 105, 110, 0, 7] =
        .ok h1 ∧ h1.PayloadType = asciiBytes "text/plain" :=
  ⟨(Unmarshal_payloadType_parse parseMediaTypeModel Header.zero
      [32, 0, 48, 57, 192, 0, 2, 1, 111, 61, 45, 32, 49, 0, 7]
      (by decide) (by decide) (by decide) (by decide)).1 _ (by decide),
   (Unmarshal_payloadType_parse parseMediaTypeModel Header.zero
      [32, 0, 48, 57, 192, 0, 2, 1, 84, 101, 120, 116, 47, 80, 108, 97, 105, 110, 0, 7]
      (by decide) (by decide) (by decide) (by decide)).2 _ (by decide)⟩

/-! ## Decoding into a packet: the payload boundary and the receiver -/

/-- C13 (payload boundary on decode), evaluated at a buffer that a zero-valued packet
decodes without error: 8 header bytes, the payload type string
"text/plain; charset=utf-8", its zero byte at offset 25 of the remainder, and the
payload "hello".  The bytes after the zero byte are "hello", but the decoded payload
starts 11 bytes after the header, inside the payload type string: the offset is the
`MarshalSize` of the decoded header, whose payload type is the 10 bytes "text/plain"
returned by the parser. -/
theorem Packet_Unmarshal_boundary_off :
    (parameterTypeBuffer.drop 8).indexOf 0 = 25 ∧
    (parameterTypeBuffer.drop 8).take 25 = asciiBytes "text/plain; charset=utf-8" ∧
    parameterTypeBuffer.drop (8 + 25 + 1) = asciiBytes "hello" ∧
    Packet.Unmarshal parseMediaTypeModel Packet.zero parameterTypeBuffer =
      .ok { Header := { plainHeader with PayloadType := asciiBytes "text/plain" },
            Payload := some (asciiBytes " charset=utf-8" ++ 0 :: asciiBytes "hello") } := by
  decide

/-- C14 (header-sized input gives an empty payload), evaluated on a packet value that
is used for two datagrams.  The first, with the payload "v=0" and a line feed, leaves
these 4 bytes in `Payload`.  The second has exactly the 8 bytes of the decoded header:
`Unmarshal` succeeds and `Payload` still holds the 4 bytes of the first datagram. -/
theorem Packet_Unmarshal_stale_payload :
    Packet.Unmarshal parseMediaTypeModel Packet.zero sdpBuffer =
      .ok { Header := plainHeader, Payload := some [118, 61, 48, 10] } ∧
    Packet.Unmarshal parseMediaTypeModel
        { Header := plainHeader, Payload := some [118, 61, 48, 10] } plainHeaderBuffer =
      .ok { Header := plainHeader, Payload := some [118, 61, 48, 10] } ∧
    plainHeaderBuffer.length = plainHeader.MarshalSize := by
  decide

/-- C20 (authentication length invariant on decode), evaluated on a header value that
is used for two buffers.  The first carries two authentication words, which the
decoder stores.  The second carries none: `Unmarshal` succeeds with
`AuthenticationLength` 0 and leaves the two words of the first buffer in
`AuthenticationData`. -/
theorem Unmarshal_stale_authenticationData :
    Header.Unmarshal parseMediaTypeModel Header.zero twoWordsBuffer =
      .ok { plainHeader with AuthenticationLength := 2, AuthenticationData := some [1, 2] } ∧
    Header.Unmarshal parseMediaTypeModel
        { plainHeader with AuthenticationLength := 2, AuthenticationData := some [1, 2] }
        plainHeaderBuffer =
      .ok { plainHeader with AuthenticationLength := 0, AuthenticationData := some [1, 2] } ∧
    len ({ plainHeader with AuthenticationLength := 0, AuthenticationData := some [1, 2] } :
      Header).AuthenticationData ≠ 0 := by
  decide

/-! ## The errors of the encoder -/

theorem OnlyPanics.ok {α : Type} (a : α) : OnlyPanics (Except.ok a : Except Error α) := by
  intro e h; cases h

theorem OnlyPanics.panic {α : Type} : OnlyPanics (Except.error .runtimePanic : Except Error α) := by
  intro e h; injection h with h; exact h.symm

theorem OnlyPanics.bind {α β : Type} {x : Except Error α} {f : α → Except Error β}
    (hx : OnlyPanics x) (hf : ∀ a, OnlyPanics (f a)) : OnlyPanics (x >>= f) := by
  cases x with
  | error e =>
    intro e2 h
    rw [error_bind] at h
    injection h with h
    rw [← h]
    exact hx e rfl
  | ok a => rw [ok_bind]; exact hf a

theorem copyAt_onlyPanics (buf : List Nat) (pos : Nat) (src : List Nat) :
    OnlyPanics (copyAt buf pos src) := by
  unfold copyAt
  split
  · exact OnlyPanics.ok _
  · exact OnlyPanics.panic

theorem store_onlyPanics (buf : List Nat) (i v : Nat) : OnlyPanics (store buf i v) := by
  unfold store
  split
  · exact OnlyPanics.ok _
  · exact OnlyPanics.panic

theorem PutUint32_onlyPanics (buf : List Nat) (pos v : Nat) :
    OnlyPanics (PutUint32 buf pos v) := by
  unfold PutUint32
  split
  · exact OnlyPanics.ok _
  · exact OnlyPanics.panic

theorem putAuthData_onlyPanics (ws buf : List Nat) (cur : Nat) :
    OnlyPanics (putAuthData ws buf cur) := by
  induction ws generalizing buf cur with
  | nil => exact OnlyPanics.ok _
  | cons w ws ih =>
    rw [putAuthData]
    exact OnlyPanics.bind (PutUint32_onlyPanics _ _ _) (fun b => ih b _)

theorem putPayloadType_onlyPanics (cur : Nat) (pt buf : List Nat) (i : Nat) :
    OnlyPanics (putPayloadType cur pt buf i) := by
  induction pt generalizing buf i with
  | nil => exact OnlyPanics.ok _
  | cons b pt ih =>
    rw [putPayloadType]
    exact OnlyPanics.bind (store_onlyPanics _ _ _) (fun b => ih b _)

theorem marshalPayloadType_onlyPanics (h : Header) (buf : List Nat) (cur : Nat) :
    OnlyPanics (marshalPayloadType h buf cur) := by
  unfold marshalPayloadType
  split
  · exact OnlyPanics.bind (putPayloadType_onlyPanics _ _ _ _)
      (fun b => OnlyPanics.bind (store_onlyPanics _ _ _) (fun _ => OnlyPanics.ok _))
  · exact OnlyPanics.ok _

theorem wireAddress_eq_none_iff (ip : Option (List Nat)) :
    wireAddress ip = none ↔ len ip ≠ 4 ∧ len ip ≠ 16 := by
  unfold wireAddress To4 To16
  by_cases h4 : len ip = 4
  · have hs : ∃ l, ip = some l := by
      cases ip with
      | none => simp [len] at h4
      | some l => exact ⟨l, rfl⟩
    obtain ⟨l, rfl⟩ := hs
    simp [h4]
  · by_cases h16 : len ip = 16
    · have hs : ∃ l, ip = some l := by
        cases ip with
        | none => simp [len] at h16
        | some l => exact ⟨l, rfl⟩
      obtain ⟨l, rfl⟩ := hs
      simp only [h4, h16, if_false, if_true, true_and]
      split <;> simp_all
    · simp [h4, h16]

theorem marshalOriginatingSource_invalid (h : Header) (buf : List Nat) (cur : Nat)
    (hn : wireAddress h.OriginatingSource = none) :
    marshalOriginatingSource h buf cur = .error .errInvalidIPOnHeader := by
  unfold marshalOriginatingSource
  unfold wireAddress at hn
  cases h4 : To4 h.OriginatingSource with
  | some ip4 => rw [h4] at hn; cases hn
  | none =>
    rw [h4] at hn
    have h16 : To16 h.OriginatingSource = none := hn
    rw [h16]
    rfl

theorem marshalOriginatingSource_onlyPanics (h : Header) (buf : List Nat) (cur : Nat)
    (a : List Nat) (hs : wireAddress h.OriginatingSource = some a) :
    OnlyPanics (marshalOriginatingSource h buf cur) := by
  unfold marshalOriginatingSource
  unfold wireAddress at hs
  cases h4 : To4 h.OriginatingSource with
  | some ip4 =>
    exact OnlyPanics.bind (copyAt_onlyPanics _ _ _) (fun _ => OnlyPanics.ok _)
  | none =>
    rw [h4] at hs
    have h16 : To16 h.OriginatingSource = some a := hs
    rw [h16]
    exact OnlyPanics.bind (copyAt_onlyPanics _ _ _) (fun _ => OnlyPanics.ok _)

theorem MarshalTo_short (h : Header) (buf : List Nat) (hs : buf.length < h.MarshalSize) :
    h.MarshalTo buf = .error .errShortBuffer := by
  unfold Header.MarshalTo
  simp only [gt_iff_lt, hs, if_true, throw_eq_error, error_bind]

theorem MarshalSize_ge (h : Header) : 8 ≤ h.MarshalSize := by
  rw [MarshalSize_eq]
  unfold addressWidth
  split <;> omega

theorem MarshalTo_chain (h : Header) (buf : List Nat) (hs : h.MarshalSize ≤ buf.length) :
    ∃ buf1 : List Nat, buf1.length = buf.length ∧
      h.MarshalTo buf =
        (marshalOriginatingSource h buf1 4 >>= fun r =>
          putAuthData (elems h.AuthenticationData) r.1 r.2 >>= fun r =>
          marshalPayloadType h r.1 r.2 >>= fun r => pure (r.2, r.1)) := by
  have h8 := MarshalSize_ge h
  rcases buf with _ | ⟨c0, _ | ⟨c1, _ | ⟨c2, _ | ⟨c3, rest⟩⟩⟩⟩
  · simp only [List.length_nil] at hs; omega
  · simp only [List.length_cons, List.length_nil] at hs; omega
  · simp only [List.length_cons, List.length_nil] at hs; omega
  · simp only [List.length_cons, List.length_nil] at hs; omega
  · refine ⟨flagsByte h :: h.AuthenticationLength :: (be16 h.MessageIDHash ++ rest), ?_, ?_⟩
    · simp [be16]
    · unfold Header.MarshalTo
      rw [if_neg (by omega)]
      simp only [store_cons_zero, orStore_cons_zero, store_cons_one, PutUint16_two, ok_bind,
        pure_eq_ok, Nat.reduceAdd, Nat.zero_add, throw_eq_error]
      rfl

theorem MarshalTo_invalid (h : Header) (buf : List Nat) (hs : h.MarshalSize ≤ buf.length)
    (hn : wireAddress h.OriginatingSource = none) :
    h.MarshalTo buf = .error .errInvalidIPOnHeader := by
  obtain ⟨buf1, _, he⟩ := MarshalTo_chain h buf hs
  rw [he, marshalOriginatingSource_invalid h buf1 4 hn, error_bind]

theorem MarshalTo_onlyPanics (h : Header) (buf : List Nat) (hs : h.MarshalSize ≤ buf.length)
    (a : List Nat) (ha : wireAddress h.OriginatingSource = some a) :
    OnlyPanics (h.MarshalTo buf) := by
  obtain ⟨buf1, _, he⟩ := MarshalTo_chain h buf hs
  rw [he]
  exact OnlyPanics.bind (marshalOriginatingSource_onlyPanics h buf1 4 a ha)
    (fun _ => OnlyPanics.bind (putAuthData_onlyPanics _ _ _)
      (fun _ => OnlyPanics.bind (marshalPayloadType_onlyPanics _ _ _) (fun _ => OnlyPanics.ok _)))

/-- C16 (invalid address).  For every header and every buffer that has at least
`MarshalSize` bytes, `Header.MarshalTo` returns `errInvalidIPOnHeader` exactly when the
length of `OriginatingSource` is neither 4 nor 16 (the nil address has length 0).  An
error return of the model carries no count: every error return of the source has the
count 0. -/
theorem MarshalTo_invalid_address_iff (h : Header) (buf : List Nat)
    (hs : h.MarshalSize ≤ buf.length) :
    h.MarshalTo buf = .error .errInvalidIPOnHeader ↔
      len h.OriginatingSource ≠ 4 ∧ len h.OriginatingSource ≠ 16 := by
  rw [← wireAddress_eq_none_iff]
  constructor
  · intro he
    cases hw : wireAddress h.OriginatingSource with
    | none => rfl
    | some a =>
      have := MarshalTo_onlyPanics h buf hs a hw _ he
      cases this
  · exact MarshalTo_invalid h buf hs

/-- The invalid address theorem at the header of `TestHeaderMarshalTo_InvalidIP` and a
buffer of 1024 bytes. -/
theorem MarshalTo_invalid_address_iff_witness :
    invalidAddressHeader.MarshalTo (List.replicate 1024 0) = .error .errInvalidIPOnHeader :=
  (MarshalTo_invalid_address_iff invalidAddressHeader (List.replicate 1024 0)
    (by rw [List.length_replicate]; decide)).mpr ⟨by decide, by decide⟩

/-- C17 (short destination buffer).  For every header and every buffer,
`Header.MarshalTo` returns `io.ErrShortBuffer` exactly when the buffer is shorter than
`MarshalSize`; in that case it does not return `errInvalidIPOnHeader`, whatever the
address is.  An error return of the model carries no count: every error return of the
source has the count 0. -/
theorem MarshalTo_short_buffer_iff (h : Header) (buf : List Nat) :
    (h.MarshalTo buf = .error .errShortBuffer ↔ buf.length < h.MarshalSize) ∧
    (buf.length < h.MarshalSize → h.MarshalTo buf ≠ .error .errInvalidIPOnHeader) := by
  refine ⟨?_, fun hs => by rw [MarshalTo_short h buf hs]; simp⟩
  constructor
  · intro he
    by_contra hc
    have hs : h.MarshalSize ≤ buf.length := by omega
    cases hw : wireAddress h.OriginatingSource with
    | none =>
      rw [MarshalTo_invalid h buf hs hw] at he
      cases he
    | some a =>
      have := MarshalTo_onlyPanics h buf hs a hw _ he
      cases this
  · exact MarshalTo_short h buf

/-! ## Encoding a packet -/

theorem Packet_MarshalTo_short (crc : List Nat → Nat) (P : Packet) (buf : List Nat)
    (hs : buf.length < P.Header.MarshalSize) :
    P.MarshalTo crc buf = .error .errBufTooSmallForHeader := by
  unfold Packet.MarshalTo
  simp only [hs, if_true, throw_eq_error, error_bind]

theorem Packet_MarshalTo_eq (crc : List Nat → Nat) (P : Packet) (a buf : List Nat)
    (ha : wireAddress P.Header.OriginatingSource = some a)
    (hw : a.length ≤ addressWidth P.Header.AddressType)
    (hs : P.Header.MarshalSize ≤ buf.length) :
    P.MarshalTo crc buf =
      if buf.length < P.Header.MarshalSize + len P.Payload then
        .error .errBufTooSmallForPayload
      else
        .ok (P.Header.MarshalSize + len P.Payload,
          wire (headerToEncode crc P) a ++ elems P.Payload ++
            buf.drop ((wire (headerToEncode crc P) a).length + len P.Payload)) := by
  have hsz := headerToEncode_MarshalSize crc P
  have hOS : (headerToEncode crc P).OriginatingSource = P.Header.OriginatingSource := by
    rw [headerToEncode_eq]
  have hAT : (headerToEncode crc P).AddressType = P.Header.AddressType := by
    rw [headerToEncode_eq]
  have hwl : (wire (headerToEncode crc P) a).length ≤ P.Header.MarshalSize := by
    rw [wire_length, ← hsz, MarshalSize_eq, hAT]; omega
  have hm := MarshalTo_eq (headerToEncode crc P) buf a (by rw [hOS]; exact ha)
    (by rw [hsz]; exact hs) (by omega)
  have hm2 : (if P.Header.MessageIDHash = 0 then
        ({ P with Header := { P.Header with
            MessageIDHash := ComputeMsgIdHash crc P.Payload } } : Packet)
      else P).Header = headerToEncode crc P := by
    unfold headerToEncode
    split <;> rfl
  have hp2 : (if P.Header.MessageIDHash = 0 then
        ({ P with Header := { P.Header with
            MessageIDHash := ComputeMsgIdHash crc P.Payload } } : Packet)
      else P).Payload = P.Payload := by
    split <;> rfl
  have hbl : (wire (headerToEncode crc P) a ++
      buf.drop (wire (headerToEncode crc P) a).length).length = buf.length := by
    rw [List.length_append, List.length_drop]; omega
  simp only [Packet.MarshalTo, hm2, hp2, hm, ok_bind, pure_eq_ok, throw_eq_error]
  rw [if_neg (by omega)]
  simp only [ok_bind, hbl]
  by_cases hp : buf.length < P.Header.MarshalSize + len P.Payload
  · simp only [hp, if_true, error_bind]
  · have hroom : (elems P.Payload).length ≤
        (buf.drop (wire (headerToEncode crc P) a).length).length := by
      rw [List.length_drop]
      have : (elems P.Payload).length = len P.Payload := rfl
      omega
    simp only [hp, if_false, ok_bind]
    rw [copyAt_append _ _ (elems P.Payload) _ rfl hroom, ok_bind, List.drop_drop]
    have hmin : min (buf.length - (wire (headerToEncode crc P) a).length) (len P.Payload) =
        len P.Payload := by
      apply Nat.min_eq_right
      omega
    rw [hmin]
    rfl

theorem Packet_Marshal_general (crc : List Nat → Nat) (P : Packet) (a : List Nat)
    (ha : wireAddress P.Header.OriginatingSource = some a)
    (hw : a.length = addressWidth P.Header.AddressType) :
    P.Marshal crc = .ok (wire (headerToEncode crc P) a ++ elems P.Payload) := by
  have hsz := headerToEncode_MarshalSize crc P
  have hAT : (headerToEncode crc P).AddressType = P.Header.AddressType := by
    rw [headerToEncode_eq]
  have hwl : (wire (headerToEncode crc P) a).length = P.Header.MarshalSize := by
    rw [wire_length, ← hsz, MarshalSize_eq, hAT]; omega
  have hpl : (elems P.Payload).length = len P.Payload := rfl
  have h1 := Packet_MarshalTo_eq crc P a (List.replicate P.MarshalSize 0) ha (by omega)
    (by rw [List.length_replicate]; unfold Packet.MarshalSize; omega)
  rw [if_neg (by rw [List.length_replicate]; unfold Packet.MarshalSize; omega)] at h1
  simp only [Packet.Marshal, h1, ok_bind]
  have hd : (List.replicate P.MarshalSize 0).drop
      ((wire (headerToEncode crc P) a).length + len P.Payload) = [] := by
    apply List.drop_eq_nil_of_le
    rw [List.length_replicate]; unfold Packet.MarshalSize; omega
  rw [hd, List.append_nil]
  show slice _ 0 _ = _
  have hlen : P.Header.MarshalSize + len P.Payload =
      (wire (headerToEncode crc P) a ++ elems P.Payload).length := by
    rw [List.length_append]; omega
  rw [hlen, slice_zero _ _ (Nat.le_refl _), List.take_length]

/-- Claim C15: `Header.MarshalTo` does not reject an address whose width differs
from the one selected by AddressType.  A 4-byte address with AddressType 1 is
written as four bytes into a 20 byte buffer with count 8, and a 16-byte address
that is not IPv4 with AddressType 0 is written as sixteen bytes with count 20,
also into an 8 byte buffer, of which it reports 20 bytes written; no call
returns an error. -/
theorem MarshalTo_accepts_mismatch :
    len fourByteAddressTypeOneHeader.OriginatingSource = 4 ∧
    fourByteAddressTypeOneHeader.AddressType = 1 ∧
    fourByteAddressTypeOneHeader.MarshalSize = 20 ∧
    fourByteAddressTypeOneHeader.MarshalTo (List.replicate 20 0) =
      .ok (8, [48, 0, 48, 57, 192, 0, 2, 1, 0, 0, 0, 0, 0, 0, 0, 0, 0, 0, 0, 0]) ∧
    len sixteenByteAddressTypeZeroHeader.OriginatingSource = 16 ∧
    To4 sixteenByteAddressTypeZeroHeader.OriginatingSource = none ∧
    sixteenByteAddressTypeZeroHeader.AddressType = 0 ∧
    sixteenByteAddressTypeZeroHeader.MarshalSize = 8 ∧
    sixteenByteAddressTypeZeroHeader.MarshalTo (List.replicate 32 0) =
      .ok (20, [32, 0, 48, 57, 32, 1, 13, 184, 0, 0, 0, 0, 0, 0, 0, 0, 0, 0, 0, 104,
        0, 0, 0, 0, 0, 0, 0, 0, 0, 0, 0, 0]) ∧
    sixteenByteAddressTypeZeroHeader.MarshalTo (List.replicate 8 0) =
      .ok (20, [32, 0, 48, 57, 32, 1, 13, 184]) := by
  decide

/-- Claim C18: for a packet whose header address is well formed and no wider than
the width selected by AddressType, `Packet.MarshalTo` returns
errBufTooSmallForHeader exactly when the buffer is shorter than the header size,
errBufTooSmallForPayload exactly when the buffer holds the header but not header
and payload, and otherwise succeeds with the count header size plus payload
length, which is `Packet.MarshalSize`. -/
theorem Packet_MarshalTo_outcomes (crc : List Nat → Nat) (P : Packet) (a buf : List Nat)
    (ha : wireAddress P.Header.OriginatingSource = some a)
    (hw : a.length ≤ addressWidth P.Header.AddressType) :
    (P.MarshalTo crc buf = .error .errBufTooSmallForHeader ↔
      buf.length < P.Header.MarshalSize) ∧
    (P.MarshalTo crc buf = .error .errBufTooSmallForPayload ↔
      P.Header.MarshalSize ≤ buf.length ∧
        buf.length < P.Header.MarshalSize + len P.Payload) ∧
    (P.Header.MarshalSize + len P.Payload ≤ buf.length →
      P.MarshalTo crc buf =
        .ok (P.MarshalSize,
          wire (headerToEncode crc P) a ++ elems P.Payload ++
            buf.drop ((wire (headerToEncode crc P) a).length + len P.Payload)) ∧
      P.MarshalSize = P.Header.MarshalSize + len P.Payload) := by
  by_cases hs : buf.length < P.Header.MarshalSize
  · have h1 := Packet_MarshalTo_short crc P buf hs
    refine ⟨⟨fun _ => hs, fun _ => h1⟩, ⟨fun h => ?_, fun h => ?_⟩, fun h => ?_⟩
    · rw [h1] at h; cases h
    · omega
    · omega
  · have h1 := Packet_MarshalTo_eq crc P a buf ha hw (by omega)
    by_cases hp : buf.length < P.Header.MarshalSize + len P.Payload
    · rw [if_pos hp] at h1
      refine ⟨⟨fun h => ?_, fun h => ?_⟩, ⟨fun _ => ⟨by omega, hp⟩, fun _ => h1⟩, fun h => ?_⟩
      · rw [h1] at h; cases h
      · omega
      · omega
    · rw [if_neg hp] at h1
      refine ⟨⟨fun h => ?_, fun h => ?_⟩, ⟨fun h => ?_, fun h => ?_⟩, fun _ => ⟨h1, rfl⟩⟩
      · rw [h1] at h; cases h
      · omega
      · rw [h1] at h; cases h
      · omega

/-- Witness for C18: the mock packet of the tests with the payload 0x10 0x04 and
buffers of 4, 9 and 10 bytes. -/
theorem Packet_MarshalTo_outcomes_witness :
    twoBytePayloadPacket.MarshalTo crc32IEEE (List.replicate 4 0) =
      .error .errBufTooSmallForHeader ∧
    twoBytePayloadPacket.MarshalTo crc32IEEE (List.replicate 9 0) =
      .error .errBufTooSmallForPayload ∧
    twoBytePayloadPacket.MarshalTo crc32IEEE (List.replicate 10 0) =
      .ok (10, [32, 0, 48, 57, 192, 0, 2, 1, 16, 4]) ∧
    twoBytePayloadPacket.MarshalSize = 10 :=
  have h4 := Packet_MarshalTo_outcomes crc32IEEE twoBytePayloadPacket [192, 0, 2, 1]
    (List.replicate 4 0) (by decide) (by decide)
  have h9 := Packet_MarshalTo_outcomes crc32IEEE twoBytePayloadPacket [192, 0, 2, 1]
    (List.replicate 9 0) (by decide) (by decide)
  have h10 := Packet_MarshalTo_outcomes crc32IEEE twoBytePayloadPacket [192, 0, 2, 1]
    (List.replicate 10 0) (by decide) (by decide)
  ⟨h4.1.2 (by decide), h9.2.1.2 (by decide), (h10.2.2 (by decide)).1, by decide⟩

/-- Claim C19: for a packet whose header address is well formed and of the width
selected by AddressType, `Packet.Marshal` yields the bytes of `Header.Marshal`
of the header H followed by the payload, where H is the header of the packet
with MessageIDHash replaced by `ComputeMsgIdHash` of the payload when it is 0,
and the header of the packet unchanged otherwise. -/
theorem Packet_Marshal_header_then_payload (crc : List Nat → Nat) (P : Packet) (a : List Nat)
    (ha : wireAddress P.Header.OriginatingSource = some a)
    (hw : a.length = addressWidth P.Header.AddressType) :
    ∃ hb : List Nat,
      Header.Marshal
        (if P.Header.MessageIDHash = 0 then
          { P.Header with MessageIDHash := ComputeMsgIdHash crc P.Payload }
        else P.Header) = .ok hb ∧
      P.Marshal crc = .ok (hb ++ elems P.Payload) := by
  refine ⟨wire (headerToEncode crc P) a, ?_, Packet_Marshal_general crc P a ha hw⟩
  have hOS : (headerToEncode crc P).OriginatingSource = P.Header.OriginatingSource := by
    rw [headerToEncode_eq]
  have hAT : (headerToEncode crc P).AddressType = P.Header.AddressType := by
    rw [headerToEncode_eq]
  exact Marshal_eq (headerToEncode crc P) a (by rw [hOS]; exact ha) (by rw [hAT]; omega)

/-- Witness for C19: a packet with the sentinel hash 0 and the payload "v=0", whose
hash is filled with 46562, and the mock packet with the hash 12345, which is kept. -/
theorem Packet_Marshal_header_then_payload_witness :
    (∃ hb : List Nat,
      Header.Marshal
        (if sentinelHashPacket.Header.MessageIDHash = 0 then
          { sentinelHashPacket.Header with
            MessageIDHash := ComputeMsgIdHash crc32IEEE sentinelHashPacket.Payload }
        else sentinelHashPacket.Header) = .ok hb ∧
      sentinelHashPacket.Marshal crc32IEEE = .ok (hb ++ elems sentinelHashPacket.Payload)) ∧
    sentinelHashPacket.Marshal crc32IEEE = .ok [32, 0, 181, 226, 192, 0, 2, 1, 118, 61, 48] ∧
    twoBytePayloadPacket.Marshal crc32IEEE = .ok [32, 0, 48, 57, 192, 0, 2, 1, 16, 4] :=
  ⟨Packet_Marshal_header_then_payload crc32IEEE sentinelHashPacket [192, 0, 2, 1]
    (by decide) (by decide), by decide, by decide⟩

/-! ## Clone -/

theorem copySlice_replicate (src : List Nat) :
    copySlice (List.replicate src.length 0) src = src := by
  unfold copySlice
  rw [List.length_replicate, List.take_length,
    List.drop_eq_nil_of_le (by rw [List.length_replicate]), List.append_nil]

theorem Header_Clone_eq (h : Header) : h.Clone = h := by
  obtain ⟨V, A, R, T, E, C, AL, AD, hash, OS, PT⟩ := h
  cases AD <;> cases OS <;> simp only [Header.Clone, copySlice_replicate]

/-- Claim C26: `Header.Clone` returns a header equal to the receiver in every field,
and `Packet.Clone` returns a packet whose header equals the header of the receiver
and whose payload has the same bytes; a nil address, authentication list or payload
stays nil. -/
theorem Clone_preserves_value :
    (∀ h : Header, h.Clone = h) ∧
    (∀ p : Packet, p.Clone.Header = p.Header ∧ p.Clone.Payload = p.Payload) := by
  refine ⟨Header_Clone_eq, fun p => ?_⟩
  obtain ⟨H, payload⟩ := p
  cases payload with
  | none => exact ⟨Header_Clone_eq H, rfl⟩
  | some bytes =>
      refine ⟨Header_Clone_eq H, ?_⟩
      show some (copySlice (List.replicate bytes.length 0) bytes) = some bytes
      rw [copySlice_replicate]

/-! ## The address type constants and the packet factory -/

/-- Claim C22: the constants `IPv4` and `IPv6` are equal, both 0.  A header with the
address type `IPv6` and a 16-byte address has the `MarshalSize` 8 of a header with a
4-byte address, and a buffer whose address type bit is 1, which the decoder reads
with a 16-byte address, decodes to an address type that is not `IPv6`. -/
theorem AddressType_constants_equal :
    IPv4 = IPv6 ∧
    ({ Header.zero with AddressType := IPv6, OriginatingSource := documentationAddress6.IP } :
      Header).MarshalSize = 8 ∧
    (∃ h1, Header.Unmarshal parseMediaTypeModel Header.zero
        ([48, 0, 48, 57] ++ elems documentationAddress6.IP) = .ok h1 ∧
      h1.OriginatingSource = documentationAddress6.IP ∧ h1.AddressType = 1 ∧
      h1.AddressType ≠ IPv6) := by
  refine ⟨rfl, by decide, ?_⟩
  refine ⟨{ Header.zero with
    Version := 1, AddressType := 1, MessageIDHash := 12345,
    OriginatingSource := documentationAddress6.IP }, by decide, rfl, rfl, by decide⟩

set_option maxRecDepth 4000 in
/-- Claim C28: `NewPacket` without options on the address 2001:db8::68 returns a
packet with the hash of the payload and the address type 0, whose header has the
`MarshalSize` 8 and not 20.  `Packet.Marshal` on it panics for a payload of 4 bytes,
and for a payload of 29 bytes it returns 25 bytes, the 20 header bytes and the first 5
bytes of the payload, while `MarshalSize` is 37.  On the address 192.0.2.1 the packet
has the header size 8 and is encoded in `MarshalSize` bytes. -/
theorem NewPacket_address6_not_encodable :
    NewPacket crc32IEEE (some [118, 61, 48, 10]) documentationAddress6 [] =
      .ok { Header :=
              { Header.zero with
                Version := 1, AddressType := 0, AuthenticationData := some [],
                MessageIDHash := ComputeMsgIdHash crc32IEEE (some [118, 61, 48, 10]),
                OriginatingSource := documentationAddress6.IP },
            Payload := some [118, 61, 48, 10] } ∧
    To4 documentationAddress6.IP = none ∧ len documentationAddress6.IP = 16 ∧
    ((NewPacket crc32IEEE (some [118, 61, 48, 10]) documentationAddress6 []).map
      fun p => p.Header.MarshalSize) = .ok 8 ∧
    ((NewPacket crc32IEEE (some [118, 61, 48, 10]) documentationAddress6 []).bind
      fun p => p.Marshal crc32IEEE) = .error .runtimePanic ∧
    ((NewPacket crc32IEEE sessionPayload documentationAddress6 []).map
      fun p => p.MarshalSize) = .ok 37 ∧
    ((NewPacket crc32IEEE sessionPayload documentationAddress6 []).bind
      fun p => p.Marshal crc32IEEE) =
      .ok [32, 0, 129, 205, 32, 1, 13, 184, 0, 0, 0, 0, 0, 0, 0, 0, 0, 0, 0, 104,
        118, 61, 48, 10, 111] ∧
    ((NewPacket crc32IEEE (some [118, 61, 48, 10]) documentationAddress4 []).map
      fun p => (p.Header.MarshalSize, p.MarshalSize)) = .ok (8, 12) ∧
    ((NewPacket crc32IEEE (some [118, 61, 48, 10]) documentationAddress4 []).bind
      fun p => p.Marshal crc32IEEE) =
      .ok [32, 0, 137, 114, 192, 0, 2, 1, 118, 61, 48, 10] := by
  decide

/-! ## The version field and the omitted payload type -/

/-- Claim C23 as stated fails: the header `versionTwoHeader` of version 2 is encoded
with 2 in the top three bits of the first byte, and the decoder, which reads one bit
of the version, returns the version 0. -/
theorem Version_roundtrip_counterexample :
    versionTwoHeader.Version = 2 ∧
    versionTwoHeader.Marshal = .ok [64, 0, 48, 57, 192, 0, 2, 1] ∧
    64 / 32 = 2 ∧
    Header.Unmarshal parseMediaTypeModel Header.zero [64, 0, 48, 57, 192, 0, 2, 1] =
      .ok { versionTwoHeader with Version := 0 } ∧
    ({ versionTwoHeader with Version := 0 } : Header).Version ≠ versionTwoHeader.Version := by
  decide

/-- Claim C23, amended: for a header with a version from 0 to 7 that is otherwise
valid, `Header.Marshal` succeeds, the top three bits of the first byte hold the
version, and `Header.Unmarshal` of the bytes succeeds with the version reduced to its
lowest bit, which is the version itself when it is 0 or 1. -/
theorem Version_roundtrip (parse : List Nat → Except String (List Nat)) (h0 H : Header)
    (a : List Nat) (he : Encodable H a) (hpt : CanonicalPayloadType parse H.PayloadType) :
    ∃ bytes h1, H.Marshal = .ok bytes ∧ bytes.getD 0 0 / 32 = H.Version ∧
      Header.Unmarshal parse h0 bytes = .ok h1 ∧ h1.Version = H.Version % 2 ∧
      (H.Version ≤ 1 → h1.Version = H.Version) := by
  have hu := Unmarshal_wire parse h0 H a [] he (by
    rcases hpt with hp | hp
    · exact Or.inl ⟨hp, Or.inl (by simp)⟩
    · exact Or.inr hp)
  rw [List.append_nil] at hu
  refine ⟨wire H a, _, he.Marshal, ?_, hu, rfl, fun hV => ?_⟩
  · rw [wire_eq_cons]
    show flagsByte H / 32 = H.Version
    rw [flagsByte_eq H he.version he.addressType he.reserved he.messageType he.encrypted
      he.compressed]
    have h1 := he.addressType
    have h2 := he.reserved
    have h3 := he.messageType
    have h4 := he.encrypted
    have h5 := he.compressed
    omega
  · show H.Version % 2 = H.Version
    omega

/-- Witness for C23: the version 3 is written into the top three bits and decoded
as 1; the version 1 of the mock header is decoded as 1. -/
theorem Version_roundtrip_witness :
    (∃ bytes h1, versionThreeHeader.Marshal = .ok bytes ∧ bytes.getD 0 0 / 32 = 3 ∧
      Header.Unmarshal parseMediaTypeModel Header.zero bytes = .ok h1 ∧ h1.Version = 1) ∧
    (∃ bytes h1, plainHeader.Marshal = .ok bytes ∧ bytes.getD 0 0 / 32 = 1 ∧
      Header.Unmarshal parseMediaTypeModel Header.zero bytes = .ok h1 ∧ h1.Version = 1) := by
  constructor
  · obtain ⟨bytes, h1, hm, hb, hu, hv, _⟩ :=
      Version_roundtrip parseMediaTypeModel Header.zero versionThreeHeader [192, 0, 2, 1]
        (by constructor <;> decide) (Or.inr (by decide))
    exact ⟨bytes, h1, hm, hb, hu, hv⟩
  · obtain ⟨bytes, h1, hm, hb, hu, hv, _⟩ :=
      Version_roundtrip parseMediaTypeModel Header.zero plainHeader [192, 0, 2, 1]
        (by constructor <;> decide) (Or.inl rfl)
    exact ⟨bytes, h1, hm, hb, hu, hv⟩

/-- Claim C24 as stated fails: the mock packet with the payload "abc" has an empty
payload type and is encoded with the first payload byte right after the address, and
neither decoder accepts the bytes: the payload has 3 bytes, does not begin with "v=0"
and holds no zero byte. -/
theorem PayloadType_omission_counterexample :
    nonSdpPacket.Header.PayloadType = [] ∧
    nonSdpPacket.Payload = some [97, 98, 99] ∧
    nonSdpPacket.Marshal crc32IEEE = .ok [32, 0, 48, 57, 192, 0, 2, 1, 97, 98, 99] ∧
    4 + addressWidth nonSdpPacket.Header.AddressType +
      4 * nonSdpPacket.Header.AuthenticationLength = 8 ∧
    Header.Unmarshal parseMediaTypeModel Header.zero
      [32, 0, 48, 57, 192, 0, 2, 1, 97, 98, 99] = .error .errNoTrailingByteFound ∧
    Packet.Unmarshal parseMediaTypeModel Packet.zero
      [32, 0, 48, 57, 192, 0, 2, 1, 97, 98, 99] = .error .errNoTrailingByteFound := by
  decide

/-- Claim C24, amended: for a valid packet with an empty payload type and a payload
that is not empty and has fewer than 3 bytes or begins with "v=0", `Packet.Marshal`
succeeds, the bytes from the offset 4 + address width + 4 * AuthenticationLength on
are the payload, so the byte at that offset is the first payload byte, and both
decoders accept the bytes with an empty payload type. -/
theorem PayloadType_omission (parse : List Nat → Except String (List Nat))
    (crc : List Nat → Nat) (P : Packet) (a : List Nat) (he : Encodable P.Header a)
    (hpt : P.Header.PayloadType = []) (hne : elems P.Payload ≠ [])
    (hsdp : len P.Payload < 3 ∨ (elems P.Payload).take 3 = asciiBytes "v=0") :
    ∃ bytes b h1 P1, P.Marshal crc = .ok bytes ∧
      (elems P.Payload)[0]? = some b ∧
      bytes[4 + addressWidth P.Header.AddressType + 4 * P.Header.AuthenticationLength]? =
        some b ∧
      bytes.drop (4 + addressWidth P.Header.AddressType + 4 * P.Header.AuthenticationLength) =
        elems P.Payload ∧
      Header.Unmarshal parse Header.zero bytes = .ok h1 ∧ h1.PayloadType = [] ∧
      Packet.Unmarshal parse Packet.zero bytes = .ok P1 ∧ P1.Header.PayloadType = [] ∧
      P1.Payload = P.Payload := by
  have he2 := headerToEncode_Encodable crc P a he
  have hPT : (headerToEncode crc P).PayloadType = [] := by
    rw [headerToEncode_eq]; exact hpt
  have hAT : (headerToEncode crc P).AddressType = P.Header.AddressType := by
    rw [headerToEncode_eq]
  have hAL : len (headerToEncode crc P).AuthenticationData = P.Header.AuthenticationLength := by
    rw [headerToEncode_eq]; exact he.authLength
  have hcore := Packet_roundtrip_core parse crc P a he (Or.inl hpt) (fun _ => hsdp)
  have hlen : (wire (headerToEncode crc P) a).length =
      4 + addressWidth P.Header.AddressType + 4 * P.Header.AuthenticationLength := by
    rw [wire_length, hAL, hPT, he.addressLength]
    rfl
  have hu := Unmarshal_wire parse Header.zero (headerToEncode crc P) a (elems P.Payload) he2
    (Or.inl ⟨hPT, hsdp⟩)
  obtain ⟨b, rest, hb⟩ := List.exists_cons_of_ne_nil hne
  have hP : P.Payload = some (elems P.Payload) := by
    cases hq : P.Payload with
    | none => rw [hq] at hne; exact absurd rfl hne
    | some l => rfl
  refine ⟨_, b, _, _, hcore.1, by rw [hb]; simp, ?_, ?_, hu, hPT, hcore.2, hpt, ?_⟩
  · rw [← hlen, hb, List.getElem?_append_right (Nat.le_refl _), Nat.sub_self]
    simp
  · rw [← hlen, List.drop_left]
  · show (if elems P.Payload = [] then none else some (elems P.Payload)) = P.Payload
    rw [if_neg hne]
    exact hP.symm

/-- Witness for C24: the mock packet with the payload "v=0" and a line feed. -/
theorem PayloadType_omission_witness :
    ∃ bytes b h1 P1, sdpMockPacket.Marshal crc32IEEE = .ok bytes ∧
      (elems sdpMockPacket.Payload)[0]? = some b ∧ bytes[8]? = some b ∧
      bytes.drop 8 = [118, 61, 48, 10] ∧
      Header.Unmarshal parseMediaTypeModel Header.zero bytes = .ok h1 ∧ h1.PayloadType = [] ∧
      Packet.Unmarshal parseMediaTypeModel Packet.zero bytes = .ok P1 ∧
      P1.Header.PayloadType = [] ∧ P1.Payload = some [118, 61, 48, 10] :=
  PayloadType_omission parseMediaTypeModel crc32IEEE sdpMockPacket [192, 0, 2, 1]
    (by constructor <;> decide) (by decide) (by decide) (by decide)

/-! ## The fields of a decoded header -/

theorem payloadTypeOutcome_ok (parse : List Nat → Except String (List Nat)) (h : Header)
    (tail : List Nat) (h1 : Header) (hok : payloadTypeOutcome parse h tail = .ok h1) :
    h1 = { h with PayloadType := h1.PayloadType } := by
  unfold payloadTypeOutcome at hok
  split at hok
  · injection hok with hok
    rw [← hok]
  · split at hok
    · cases hok
    · split at hok
      · cases hok
      · injection hok with hok
        rw [← hok]

theorem take4_eq_getD (l : List Nat) (h : 4 ≤ l.length) :
    l.take 4 = [l.getD 0 0, l.getD 1 0, l.getD 2 0, l.getD 3 0] := by
  match l, h with
  | _ :: _ :: _ :: _ :: _, _ => rfl

theorem To4_mapped (x : List Nat) (hx : x.length = 4) :
    To4 (some (v4InV6Lead ++ x)) = some x := by
  match x, hx with
  | [_, _, _, _], _ => rfl

theorem shiftRight_and_one (x k : Nat) : (x >>> k) &&& oneBitMask = x / 2 ^ k % 2 := by
  rw [show oneBitMask = 1 from rfl, Nat.and_one_is_mod, Nat.shiftRight_eq_div_pow]

theorem beWords_getElem (k : Nat) : ∀ (l : List Nat) (i : Nat), i < k →
    (beWords k l)[i]? =
      some (l.getD (4 * i) 0 * 16777216 + l.getD (4 * i + 1) 0 * 65536 +
        l.getD (4 * i + 2) 0 * 256 + l.getD (4 * i + 3) 0) := by
  induction k with
  | zero => intro l i hi; omega
  | succ k ih =>
      intro l i hi
      cases i with
      | zero => simp [beWords]
      | succ i =>
          have h := ih (l.drop 4) i (by omega)
          simp only [List.getD_eq_getElem?_getD, List.getElem?_drop] at h
          simp only [beWords, List.getElem?_cons_succ, List.getD_eq_getElem?_getD]
          rw [h]
          have e0 : 4 + 4 * i = 4 * (i + 1) := by omega
          have e1 : 4 + (4 * i + 1) = 4 * (i + 1) + 1 := by omega
          have e2 : 4 + (4 * i + 2) = 4 * (i + 1) + 2 := by omega
          have e3 : 4 + (4 * i + 3) = 4 * (i + 1) + 3 := by omega
          rw [e0, e1, e2, e3]

theorem Unmarshal_ok_fields (parse : List Nat → Except String (List Nat)) (h : Header)
    (buf : List Nat) (h1 : Header) (hok : Header.Unmarshal parse h buf = .ok h1) :
    4 + addressWidth (buf.getD 0 0 / 16 % 2) + 4 * buf.getD 1 0 ≤ buf.length ∧
    h1.Version = buf.getD 0 0 / 32 % 2 ∧
    h1.AddressType = buf.getD 0 0 / 16 % 2 ∧
    h1.Reserved = buf.getD 0 0 / 8 % 2 ∧
    h1.MessageType = buf.getD 0 0 / 4 % 2 ∧
    h1.Encrypted = buf.getD 0 0 / 2 % 2 ∧
    h1.Compressed = buf.getD 0 0 % 2 ∧
    h1.AuthenticationLength = buf.getD 1 0 ∧
    h1.MessageIDHash = buf.getD 2 0 * 256 + buf.getD 3 0 ∧
    h1.OriginatingSource =
      (if buf.getD 0 0 / 16 % 2 = 0 then some (v4InV6Lead ++ (buf.drop 4).take 4)
        else some ((buf.drop 4).take 16)) ∧
    h1.AuthenticationData =
      (if buf.getD 1 0 ≠ 0 then
        some (beWords (buf.getD 1 0) (buf.drop (4 + addressWidth (buf.getD 0 0 / 16 % 2))))
      else h.AuthenticationData) := by
  by_cases hfit : 4 + addressWidth (buf.getD 0 0 / 16 % 2) + 4 * buf.getD 1 0 ≤ buf.length
  · rw [Unmarshal_of_fit parse h buf hfit] at hok
    have hs := payloadTypeOutcome_ok parse _ _ h1 hok
    have hA := fixedFields_AddressType h (buf.getD 0 0) (buf.getD 1 0) (buf.getD 2 0)
      (buf.getD 3 0)
    have hw : 4 ≤ (buf.drop 4).length := by
      rw [List.length_drop]
      unfold addressWidth at hfit
      split at hfit <;> omega
    refine ⟨hfit, ?_, ?_, ?_, ?_, ?_, ?_, ?_, ?_, ?_, ?_⟩
    · rw [hs]; exact shiftRight_and_one _ 5
    · rw [hs]; exact shiftRight_and_one _ 4
    · rw [hs]; exact shiftRight_and_one _ 3
    · rw [hs]; exact shiftRight_and_one _ 2
    · rw [hs]; exact shiftRight_and_one _ 1
    · rw [hs]
      show (buf.getD 0 0 >>> 0) &&& oneBitMask = _
      rw [shiftRight_and_one]
      simp
    · rw [hs]; rfl
    · rw [hs]; rfl
    · rw [hs]
      show (if (fixedFields h (buf.getD 0 0) (buf.getD 1 0) (buf.getD 2 0)
          (buf.getD 3 0)).AddressType = 0 then _ else _) = _
      rw [hA, take4_eq_getD _ hw]
      rfl
    · rw [hs]
      show (if (fixedFields h (buf.getD 0 0) (buf.getD 1 0) (buf.getD 2 0)
          (buf.getD 3 0)).AuthenticationLength ≠ 0 then
          some (beWords (fixedFields h (buf.getD 0 0) (buf.getD 1 0) (buf.getD 2 0)
            (buf.getD 3 0)).AuthenticationLength
            ((buf.drop 4).drop (addressWidth (fixedFields h (buf.getD 0 0) (buf.getD 1 0)
              (buf.getD 2 0) (buf.getD 3 0)).AddressType)))
          else _) = _
      rw [hA, List.drop_drop]
      rfl
  · rcases Unmarshal_of_not_fit parse h buf hfit with hc | hc | hc | hc | hc | hc <;>
      (rw [hc] at hok; cases hok)

/-- Claim C25: when `Header.Unmarshal` succeeds, the buffer holds the fixed bytes, the
address and the authentication words; AddressType, Reserved, MessageType, Encrypted
and Compressed are bits 4, 3, 2, 1 and 0 of the first byte, AuthenticationLength is
the second byte, MessageIDHash is 256 times the third byte plus the fourth, and when
the second byte is positive AuthenticationData has that many words, word `i` being
the big-endian value of the 4 bytes at offset 4 + w + 4 * i, with w the address width
selected by bit 4 of the first byte. -/
theorem Unmarshal_decoded_fields (parse : List Nat → Except String (List Nat)) (h : Header)
    (buf : List Nat) (h1 : Header) (hok : Header.Unmarshal parse h buf = .ok h1) :
    4 + addressWidth (buf.getD 0 0 / 16 % 2) + 4 * buf.getD 1 0 ≤ buf.length ∧
    h1.AddressType = buf.getD 0 0 / 16 % 2 ∧
    h1.Reserved = buf.getD 0 0 / 8 % 2 ∧
    h1.MessageType = buf.getD 0 0 / 4 % 2 ∧
    h1.Encrypted = buf.getD 0 0 / 2 % 2 ∧
    h1.Compressed = buf.getD 0 0 % 2 ∧
    h1.AuthenticationLength = buf.getD 1 0 ∧
    h1.MessageIDHash = 256 * buf.getD 2 0 + buf.getD 3 0 ∧
    (0 < buf.getD 1 0 →
      len h1.AuthenticationData = buf.getD 1 0 ∧
      ∀ i, i < buf.getD 1 0 →
        (elems h1.AuthenticationData)[i]? =
          some (buf.getD (4 + addressWidth (buf.getD 0 0 / 16 % 2) + 4 * i) 0 * 16777216 +
            buf.getD (4 + addressWidth (buf.getD 0 0 / 16 % 2) + 4 * i + 1) 0 * 65536 +
            buf.getD (4 + addressWidth (buf.getD 0 0 / 16 % 2) + 4 * i + 2) 0 * 256 +
            buf.getD (4 + addressWidth (buf.getD 0 0 / 16 % 2) + 4 * i + 3) 0)) := by
  obtain ⟨hfit, _, hA, hR, hT, hE, hC, hL, hH, _, hD⟩ := Unmarshal_ok_fields parse h buf h1 hok
  refine ⟨hfit, hA, hR, hT, hE, hC, hL, by rw [hH]; omega, fun hpos => ?_⟩
  rw [if_pos (by omega)] at hD
  rw [hD]
  refine ⟨beWords_length _ _, fun i hi => ?_⟩
  show (beWords _ _)[i]? = _
  rw [beWords_getElem _ _ i hi]
  simp only [List.getD_eq_getElem?_getD, List.getElem?_drop, Nat.add_assoc]

/-- Witness for C25: the buffer with two authentication words, decoded into a
zero-valued header. -/
theorem Unmarshal_decoded_fields_witness :
    ∃ h1, Header.Unmarshal parseMediaTypeModel Header.zero twoWordsBuffer = .ok h1 ∧
      h1.AddressType = 0 ∧ h1.Reserved = 0 ∧ h1.MessageType = 0 ∧ h1.Encrypted = 0 ∧
      h1.Compressed = 0 ∧ h1.AuthenticationLength = 2 ∧ h1.MessageIDHash = 12345 ∧
      len h1.AuthenticationData = 2 ∧
      (elems h1.AuthenticationData)[0]? = some 1 ∧
      (elems h1.AuthenticationData)[1]? = some 2 := by
  have hok : Header.Unmarshal parseMediaTypeModel Header.zero twoWordsBuffer =
      .ok { plainHeader with AuthenticationLength := 2, AuthenticationData := some [1, 2] } := by
    decide
  obtain ⟨_, hA, hR, hT, hE, hC, hL, hH, hD⟩ :=
    Unmarshal_decoded_fields parseMediaTypeModel Header.zero twoWordsBuffer _ hok
  exact ⟨_, hok, hA, hR, hT, hE, hC, hL, hH, (hD (by decide)).1,
    (hD (by decide)).2 0 (by decide), (hD (by decide)).2 1 (by decide)⟩

/-- Claim C21 as stated fails: the buffer `plainHeaderBuffer` decodes with the address
type 0 and an address of 16 bytes, the IPv4-mapped form of the 4 bytes of the
buffer. -/
theorem Unmarshal_address_width_counterexample :
    Header.Unmarshal parseMediaTypeModel Header.zero plainHeaderBuffer = .ok plainHeader ∧
    plainHeader.AddressType = 0 ∧
    len plainHeader.OriginatingSource = 16 ∧
    plainHeader.OriginatingSource ≠ some ((plainHeaderBuffer.drop 4).take 4) := by
  decide

theorem Unmarshal_address_shape (parse : List Nat → Except String (List Nat)) (h : Header)
    (buf : List Nat) (h1 : Header) (hok : Header.Unmarshal parse h buf = .ok h1) :
    (h1.AddressType = 0 ∨ h1.AddressType = 1) ∧
    len h1.OriginatingSource = 16 ∧
    (h1.AddressType = 0 →
      ((buf.drop 4).take 4).length = 4 ∧
      h1.OriginatingSource = some (v4InV6Lead ++ (buf.drop 4).take 4) ∧
      To4 h1.OriginatingSource = some ((buf.drop 4).take 4)) ∧
    (h1.AddressType = 1 →
      ((buf.drop 4).take 16).length = 16 ∧
      h1.OriginatingSource = some ((buf.drop 4).take 16)) := by
  obtain ⟨hfit, _, hA, _, _, _, _, _, _, hS, _⟩ := Unmarshal_ok_fields parse h buf h1 hok
  rw [← hA] at hS hfit
  have h01 : h1.AddressType = 0 ∨ h1.AddressType = 1 := by omega
  rcases h01 with h0 | h0
  · rw [h0, if_pos rfl] at hS
    rw [h0] at hfit
    have hl : ((buf.drop 4).take 4).length = 4 := by
      rw [List.length_take, List.length_drop]
      have : addressWidth 0 = 4 := rfl
      omega
    refine ⟨Or.inl h0, ?_, fun _ => ⟨hl, hS, ?_⟩, fun hc => ?_⟩
    · rw [hS]
      show (v4InV6Lead ++ _).length = 16
      rw [List.length_append, hl]
      rfl
    · rw [hS]
      exact To4_mapped _ hl
    · omega
  · rw [h0, if_neg (by decide)] at hS
    rw [h0] at hfit
    have hl : ((buf.drop 4).take 16).length = 16 := by
      rw [List.length_take, List.length_drop]
      have : addressWidth 1 = 16 := rfl
      omega
    refine ⟨Or.inr h0, ?_, fun hc => ?_, fun _ => ⟨hl, hS⟩⟩
    · rw [hS]
      exact hl
    · omega

/-- Claim C21, amended: when `Header.Unmarshal` succeeds the decoded address has 16
bytes.  With the decoded address type 0 it is the IPv4-mapped form of the 4 bytes
buf[4..8), twelve lead bytes followed by these 4 bytes, and its `To4` is buf[4..8);
with the decoded address type 1 it is buf[4..20). -/
theorem Unmarshal_address_width (parse : List Nat → Except String (List Nat)) (h : Header)
    (buf : List Nat) (h1 : Header) (hok : Header.Unmarshal parse h buf = .ok h1) :
    (h1.AddressType = 0 ∨ h1.AddressType = 1) ∧
    len h1.OriginatingSource = 16 ∧
    (h1.AddressType = 0 →
      ((buf.drop 4).take 4).length = 4 ∧
      h1.OriginatingSource = some (v4InV6Lead ++ (buf.drop 4).take 4) ∧
      To4 h1.OriginatingSource = some ((buf.drop 4).take 4)) ∧
    (h1.AddressType = 1 →
      ((buf.drop 4).take 16).length = 16 ∧
      h1.OriginatingSource = some ((buf.drop 4).take 16)) :=
  Unmarshal_address_shape parse h buf h1 hok

/-- Witness for C21: an IPv4 buffer and a buffer with the address type bit set. -/
theorem Unmarshal_address_width_witness :
    To4 plainHeader.OriginatingSource = some [192, 0, 2, 1] ∧
    mappedAddressHeader.OriginatingSource = some (v4InV6Lead ++ [192, 0, 2, 1]) :=
  have h4 : Header.Unmarshal parseMediaTypeModel Header.zero plainHeaderBuffer =
      .ok plainHeader := by decide
  have h6 : Header.Unmarshal parseMediaTypeModel Header.zero
      ([48, 0, 48, 57] ++ v4InV6Lead ++ [192, 0, 2, 1]) = .ok mappedAddressHeader := by decide
  ⟨((Unmarshal_address_width parseMediaTypeModel Header.zero plainHeaderBuffer
      plainHeader h4).2.2.1 (by decide)).2.2,
   ((Unmarshal_address_width parseMediaTypeModel Header.zero
      ([48, 0, 48, 57] ++ v4InV6Lead ++ [192, 0, 2, 1]) mappedAddressHeader h6).2.2.2
      (by decide)).2⟩

/-! ## Encoding a decoded header again -/

theorem getD_lt_of_bytes (buf : List Nat) (hb : ∀ b ∈ buf, b < 256) (i : Nat) :
    buf.getD i 0 < 256 := by
  rw [List.getD_eq_getElem?_getD]
  cases hi : buf[i]? with
  | none => exact Nat.zero_lt_succ _
  | some b => exact hb b (List.getElem?_mem hi)

theorem beWords_lt (k : Nat) : ∀ (l : List Nat), (∀ b ∈ l, b < 256) →
    ∀ w ∈ beWords k l, w < 4294967296 := by
  induction k with
  | zero => intro l _ w hw; cases hw
  | succ k ih =>
      intro l hl w hw
      rcases List.mem_cons.mp hw with hw | hw
      · have h0 := getD_lt_of_bytes l hl 0
        have h1 := getD_lt_of_bytes l hl 1
        have h2 := getD_lt_of_bytes l hl 2
        have h3 := getD_lt_of_bytes l hl 3
        omega
      · exact ih (l.drop 4) (fun b hb => hl b (List.mem_of_mem_drop hb)) w hw

theorem Unmarshal_ok_Encodable (parse : List Nat → Except String (List Nat))
    (buf : List Nat) (H : Header) (hbytes : ∀ b ∈ buf, b < 256)
    (hok : Header.Unmarshal parse Header.zero buf = .ok H)
    (hmap : H.AddressType = 1 → To4 H.OriginatingSource = none) :
    Encodable H (if H.AddressType = 0 then (buf.drop 4).take 4 else (buf.drop 4).take 16) ∧
    H.Version ≤ 1 ∧ len H.OriginatingSource = 16 ∧
    H.AuthenticationData =
      (if H.AuthenticationLength ≠ 0 then some (elems H.AuthenticationData) else none) := by
  obtain ⟨hfit, hV, hA, hR, hT, hE, hC, hL, hH, _, hD⟩ :=
    Unmarshal_ok_fields parse Header.zero buf H hok
  obtain ⟨h01, h16, hw4, hw16⟩ := Unmarshal_address_shape parse Header.zero buf H hok
  have hb2 := getD_lt_of_bytes buf hbytes 2
  have hb3 := getD_lt_of_bytes buf hbytes 3
  rw [← hL] at hD
  refine ⟨⟨by omega, by omega, by omega, by omega, by omega, by omega, by omega, ?_, ?_, ?_⟩,
    by omega, h16, ?_⟩
  · intro w hw
    by_cases h0 : H.AuthenticationLength ≠ 0
    · rw [hD, if_pos h0] at hw
      exact beWords_lt _ _ (fun b hb => hbytes b (List.mem_of_mem_drop hb)) w hw
    · rw [hD, if_neg h0] at hw
      cases hw
  · by_cases h0 : H.AuthenticationLength ≠ 0
    · rw [hD, if_pos h0]
      exact beWords_length _ _
    · rw [hD, if_neg h0]
      show 0 = _
      omega
  · rcases h01 with h0 | h0
    · left
      rw [if_pos h0]
      exact ⟨h0, (hw4 h0).2.2⟩
    · right
      rw [if_neg (by omega)]
      exact ⟨h0, hmap h0, (hw16 h0).2, (hw16 h0).1⟩
  · by_cases h0 : H.AuthenticationLength ≠ 0
    · rw [if_pos h0, hD, if_pos h0]
      rfl
    · rw [if_neg h0, hD, if_neg h0]
      rfl

theorem To16_of_len16 (ip : Option (List Nat)) (h : len ip = 16) : To16 ip = ip := by
  unfold To16
  rw [if_neg (by omega), if_pos h]

theorem decodedFrom_self (H : Header) (hV : H.Version ≤ 1)
    (hS : len H.OriginatingSource = 16)
    (hD : H.AuthenticationData =
      (if H.AuthenticationLength ≠ 0 then some (elems H.AuthenticationData) else none)) :
    ({ decodedFrom Header.zero H with PayloadType := H.PayloadType } : Header) = H := by
  obtain ⟨V, A, R, T, E, C, AL, AD, hash, OS, PT⟩ := H
  have h1 : V % 2 = V := by
    have : V ≤ 1 := hV
    omega
  have h2 : To16 OS = OS := To16_of_len16 OS hS
  have h3 : (if AL ≠ 0 then some (elems AD) else (none : Option (List Nat))) = AD := hD.symm
  show Header.mk (V % 2) A R T E C AL
    (if AL ≠ 0 then some (elems AD) else Header.zero.AuthenticationData) hash (To16 OS) PT = _
  rw [h1, h2]
  show Header.mk V A R T E C AL (if AL ≠ 0 then some (elems AD) else none) hash OS PT = _
  rw [h3]

/-- Claim C27 as stated fails: the buffer `oneByteTypeBuffer` decodes with the one
byte payload type "a"; the decoded header is encoded in `MarshalSize` = 10 bytes,
which end with "a" and a zero byte, and the decoder reads these 2 bytes, fewer than 3,
as an omitted payload type, so that it returns a header with an empty payload type.
A buffer of address type 1 with an IPv4-mapped address decodes to a header that is
encoded in 8 bytes while its `MarshalSize` is 20, and these bytes do not decode. -/
theorem Decoded_reencode_stable_counterexample :
    Header.Unmarshal parseMediaTypeModel Header.zero oneByteTypeBuffer =
      .ok { plainHeader with PayloadType := [97] } ∧
    ({ plainHeader with PayloadType := [97] } : Header).Marshal =
      .ok [32, 0, 48, 57, 192, 0, 2, 1, 97, 0] ∧
    ({ plainHeader with PayloadType := [97] } : Header).MarshalSize = 10 ∧
    Header.Unmarshal parseMediaTypeModel Header.zero [32, 0, 48, 57, 192, 0, 2, 1, 97, 0] =
      .ok plainHeader ∧
    plainHeader ≠ { plainHeader with PayloadType := [97] } ∧
    Header.Unmarshal parseMediaTypeModel Header.zero
      ([48, 0, 48, 57] ++ v4InV6Lead ++ [192, 0, 2, 1]) = .ok mappedAddressHeader ∧
    mappedAddressHeader.Marshal = .ok [48, 0, 48, 57, 192, 0, 2, 1] ∧
    mappedAddressHeader.MarshalSize = 20 ∧
    Header.Unmarshal parseMediaTypeModel Header.zero [48, 0, 48, 57, 192, 0, 2, 1] =
      .error .errBufTooSmallForIPv6 := by
  decide

/-- Claim C27, amended: let a buffer of bytes decode into a zero-valued header with
the result `H`, where the address of `H` is not an IPv4-mapped address when the
address type is 1 and the payload type of `H` is empty or canonical for the media
type parser (at least two bytes, returned unchanged by the parser).  Then
`Header.Marshal` of `H` succeeds with exactly `MarshalSize` bytes, and
`Header.Unmarshal` of these bytes into a zero-valued header succeeds with `H`. -/
theorem Decoded_reencode_stable (parse : List Nat → Except String (List Nat))
    (buf : List Nat) (H : Header) (hbytes : ∀ b ∈ buf, b < 256)
    (hok : Header.Unmarshal parse Header.zero buf = .ok H)
    (hmap : H.AddressType = 1 → To4 H.OriginatingSource = none)
    (hpt : CanonicalPayloadType parse H.PayloadType) :
    ∃ bytes, H.Marshal = .ok bytes ∧ bytes.length = H.MarshalSize ∧
      Header.Unmarshal parse Header.zero bytes = .ok H := by
  obtain ⟨he, hV, hS, hD⟩ := Unmarshal_ok_Encodable parse buf H hbytes hok hmap
  have hu := Unmarshal_wire parse Header.zero H _ [] he (by
    rcases hpt with hp | hp
    · exact Or.inl ⟨hp, Or.inl (by simp)⟩
    · exact Or.inr hp)
  rw [List.append_nil, decodedFrom_self H hV hS hD] at hu
  exact ⟨_, he.Marshal, he.wire_size, hu⟩

/-- Witness for C27: a buffer with the payload type "Text/Plain" decodes with the
payload type "text/plain", and the decoded header is encoded in 19 bytes that decode
to the same header. -/
theorem Decoded_reencode_stable_witness :
    ∃ bytes, ({ plainHeader with PayloadType := asciiBytes "text/plain" } : Header).Marshal =
        .ok bytes ∧
      bytes.length = 19 ∧
      Header.Unmarshal parseMediaTypeModel Header.zero bytes =
        .ok { plainHeader with PayloadType := asciiBytes "text/plain" } :=
  Decoded_reencode_stable parseMediaTypeModel
    [32, 0, 48, 57, 192, 0, 2, 1, 84, 101, 120, 116, 47, 80, 108, 97, 105, 110, 0, 7]
    { plainHeader with PayloadType := asciiBytes "text/plain" }
    (by decide) (by decide) (by decide) (Or.inr (by decide))

/-! ## The round trip of a session description packet -/

theorem decodedFrom_zero_eq (H : Header) (hV : H.Version ≤ 1)
    (hS : len H.OriginatingSource = 16)
    (hL : len H.AuthenticationData = H.AuthenticationLength) :
    ({ decodedFrom Header.zero H with PayloadType := H.PayloadType } : Header) =
      { H with
        AuthenticationData :=
          if H.AuthenticationLength ≠ 0 then H.AuthenticationData else none } := by
  obtain ⟨V, A, R, T, E, C, AL, AD, hash, OS, PT⟩ := H
  have h1 : V % 2 = V := by
    have : V ≤ 1 := hV
    omega
  have h2 : To16 OS = OS := To16_of_len16 OS hS
  have h3 : (if AL ≠ 0 then some (elems AD) else (none : Option (List Nat))) =
      (if AL ≠ 0 then AD else none) := by
    by_cases h0 : AL ≠ 0
    · rw [if_pos h0, if_pos h0]
      cases AD with
      | none => exact absurd hL.symm h0
      | some l => rfl
    · rw [if_neg h0, if_neg h0]
  show Header.mk (V % 2) A R T E C AL
    (if AL ≠ 0 then some (elems AD) else Header.zero.AuthenticationData) hash (To16 OS) PT = _
  rw [h1, h2]
  show Header.mk V A R T E C AL (if AL ≠ 0 then some (elems AD) else none) hash OS PT = _
  rw [h3]

/-- Claim C3 as stated fails: the mock packet `sdpMockPacket` meets the hypotheses of
the claim and holds an authentication list that is empty and not nil; the bytes of
`Packet.Marshal` decode into a zero-valued packet with a nil authentication list, so
the decoded packet is not equal to the mock packet. -/
theorem SDP_packet_roundtrip_counterexample :
    sdpMockPacket.Header.Version = 1 ∧
    sdpMockPacket.Header.AuthenticationLength = 0 ∧
    sdpMockPacket.Header.AuthenticationData = some [] ∧
    sdpMockPacket.Header.MessageIDHash = 12345 ∧
    sdpMockPacket.Header.AddressType = 0 ∧
    sdpMockPacket.Header.OriginatingSource = netIPv4 192 0 2 1 ∧
    sdpMockPacket.Header.PayloadType = [] ∧
    sdpMockPacket.Payload = some (asciiBytes "v=0" ++ [10]) ∧
    sdpMockPacket.Marshal crc32IEEE = .ok [32, 0, 48, 57, 192, 0, 2, 1, 118, 61, 48, 10] ∧
    Packet.Unmarshal parseMediaTypeModel Packet.zero
      [32, 0, 48, 57, 192, 0, 2, 1, 118, 61, 48, 10] = .ok sdpDecodedPacket ∧
    sdpDecodedPacket.Header.AuthenticationData = none ∧
    sdpDecodedPacket ≠ sdpMockPacket := by
  decide

/-- Claim C3, amended: let `P` be a packet of version 1 with one-bit flag fields, as
many 32-bit authentication words as its authentication length says, a non-zero 16-bit
hash, a 16-byte address that is IPv4-mapped with address type 0 or not IPv4-mapped
with address type 1, an empty payload type and a payload that begins with "v=0".
Then `Packet.Marshal` succeeds and `Packet.Unmarshal` of the bytes into a zero-valued
packet succeeds with a packet that has every header field and the payload of `P`,
except that its authentication list is nil when the authentication length is 0.  So
the decoded packet is equal to `P` when the authentication length is not 0 or the
authentication list of `P` is nil. -/
theorem SDP_packet_roundtrip (parse : List Nat → Except String (List Nat))
    (crc : List Nat → Nat) (P : Packet) (a : List Nat) (he : Encodable P.Header a)
    (hV : P.Header.Version = 1) (hhash : P.Header.MessageIDHash ≠ 0)
    (h16 : len P.Header.OriginatingSource = 16) (hPT : P.Header.PayloadType = [])
    (hsdp : (elems P.Payload).take 3 = asciiBytes "v=0") :
    ∃ bytes P1, P.Marshal crc = .ok bytes ∧ Packet.Unmarshal parse Packet.zero bytes = .ok P1 ∧
      P1.Header.Version = P.Header.Version ∧ P1.Header.AddressType = P.Header.AddressType ∧
      P1.Header.Reserved = P.Header.Reserved ∧ P1.Header.MessageType = P.Header.MessageType ∧
      P1.Header.Encrypted = P.Header.Encrypted ∧ P1.Header.Compressed = P.Header.Compressed ∧
      P1.Header.AuthenticationLength = P.Header.AuthenticationLength ∧
      P1.Header.AuthenticationData =
        (if P.Header.AuthenticationLength ≠ 0 then P.Header.AuthenticationData else none) ∧
      P1.Header.MessageIDHash = P.Header.MessageIDHash ∧
      P1.Header.OriginatingSource = P.Header.OriginatingSource ∧
      P1.Header.PayloadType = P.Header.PayloadType ∧
      P1.Payload = P.Payload ∧
      (P.Header.AuthenticationLength ≠ 0 ∨ P.Header.AuthenticationData = none → P1 = P) := by
  obtain ⟨hm, hu⟩ := Packet_roundtrip_core parse crc P a he (Or.inl hPT) (fun _ => Or.inr hsdp)
  have hH : headerToEncode crc P = P.Header := by
    unfold headerToEncode
    rw [if_neg hhash]
  rw [hH] at hu hm
  rw [decodedFrom_zero_eq P.Header (by omega) h16 he.authLength] at hu
  have hpay : (if elems P.Payload = [] then none else some (elems P.Payload)) = P.Payload := by
    cases hP : P.Payload with
    | none =>
      rw [hP, asciiBytes_v0] at hsdp
      simp [elems] at hsdp
    | some l =>
      have hne : l ≠ [] := by
        intro hc
        rw [hP, hc, asciiBytes_v0] at hsdp
        simp [elems] at hsdp
      simp [elems, hne]
  rw [hpay] at hu
  refine ⟨_, _, hm, hu, rfl, rfl, rfl, rfl, rfl, rfl, rfl, rfl, rfl, rfl, rfl, rfl, fun hc => ?_⟩
  obtain ⟨⟨V, A, R, T, E, C, AL, AD, hash, OS, PT⟩, payload⟩ := P
  have h3 : (if AL ≠ 0 then AD else (none : Option (List Nat))) = AD := by
    rcases hc with hc | hc
    · exact if_pos hc
    · have hn : AD = none := hc
      rw [hn]
      exact ite_self _
  show Packet.mk (Header.mk V A R T E C AL (if AL ≠ 0 then AD else none) hash OS PT) payload = _
  rw [h3]

/-- Witness for C3: the mock packet with two authentication words and the payload
"v=0" followed by a line feed is decoded to a packet equal to it. -/
theorem SDP_packet_roundtrip_witness :
    ∃ bytes P1,
      sdpTwoWordsPacket.Marshal crc32IEEE = .ok bytes ∧
      Packet.Unmarshal parseMediaTypeModel Packet.zero bytes = .ok P1 ∧
      P1 = sdpTwoWordsPacket := by
  obtain ⟨bytes, P1, hm, hu, _, _, _, _, _, _, _, _, _, _, _, _, heq⟩ :=
    SDP_packet_roundtrip parseMediaTypeModel crc32IEEE sdpTwoWordsPacket [192, 0, 2, 1]
      ⟨by decide, by decide, by decide, by decide, by decide, by decide, by decide, by decide,
        by decide, Or.inl ⟨by decide, by decide⟩⟩
      (by decide) (by decide) (by decide) (by decide) (by decide)
  exact ⟨bytes, P1, hm, hu, heq (Or.inl (by decide))⟩

end Sap
